import Mathlib

/-!
# Verification of the autograde submission-collection pipeline

Shallow embedding of `src/autograde.py`: the pure path helpers
(`os.path.basename`, `dirname`, `splitext`, `join`), the two identity
regular expressions (as a small leftmost-greedy backtracking matcher over
a token list, matching Python `re.match` semantics for these patterns),
the member `filter`, and the effectful pipeline `extract_zip`,
`extract_files`, `collect` over an explicit filesystem/log state.
-/

set_option maxHeartbeats 1000000

namespace Autograde

/-! ## Path operations (posixpath semantics, on character lists) -/

/-- Characters after the last `/` of a path (`os.path.basename`). -/
def basenameL (l : List Char) : List Char :=
  (l.reverse.takeWhile (fun c => c != '/')).reverse

/-- `p[:i+1]` for `i` the index of the last `/`: the head part of
`os.path.split`, still carrying its trailing slash. -/
def dirheadL (l : List Char) : List Char :=
  (l.reverse.dropWhile (fun c => c != '/')).reverse

/-- Strip trailing slashes, unless the string is all slashes
(the `rstrip` step of `os.path.split`). -/
def stripTrailL (l : List Char) : List Char :=
  if l.all (fun c => c == '/') then l
  else (l.reverse.dropWhile (fun c => c == '/')).reverse

/-- `os.path.dirname`. -/
def dirnameL (l : List Char) : List Char :=
  stripTrailL (dirheadL l)

/-- Split a basename at its last dot: `some (pre, post)` with
`b = pre ++ '.' :: post` and `post` dot-free. -/
def splitLastDot : List Char → Option (List Char × List Char)
  | [] => none
  | c :: cs =>
    match splitLastDot cs with
    | some (pre, post) => some (c :: pre, post)
    | none => if c == '.' then some ([], cs) else none

/-- The extension part of `os.path.splitext`, computed on the basename:
nonempty only when the last dot has a non-dot character before it within
the basename (so leading dots do not start an extension). -/
def splitextExt (b : List Char) : List Char :=
  match splitLastDot b with
  | some (pre, post) => if pre.any (fun c => c != '.') then '.' :: post else []
  | none => []

def basename (p : String) : String := String.mk (basenameL p.data)

def dirname (p : String) : String := String.mk (dirnameL p.data)

/-- `os.path.splitext`. -/
def splitext (p : String) : String × String :=
  let e := splitextExt (basenameL p.data)
  (String.mk (p.data.take (p.data.length - e.length)), String.mk e)

def startsWithS (s pre : String) : Bool := pre.data.isPrefixOf s.data

def endsSlash (s : String) : Bool := s.data.getLast? == some '/'

/-- `os.path.join` for two components. -/
def join (a b : String) : String :=
  if startsWithS b "/" then b
  else if a == "" || endsSlash a then a ++ b
  else a ++ "/" ++ b

/-! ## The identity patterns, as a leftmost-greedy backtracking matcher

`re.match` on the two patterns of `collect` is modelled by a token list:
literal strings, captured alternations of literals, greedy `+` and `*`
over a character class, and an optional literal.  Candidate consumptions
are enumerated in exactly Python's backtracking order (longest first for
greedy quantifiers, alternatives in written order, `?` match-first), and
the first full match wins. -/

inductive Tok where
  | lit  : List Char → Tok
  | alt  : String → List (List Char) → Tok
  | plus : String → (Char → Bool) → Tok
  | star : String → (Char → Bool) → Tok
  | opt  : Char → Tok

/-- Greedy candidates for `p*` on `s`: `(consumed, rest)` pairs, longest
consumed first, ending with the empty consumption. -/
def greedyCands (p : Char → Bool) : List Char → List (List Char × List Char)
  | [] => [([], [])]
  | c :: cs =>
    if p c then
      (greedyCands p cs).map (fun pr => (c :: pr.1, pr.2)) ++ [([], c :: cs)]
    else [([], c :: cs)]

/-- Candidate consumptions of one token, in Python backtracking order. -/
def tokCands : Tok → List Char → List (List Char × List Char)
  | .lit l, s => if l.isPrefixOf s then [(l, s.drop l.length)] else []
  | .alt _ ls, s =>
    ls.filterMap (fun l => if l.isPrefixOf s then some (l, s.drop l.length) else none)
  | .plus _ p, s => (greedyCands p s).dropLast
  | .star _ p, s => greedyCands p s
  | .opt c, s =>
    match s with
    | [] => [([], [])]
    | c2 :: cs => if c2 == c then [([c], cs), ([], c2 :: cs)] else [([], c2 :: cs)]

def tokName : Tok → Option String
  | .alt n _ => some n
  | .plus n _ => some n
  | .star n _ => some n
  | _ => none

/-- First full match of the token list against a prefix of `s`
(`re.match` does not anchor the end), with its named captures. -/
def matchToks : List Tok → List Char → Option (List (String × String))
  | [], _ => some []
  | t :: ts, s =>
    (tokCands t s).findSome? (fun pr =>
      (matchToks ts pr.2).map (fun g =>
        match tokName t with
        | some n => (n, String.mk pr.1) :: g
        | none => g))

def digitB (c : Char) : Bool := '0' ≤ c && c ≤ '9'

def notUnderscore (c : Char) : Bool := c != '_'

def notNewline (c : Char) : Bool := c != '\n'

/-- `^(?P<type>h)(?P<number>[0-9]+)_(?P<firstname>[^_]+)_(?P<lastname>[^_]+)_(?P<filename>.+)` -/
def pattern_student : List Tok :=
  [.alt "type" [['h']], .plus "number" digitB, .lit ['_'],
   .plus "firstname" notUnderscore, .lit ['_'],
   .plus "lastname" notUnderscore, .lit ['_'],
   .plus "filename" notNewline]

/-- `^(?P<type>Gruppe|Group) (?P<number>[0-9]+)_(?P<firstname>[^_]*)_?(?P<lastname>[^_]*)_(?P<filename>.+)` -/
def pattern_group : List Tok :=
  [.alt "type" ["Gruppe".data, "Group".data], .lit [' '],
   .plus "number" digitB, .lit ['_'],
   .star "firstname" notUnderscore, .opt '_',
   .star "lastname" notUnderscore, .lit ['_'],
   .plus "filename" notNewline]

/-- `match.group(name)` on a successful match. -/
def matchGroup (g : List (String × String)) (n : String) : String :=
  (List.lookup n g).getD ""

/-! ## Filesystem and run state

Files carry either opaque bytes or an archive member list (the uniform
model of both zip and 7z containers: a member is a relative path plus its
data; a name ending in `/` is a directory entry).  Directories are a
list of normalized paths; creation is idempotent and order-preserving,
file writes overwrite in place, so re-runs can be compared for equality. -/

inductive FileData where
  | plain : String → FileData
  | zipData : List (String × FileData) → FileData

structure FS where
  dirs : List String
  files : List (String × FileData)

structure Submission where
  type : String
  number : String
  dir : String
deriving DecidableEq

inductive LogEvent where
  | debug : String → LogEvent
  | info : String → LogEvent
  | fatal : String → LogEvent
deriving DecidableEq

inductive Err where
  | notImplementedError : Err
  | badZipFile : Err
  | fileNotFound : Err
  | fuelOut : Err
deriving DecidableEq

structure St where
  fs : FS
  log : List LogEvent
  tmp : Nat

/-- Is `q` equal to `pre` or strictly inside the directory `pre`? -/
def under (pre q : String) : Bool := q == pre || startsWithS q (pre ++ "/")

/-- The proper ancestor directories created by `os.makedirs`: every
prefix of the path that ends just before a `/` (the filesystem root
excluded), outermost first. -/
def slashPrefixes (pre : List Char) : List Char → List (List Char)
  | [] => []
  | c :: cs =>
    if c == '/' && !pre.isEmpty then pre :: slashPrefixes (pre ++ [c]) cs
    else slashPrefixes (pre ++ [c]) cs

def FS.mkdirOne (fs : FS) (p : String) : FS :=
  if fs.dirs.contains p then fs else { fs with dirs := fs.dirs ++ [p] }

/-- `os.makedirs(p, exist_ok=True)`. -/
def FS.makedirs (fs : FS) (p : String) : FS :=
  let p2 := String.mk (stripTrailL p.data)
  ((slashPrefixes [] p2.data).map String.mk ++ [p2]).foldl FS.mkdirOne fs

def FS.isdir (fs : FS) (p : String) : Bool :=
  fs.dirs.contains (String.mk (stripTrailL p.data))

def setFile : List (String × FileData) → String → FileData → List (String × FileData)
  | [], p, d => [(p, d)]
  | (q, e) :: rest, p, d =>
    if q == p then (q, d) :: rest else (q, e) :: setFile rest p d

/-- Write a file, creating its parent directories. -/
def FS.writeFile (fs : FS) (p : String) (d : FileData) : FS :=
  let parent := String.mk (dirnameL p.data)
  let fs1 := if parent == "" then fs else fs.makedirs parent
  { fs1 with files := setFile fs1.files p d }

def FS.readFile? (fs : FS) (p : String) : Option FileData :=
  (fs.files.find? (fun pr => pr.1 == p)).map Prod.snd

/-- Remove everything at or below `p` (temporary-directory cleanup). -/
def FS.removeUnder (fs : FS) (p : String) : FS :=
  { dirs := fs.dirs.filter (fun d => !under p d),
    files := fs.files.filter (fun pr => !under p pr.1) }

/-- `shutil.copytree(src, dst, dirs_exist_ok=True)`: merge the tree below
`src` into `dst`, overwriting files on name collision. -/
def FS.copytree (fs : FS) (src dst : String) : FS :=
  let srcN := String.mk (stripTrailL src.data)
  let fs1 := fs.makedirs dst
  let fs2 := fs.dirs.foldl
    (fun acc d =>
      if startsWithS d (srcN ++ "/") then
        acc.makedirs (dst ++ String.mk (d.data.drop srcN.data.length))
      else acc) fs1
  fs.files.foldl
    (fun acc pr =>
      if startsWithS pr.1 (srcN ++ "/") then
        acc.writeFile (dst ++ String.mk (pr.1.data.drop srcN.data.length)) pr.2
      else acc) fs2

/-- The transient extraction directory produced for the `n`-th
`tempfile.TemporaryDirectory()` of a run. -/
def tmpName (n : Nat) : String := "/tmp/pytmp" ++ String.mk (List.replicate n 'p')

def cleanupTmp (t : String) (st : St) : St :=
  { st with fs := st.fs.removeUnder t }

/-- `shutil.copyfile`. -/
def copyfile (src dst : String) (st : St) : Except Err Unit × St :=
  match st.fs.readFile? src with
  | some d => (Except.ok (), { st with fs := st.fs.writeFile dst d })
  | none => (Except.error Err.fileNotFound, st)

/-! ## The pipeline -/

/-- `filter` of `autograde.py`: drop macOS resource entries, members
whose path starts with a hidden-file dot, and members whose base
filename starts with a dot. -/
def filter (items : List String) : List String :=
  items.filter (fun i =>
    !(startsWithS i "__MACOSX/") && !(startsWithS i ".") &&
      !(startsWithS (basename i) "."))

/-- Extract one filtered member to `target` (a directory entry becomes a
directory; a file entry is written, parents created), as
`zipFile.extract(item, path=target)` does. -/
def writeMemberFS (ms : List (String × FileData)) (target : String) (fs : FS)
    (name : String) : FS :=
  match ms.find? (fun m => m.1 == name) with
  | some (_, d) =>
    if endsSlash name then fs.makedirs (join target name)
    else fs.writeFile (join target name) d
  | none => fs

/-- `extract_zip`: both supported container formats expose the same
member-list/extract capability, so they are modelled uniformly; any
other extension raises `NotImplementedError`. -/
def extract_zip (inputfile target : String) (st : St) :
    Except Err (List String) × St :=
  let ext := (splitext inputfile).2
  if ext == ".zip" || ext == ".7z" then
    match st.fs.readFile? inputfile with
    | some (FileData.zipData ms) =>
      let kept := filter (ms.map Prod.fst)
      (Except.ok (kept.map (fun f => join target f)),
       { st with fs := kept.foldl (writeMemberFS ms target) st.fs })
    | some (FileData.plain _) => (Except.error Err.badZipFile, st)
    | none => (Except.error Err.fileNotFound, st)
  else (Except.error Err.notImplementedError, st)

/-- The per-file loop of `extract_files`: the first `.ipynb` file is
copied to the canonical notebook name, later ones only log a fatal
message; a directory whose parent directory is named `data` is merged
into the submission's `data` subtree; anything else is ignored. -/
def placeLoop (files : List String) (notebook : Option String)
    (subdir notebook_filename : String) (st : St) :
    Except Err (Option String) × St :=
  match files with
  | [] => (Except.ok notebook, st)
  | f :: rest =>
    let st0 := { st with log := st.log ++ [.debug ("> " ++ f)] }
    if (splitext f).2 == ".ipynb" then
      let st1 := { st0 with log := st0.log ++ [.debug ("notebook found: " ++ f)] }
      match notebook with
      | none =>
        match copyfile f (join subdir notebook_filename) st1 with
        | (Except.ok _, st2) => placeLoop rest (some f) subdir notebook_filename st2
        | (Except.error e, st2) => (Except.error e, st2)
      | some nb =>
        placeLoop rest (some nb) subdir notebook_filename
          { st1 with log := st1.log ++ [.fatal "Multiple notebooks found in submission!"] }
    else if st0.fs.isdir f && basename (dirname f) == "data" then
      placeLoop rest notebook subdir notebook_filename
        { st0 with fs := st0.fs.copytree f (join subdir "data"),
                   log := st0.log ++ [.debug "Data dir found"] }
    else placeLoop rest notebook subdir notebook_filename st0

/-- `extract_files`: materialize the submission's file set (the bare
notebook itself, or the members of its archive extracted to a fresh
scratch directory), place the interior files, report a fatal condition
when no notebook was found, and discard the scratch directory on every
exit path. -/
def extract_files (inputfile target : String) (submission : Submission)
    (notebook_filename : String) (st : St) : Except Err (List String) × St :=
  let ext := (splitext inputfile).2
  let t := tmpName st.tmp
  let st1 : St := { st with tmp := st.tmp + 1 }
  let r :=
    if ext == ".ipynb" then (Except.ok [inputfile], st1)
    else if ext == ".zip" || ext == ".7z" then extract_zip inputfile t st1
    else (Except.error Err.notImplementedError, st1)
  match r with
  | (Except.ok files, st2) =>
    match placeLoop files none submission.dir notebook_filename st2 with
    | (Except.ok notebook, st3) =>
      let st4 := if notebook.isNone then
          { st3 with log := st3.log ++ [.fatal "No notebook found in submission!"] }
        else st3
      (Except.ok files, cleanupTmp t st4)
    | (Except.error e, st3) => (Except.error e, cleanupTmp t st3)
  | (Except.error e, st2) => (Except.error e, cleanupTmp t st2)

/-- The member loop of `collect`'s unmatched-archive branch: each
extracted member is collected as a brand-new input and the resulting
submissions are concatenated; an uncaught exception from one member
aborts the remaining members. -/
def collectLoop (rec : String → St → Except Err (List Submission) × St) :
    List String → St → Except Err (List Submission) × St
  | [], st => (Except.ok [], st)
  | f :: rest, st =>
    match rec f st with
    | (Except.ok subs, st1) =>
      match collectLoop rec rest st1 with
      | (Except.ok subs2, st2) => (Except.ok (subs ++ subs2), st2)
      | (Except.error e, st2) => (Except.error e, st2)
    | (Except.error e, st1) => (Except.error e, st1)

/-- `collect`: classify the basename (student pattern first, then group
pattern); a match creates the target directory and places the interior
files; an unmatched archive is extracted and recursed into; an unmatched
notebook is reported and skipped; anything else raises.  The `fuel`
argument only bounds the (by design unbounded) archive recursion depth. -/
def collect : Nat → String → String → String → String → St →
    Except Err (List Submission) × St
  | 0, _, _, _, _, st => (Except.error Err.fuelOut, st)
  | fuel + 1, inputfile, target, assignment, notebook_filename, st =>
    let ext := (splitext inputfile).2
    let bn := basename inputfile
    let mres :=
      match matchToks pattern_student bn.data with
      | some g => some g
      | none => matchToks pattern_group bn.data
    match mres with
    | some g =>
      let sub : Submission :=
        if matchGroup g "type" == "h" then
          { type := "student", number := matchGroup g "number",
            dir := join (join target (matchGroup g "number")) assignment }
        else
          { type := "group", number := "group" ++ matchGroup g "number",
            dir := join (join target ("group" ++ matchGroup g "number")) assignment }
      let st1 : St :=
        { st with fs := st.fs.makedirs sub.dir,
                  log := st.log ++ [.info (sub.type ++ " submission found: " ++ bn)] }
      match extract_files inputfile target sub notebook_filename st1 with
      | (Except.ok _, st2) => (Except.ok [sub], st2)
      | (Except.error e, st2) => (Except.error e, st2)
    | none =>
      if ext == ".ipynb" then
        (Except.ok [],
         { st with log := st.log ++ [.fatal ("Unmatched notebook found in " ++ inputfile)] })
      else if ext == ".zip" || ext == ".7z" then
        let t := tmpName st.tmp
        let st1 : St :=
          { st with tmp := st.tmp + 1,
                    log := st.log ++ [.info ("Extracting " ++ inputfile ++ " to " ++ t)] }
        match extract_zip inputfile t st1 with
        | (Except.ok files, st2) =>
          match collectLoop
              (fun f st2 => collect fuel f target assignment notebook_filename st2)
              files st2 with
          | (Except.ok subs, st3) => (Except.ok subs, cleanupTmp t st3)
          | (Except.error e, st3) => (Except.error e, cleanupTmp t st3)
        | (Except.error e, st2) => (Except.error e, cleanupTmp t st2)
      else
        (Except.error Err.notImplementedError,
         { st with log := st.log ++ [.fatal ("Dont know what to do with file: " ++ inputfile)] })

/-- Path segments: the path split at every `/`. -/
def segmentsL : List Char → List (List Char)
  | [] => [[]]
  | c :: cs =>
    if c == '/' then [] :: segmentsL cs
    else
      match segmentsL cs with
      | s :: rest => (c :: s) :: rest
      | [] => [[c]]

/-- Following the spec wording of C2 (for comparison with the code's
`filter`): a platform-metadata artifact is an entry under the reserved
macOS resource name, or an entry any of whose path segments begins with
the hidden-file marker. -/
def specPlatformArtifact (i : String) : Bool :=
  startsWithS i "__MACOSX/" ||
    (segmentsL i.data).any (fun seg => ['.'].isPrefixOf seg)

/-- The fatal log entry recorded for every notebook after the first. -/
def isMultiFatal : LogEvent → Bool
  | .fatal m => m == "Multiple notebooks found in submission!"
  | _ => false

def isFatal : LogEvent → Bool
  | .fatal _ => true
  | _ => false

def countMulti (log : List LogEvent) : Nat := (log.filter isMultiFatal).length

def countIpynb (files : List String) : Nat :=
  (files.filter (fun f => (splitext f).2 == ".ipynb")).length

/-! ## Worked examples of the path helpers and the matcher -/

example : basename "/a/b/c.txt" = "c.txt" := by decide
example : dirname "/a/b/c.txt" = "/a/b" := by decide
example : dirname "/tmp/x/data/" = "/tmp/x/data" := by decide
example : basename (dirname "/tmp/x/data/") = "data" := by decide
example : splitext "a/b.tar.gz" = ("a/b.tar", ".gz") := by decide
example : splitext ".bashrc" = (".bashrc", "") := by decide
example : splitext "/tmp/x/data/" = ("/tmp/x/data/", "") := by decide
example : join "a" "b" = "a/b" := by decide
example : join "a/" "b" = "a/b" := by decide
example : join "a" "/b" = "/b" := by decide

example :
    matchToks pattern_student "h42_Jane_Doe_hw3.ipynb".data =
      some [("type", "h"), ("number", "42"), ("firstname", "Jane"),
            ("lastname", "Doe"), ("filename", "hw3.ipynb")] := by decide

example :
    matchToks pattern_group "Gruppe 7__Meier_hw3.zip".data =
      some [("type", "Gruppe"), ("number", "7"), ("firstname", ""),
            ("lastname", "Meier"), ("filename", "hw3.zip")] := by decide

example : matchToks pattern_student "Gruppe 7__Meier_hw3.zip".data = none := by decide

example : matchToks pattern_group "Group 12_Max__rest.7z".data =
      some [("type", "Group"), ("number", "12"), ("firstname", "Max"),
            ("lastname", ""), ("filename", "rest.7z")] := by decide

/-! ## Matcher lemmas

The greedy candidate enumeration tries the maximal class-run first, so
when the input decomposes along the pattern's literal separators the
first candidate chain succeeds and determines every capture. -/

theorem isPrefixOf_append_self (l r : List Char) : l.isPrefixOf (l ++ r) = true := by
  induction l with
  | nil => simp [List.isPrefixOf]
  | cons c cs ih => simp [List.isPrefixOf, ih]

theorem greedyCands_eq (p : Char → Bool) (run rest : List Char)
    (hall : ∀ c ∈ run, p c = true)
    (hrest : ∀ c cs, rest = c :: cs → p c = false) :
    ∃ tl, greedyCands p (run ++ rest) = (run, rest) :: tl ∧ tl.length = run.length := by
  induction run with
  | nil =>
    cases rest with
    | nil => exact ⟨[], rfl, rfl⟩
    | cons c cs =>
      refine ⟨[], ?_, rfl⟩
      simp [greedyCands, hrest c cs rfl]
  | cons r rs ih =>
    have hr : p r = true := hall r (by simp)
    obtain ⟨tl, htl, hlen⟩ := ih (fun c hc => hall c (by simp [hc]))
    refine ⟨tl.map (fun pr => (r :: pr.1, pr.2)) ++ [([], r :: (rs ++ rest))], ?_, ?_⟩
    · simp [greedyCands, hr, htl]
    · simp [hlen]

theorem matchToks_star (n : String) (p : Char → Bool) (ts : List Tok)
    (run rest : List Char) (g : List (String × String))
    (hall : ∀ c ∈ run, p c = true)
    (hrest : ∀ c cs, rest = c :: cs → p c = false)
    (hcont : matchToks ts rest = some g) :
    matchToks (.star n p :: ts) (run ++ rest) = some ((n, String.mk run) :: g) := by
  obtain ⟨tl, htl, _⟩ := greedyCands_eq p run rest hall hrest
  simp [matchToks, tokCands, htl, hcont, tokName]

theorem matchToks_plus (n : String) (p : Char → Bool) (ts : List Tok)
    (run rest : List Char) (g : List (String × String))
    (hne : run ≠ [])
    (hall : ∀ c ∈ run, p c = true)
    (hrest : ∀ c cs, rest = c :: cs → p c = false)
    (hcont : matchToks ts rest = some g) :
    matchToks (.plus n p :: ts) (run ++ rest) = some ((n, String.mk run) :: g) := by
  obtain ⟨tl, htl, hlen⟩ := greedyCands_eq p run rest hall hrest
  have htlne : tl ≠ [] := by
    intro h
    apply hne
    have := hlen
    rw [h] at this
    exact List.length_eq_zero.mp this.symm
  cases tl with
  | nil => exact absurd rfl htlne
  | cons a tl2 =>
    simp [matchToks, tokCands, htl, List.dropLast, hcont, tokName]

theorem matchToks_lit (l : List Char) (ts : List Tok) (rest : List Char) :
    matchToks (.lit l :: ts) (l ++ rest) = matchToks ts rest := by
  have hc : tokCands (.lit l) (l ++ rest) = [(l, rest)] := by
    simp [tokCands, isPrefixOf_append_self, List.drop_left]
  simp only [matchToks, hc, List.findSome?_cons, List.findSome?_nil, tokName]
  cases matchToks ts rest with
  | none => rfl
  | some g => rfl

theorem matchToks_alt_head (n : String) (l1 : List Char) (ls : List (List Char))
    (ts : List Tok) (rest : List Char) (g : List (String × String))
    (hcont : matchToks ts rest = some g) :
    matchToks (.alt n (l1 :: ls) :: ts) (l1 ++ rest) = some ((n, String.mk l1) :: g) := by
  have hp := isPrefixOf_append_self l1 rest
  have hd : (l1 ++ rest).drop l1.length = rest := List.drop_left l1 rest
  simp [matchToks, tokCands, hp, hd, hcont, tokName]

theorem matchToks_alt_second (n : String) (l1 l2 : List Char) (ts : List Tok)
    (rest : List Char) (g : List (String × String))
    (h1 : l1.isPrefixOf (l2 ++ rest) = false)
    (hcont : matchToks ts rest = some g) :
    matchToks (.alt n [l1, l2] :: ts) (l2 ++ rest) = some ((n, String.mk l2) :: g) := by
  have h1p : ¬ l1 <+: l2 ++ rest := by
    intro h
    rw [← List.isPrefixOf_iff_prefix] at h
    exact absurd h1 (by simp [h])
  have hc : tokCands (.alt n [l1, l2]) (l2 ++ rest) = [(l2, rest)] := by
    simp [tokCands, h1p, isPrefixOf_append_self, List.drop_left]
  simp [matchToks, hc, hcont, tokName]

theorem matchToks_alt_none (n : String) (ls : List (List Char)) (ts : List Tok)
    (s : List Char) (hall : ∀ l ∈ ls, l.isPrefixOf s = false) :
    matchToks (.alt n ls :: ts) s = none := by
  have hc : tokCands (.alt n ls) s = [] := by
    simp only [tokCands]
    rw [List.filterMap_eq_nil_iff]
    intro l hl
    simp [hall l hl]
  simp [matchToks, hc]

theorem matchToks_opt_consume (c : Char) (ts : List Tok) (rest : List Char)
    (g : List (String × String)) (hcont : matchToks ts rest = some g) :
    matchToks (.opt c :: ts) (c :: rest) = some g := by
  simp [matchToks, tokCands, hcont, tokName]

theorem takeWhile_all (p : Char → Bool) (l : List Char) :
    ∀ c ∈ l.takeWhile p, p c = true := by
  induction l with
  | nil => simp
  | cons a as ih =>
    by_cases h : p a
    · simp only [List.takeWhile_cons, h, if_true]
      intro c hc
      rcases List.mem_cons.mp hc with h1 | h1
      · rw [h1]; exact h
      · exact ih c h1
    · simp [List.takeWhile_cons, h]

theorem dropWhile_head_false (p : Char → Bool) (l : List Char) :
    ∀ c cs, l.dropWhile p = c :: cs → p c = false := by
  induction l with
  | nil => intro c cs h; exact absurd h (by simp)
  | cons a as ih =>
    intro c cs h
    by_cases hp : p a
    · rw [List.dropWhile_cons, if_pos hp] at h
      exact ih c cs h
    · rw [List.dropWhile_cons, if_neg hp] at h
      cases h
      exact Bool.not_eq_true _ ▸ (by simpa using hp)

/-- The final `(?P<filename>.+)` token: on a nonempty input whose head is
not a newline it captures the maximal newline-free prefix. -/
theorem matchToks_filename (n : String) (rest : List Char)
    (hne : rest ≠ []) (hhd : ∀ c cs, rest = c :: cs → notNewline c = true) :
    matchToks [.plus n notNewline] rest =
      some [(n, String.mk (rest.takeWhile notNewline))] := by
  have hsplit : rest.takeWhile notNewline ++ rest.dropWhile notNewline = rest :=
    List.takeWhile_append_dropWhile notNewline rest
  have hne2 : rest.takeWhile notNewline ≠ [] := by
    cases hr : rest with
    | nil => exact absurd hr hne
    | cons c cs =>
      have := hhd c cs hr
      simp [hr, List.takeWhile_cons, this]
  have := matchToks_plus n notNewline [] (rest.takeWhile notNewline)
    (rest.dropWhile notNewline) [] hne2 (takeWhile_all _ _)
    (dropWhile_head_false _ _) rfl
  rwa [hsplit] at this

/-- Evaluation of the student pattern on a grammar-shaped basename:
greedy matching recovers exactly the written decomposition. -/
theorem match_student_full (ds fn ln rest : List Char)
    (hds : ds ≠ []) (hdsall : ∀ c ∈ ds, digitB c = true)
    (hfn : fn ≠ []) (hfnall : ∀ c ∈ fn, notUnderscore c = true)
    (hln : ln ≠ []) (hlnall : ∀ c ∈ ln, notUnderscore c = true)
    (hrest : rest ≠ []) (hresthd : ∀ c cs, rest = c :: cs → notNewline c = true) :
    matchToks pattern_student ('h' :: (ds ++ '_' :: (fn ++ '_' :: (ln ++ '_' :: rest)))) =
      some [("type", "h"), ("number", String.mk ds), ("firstname", String.mk fn),
            ("lastname", String.mk ln),
            ("filename", String.mk (rest.takeWhile notNewline))] := by
  have h8 := matchToks_filename "filename" rest hrest hresthd
  have h7 := matchToks_lit ['_'] [.plus "filename" notNewline] rest
  rw [h8] at h7
  have h6 := matchToks_plus "lastname" notUnderscore
    [.lit ['_'], .plus "filename" notNewline] ln ('_' :: rest) _
    hln hlnall (fun c cs h => by cases h; decide) h7
  have h5 := matchToks_lit ['_']
    [.plus "lastname" notUnderscore, .lit ['_'], .plus "filename" notNewline]
    (ln ++ '_' :: rest)
  rw [show (['_'] ++ (ln ++ '_' :: rest)) = '_' :: (ln ++ '_' :: rest) from rfl, h6] at h5
  have h4 := matchToks_plus "firstname" notUnderscore
    [.lit ['_'], .plus "lastname" notUnderscore, .lit ['_'], .plus "filename" notNewline]
    fn ('_' :: (ln ++ '_' :: rest)) _
    hfn hfnall (fun c cs h => by cases h; decide) h5
  have h3 := matchToks_lit ['_']
    [.plus "firstname" notUnderscore, .lit ['_'], .plus "lastname" notUnderscore,
     .lit ['_'], .plus "filename" notNewline]
    (fn ++ '_' :: (ln ++ '_' :: rest))
  rw [show (['_'] ++ (fn ++ '_' :: (ln ++ '_' :: rest))) =
        '_' :: (fn ++ '_' :: (ln ++ '_' :: rest)) from rfl, h4] at h3
  have h2 := matchToks_plus "number" digitB
    [.lit ['_'], .plus "firstname" notUnderscore, .lit ['_'],
     .plus "lastname" notUnderscore, .lit ['_'], .plus "filename" notNewline]
    ds ('_' :: (fn ++ '_' :: (ln ++ '_' :: rest))) _
    hds hdsall (fun c cs h => by cases h; decide) h3
  have h1 := matchToks_alt_head "type" ['h'] []
    [.plus "number" digitB, .lit ['_'], .plus "firstname" notUnderscore, .lit ['_'],
     .plus "lastname" notUnderscore, .lit ['_'], .plus "filename" notNewline]
    (ds ++ '_' :: (fn ++ '_' :: (ln ++ '_' :: rest))) _ h2
  exact h1

/-- Evaluation of the group pattern on a grammar-shaped basename; the
first/last name segments may be empty. -/
theorem match_group_full (ty ds fn ln rest : List Char)
    (hty : ty = "Gruppe".data ∨ ty = "Group".data)
    (hds : ds ≠ []) (hdsall : ∀ c ∈ ds, digitB c = true)
    (hfnall : ∀ c ∈ fn, notUnderscore c = true)
    (hlnall : ∀ c ∈ ln, notUnderscore c = true)
    (hrest : rest ≠ []) (hresthd : ∀ c cs, rest = c :: cs → notNewline c = true) :
    matchToks pattern_group
        (ty ++ ' ' :: (ds ++ '_' :: (fn ++ '_' :: (ln ++ '_' :: rest)))) =
      some [("type", String.mk ty), ("number", String.mk ds),
            ("firstname", String.mk fn), ("lastname", String.mk ln),
            ("filename", String.mk (rest.takeWhile notNewline))] := by
  have h8 := matchToks_filename "filename" rest hrest hresthd
  have h7 := matchToks_lit ['_'] [.plus "filename" notNewline] rest
  rw [h8] at h7
  have h6 := matchToks_star "lastname" notUnderscore
    [.lit ['_'], .plus "filename" notNewline] ln ('_' :: rest) _
    hlnall (fun c cs h => by cases h; decide) h7
  have h5 := matchToks_opt_consume '_'
    [.star "lastname" notUnderscore, .lit ['_'], .plus "filename" notNewline]
    (ln ++ '_' :: rest) _ h6
  have h4 := matchToks_star "firstname" notUnderscore
    [.opt '_', .star "lastname" notUnderscore, .lit ['_'], .plus "filename" notNewline]
    fn ('_' :: (ln ++ '_' :: rest)) _
    hfnall (fun c cs h => by cases h; decide) h5
  have h3 := matchToks_lit ['_']
    [.star "firstname" notUnderscore, .opt '_', .star "lastname" notUnderscore,
     .lit ['_'], .plus "filename" notNewline]
    (fn ++ '_' :: (ln ++ '_' :: rest))
  rw [show (['_'] ++ (fn ++ '_' :: (ln ++ '_' :: rest))) =
        '_' :: (fn ++ '_' :: (ln ++ '_' :: rest)) from rfl, h4] at h3
  have h2 := matchToks_plus "number" digitB
    [.lit ['_'], .star "firstname" notUnderscore, .opt '_',
     .star "lastname" notUnderscore, .lit ['_'], .plus "filename" notNewline]
    ds ('_' :: (fn ++ '_' :: (ln ++ '_' :: rest))) _
    hds hdsall (fun c cs h => by cases h; decide) h3
  have h1 := matchToks_lit [' ']
    [.plus "number" digitB, .lit ['_'], .star "firstname" notUnderscore, .opt '_',
     .star "lastname" notUnderscore, .lit ['_'], .plus "filename" notNewline]
    (ds ++ '_' :: (fn ++ '_' :: (ln ++ '_' :: rest)))
  rw [show ([' '] ++ (ds ++ '_' :: (fn ++ '_' :: (ln ++ '_' :: rest)))) =
        ' ' :: (ds ++ '_' :: (fn ++ '_' :: (ln ++ '_' :: rest))) from rfl, h2] at h1
  rcases hty with h | h
  · subst h
    exact matchToks_alt_head "type" "Gruppe".data ["Group".data] _ _ _ h1
  · subst h
    refine matchToks_alt_second "type" "Gruppe".data "Group".data _ _ _ ?_ h1
    show (['G', 'r', 'u', 'p', 'p', 'e'] : List Char).isPrefixOf
        (['G', 'r', 'o', 'u', 'p'] ++ ' ' :: (ds ++ '_' :: (fn ++ '_' :: (ln ++ '_' :: rest)))) = false
    simp [List.isPrefixOf]

/-- No basename starting with `G` matches the student pattern. -/
theorem match_student_G_none (s : List Char) :
    matchToks pattern_student ('G' :: s) = none := by
  apply matchToks_alt_none
  intro l hl
  rcases List.mem_singleton.mp hl with h
  subst h
  simp [List.isPrefixOf]

/-! ## Path lemmas -/

theorem data_append (a b : String) : (a ++ b).data = a.data ++ b.data := rfl

theorem mk_append (a b : List Char) :
    (String.mk a ++ String.mk b : String) = String.mk (a ++ b) := rfl

theorem takeWhile_append_stop (p : Char → Bool) (xs : List Char) (y : Char)
    (ys : List Char) (hxs : ∀ c ∈ xs, p c = true) (hy : p y = false) :
    (xs ++ y :: ys).takeWhile p = xs := by
  induction xs with
  | nil => simp [List.takeWhile_cons, hy]
  | cons a as ih =>
    have ha : p a = true := hxs a (by simp)
    simp [List.takeWhile_cons, ha, ih (fun c hc => hxs c (by simp [hc]))]

theorem takeWhile_all_eq (p : Char → Bool) (xs : List Char)
    (hxs : ∀ c ∈ xs, p c = true) : xs.takeWhile p = xs := by
  induction xs with
  | nil => rfl
  | cons a as ih =>
    have ha : p a = true := hxs a (by simp)
    simp [List.takeWhile_cons, ha, ih (fun c hc => hxs c (by simp [hc]))]

/-- `basename` of a path whose final component `b` is slash-free. -/
theorem basenameL_concat (a b : List Char) (hb : ∀ c ∈ b, (c != '/') = true) :
    basenameL (a ++ '/' :: b) = b := by
  unfold basenameL
  rw [List.reverse_append, List.reverse_cons, List.append_assoc]
  simp only [List.singleton_append]
  rw [takeWhile_append_stop _ b.reverse '/' a.reverse
    (fun c hc => hb c (List.mem_reverse.mp hc)) (by decide)]
  exact List.reverse_reverse b

theorem basenameL_no_slash (b : List Char) (hb : ∀ c ∈ b, (c != '/') = true) :
    basenameL b = b := by
  unfold basenameL
  rw [takeWhile_all_eq _ b.reverse (fun c hc => hb c (List.mem_reverse.mp hc))]
  exact List.reverse_reverse b

/-- The extension computed by `splitext` depends only on the basename. -/
theorem splitext_ext_eq (p : String) :
    (splitext p).2 = String.mk (splitextExt (basenameL p.data)) := rfl

theorem join_spell (a b : String) (hb : startsWithS b "/" = false)
    (ha : (a == "") = false) (has : endsSlash a = false) :
    join a b = a ++ "/" ++ b := by
  unfold join
  rw [hb, ha, has]
  rfl

/-- Extension of `join t b` for a slash-free, non-absolute `b` under a
nonempty directory `t` without trailing slash. -/
theorem splitext_join (t b : String) (hb : ∀ c ∈ b.data, (c != '/') = true)
    (hbs : startsWithS b "/" = false) (ht : (t == "") = false)
    (hts : endsSlash t = false) :
    (splitext (join t b)).2 = String.mk (splitextExt b.data) := by
  rw [join_spell t b hbs ht hts, splitext_ext_eq]
  have : (t ++ "/" ++ b).data = t.data ++ '/' :: b.data := by
    rw [data_append, data_append]
    simp
  rw [this, basenameL_concat t.data b.data hb]

/-- Basename of `join t b` for a slash-free, non-absolute `b`. -/
theorem basename_join (t b : String) (hb : ∀ c ∈ b.data, (c != '/') = true)
    (hbs : startsWithS b "/" = false) (ht : (t == "") = false)
    (hts : endsSlash t = false) :
    basename (join t b) = b := by
  rw [join_spell t b hbs ht hts]
  unfold basename
  have : (t ++ "/" ++ b).data = t.data ++ '/' :: b.data := by
    rw [data_append, data_append]
    simp
  rw [this, basenameL_concat t.data b.data hb]

theorem tmpName_ne_empty (n : Nat) : ((tmpName n) == "") = false := by
  cases n <;> rfl

theorem tmpName_no_trailing_slash (n : Nat) : endsSlash (tmpName n) = false := by
  unfold tmpName endsSlash
  rw [data_append, List.getLast?_append, List.getLast?_replicate]
  cases n with
  | zero => rfl
  | succ k => simp

theorem startsWithS_trans (s a b : String) (h1 : startsWithS s a = true)
    (h2 : startsWithS a b = true) : startsWithS s b = true := by
  unfold startsWithS at *
  rw [List.isPrefixOf_iff_prefix] at *
  exact h2.trans h1

theorem startsWithS_append_left (a b : String) :
    startsWithS (a ++ b) a = true := by
  unfold startsWithS
  rw [data_append, List.isPrefixOf_iff_prefix]
  exact List.prefix_append a.data b.data

theorem tmpName_startsWith_tmp (n : Nat) :
    startsWithS (tmpName n) "/tmp/" = true := by
  unfold tmpName startsWithS
  rw [data_append]
  simp [List.isPrefixOf]

/-! ## Filesystem lemmas -/

theorem foldl_pres {α β : Type} (P : β → Prop) (step : β → α → β) (l : List α)
    (init : β) (hstep : ∀ b a, P b → P (step b a)) (h : P init) :
    P (l.foldl step init) := by
  induction l generalizing init with
  | nil => exact h
  | cons a as ih => exact ih (step init a) (hstep init a h)

theorem files_mkdirOne (fs : FS) (p : String) : (fs.mkdirOne p).files = fs.files := by
  unfold FS.mkdirOne
  split <;> rfl

theorem files_foldl_mkdirOne (names : List String) (fs : FS) :
    (names.foldl FS.mkdirOne fs).files = fs.files := by
  induction names generalizing fs with
  | nil => rfl
  | cons a as ih => rw [List.foldl_cons, ih, files_mkdirOne]

theorem files_makedirs (fs : FS) (p : String) : (fs.makedirs p).files = fs.files :=
  files_foldl_mkdirOne _ fs

theorem readFile?_makedirs (fs : FS) (p q : String) :
    (fs.makedirs p).readFile? q = fs.readFile? q := by
  unfold FS.readFile?
  rw [files_makedirs]

theorem files_writeFile (fs : FS) (p : String) (d : FileData) :
    (fs.writeFile p d).files = setFile fs.files p d := by
  unfold FS.writeFile
  dsimp only
  split
  · rfl
  · rw [files_makedirs]

theorem find?_setFile_self (l : List (String × FileData)) (p : String) (d : FileData) :
    (setFile l p d).find? (fun pr => pr.1 == p) = some (p, d) := by
  induction l with
  | nil => simp [setFile, List.find?]
  | cons qe rest ih =>
    obtain ⟨q, e⟩ := qe
    by_cases h : q = p
    · subst h
      simp [setFile, List.find?]
    · have hb : (q == p) = false := by simp [h]
      simp only [setFile, hb, Bool.false_eq_true, if_false, List.find?, hb]
      exact ih

theorem find?_setFile_ne (l : List (String × FileData)) (p r : String) (d : FileData)
    (h : (r == p) = false) :
    (setFile l p d).find? (fun pr => pr.1 == r) = l.find? (fun pr => pr.1 == r) := by
  induction l with
  | nil =>
    have : (p == r) = false := by
      rcases Bool.eq_false_iff.mp h with _
      simp only [beq_eq_false_iff_ne] at *
      simp [Ne.symm h]
    simp [setFile, List.find?, this]
  | cons qe rest ih =>
    obtain ⟨q, e⟩ := qe
    by_cases hq : q = p
    · subst hq
      have hqr : (q == r) = false := by
        simp only [beq_eq_false_iff_ne] at *
        simp [Ne.symm h]
      simp [setFile, List.find?, hqr]
    · have hb : (q == p) = false := by simp [hq]
      simp only [setFile, hb, Bool.false_eq_true, if_false, List.find?]
      cases hqr : (q == r) with
      | true => rfl
      | false => exact ih

theorem readFile?_writeFile_self (fs : FS) (p : String) (d : FileData) :
    (fs.writeFile p d).readFile? p = some d := by
  unfold FS.readFile?
  rw [files_writeFile, find?_setFile_self]
  rfl

theorem readFile?_writeFile_ne (fs : FS) (p q : String) (d : FileData)
    (h : (q == p) = false) :
    (fs.writeFile p d).readFile? q = fs.readFile? q := by
  unfold FS.readFile?
  rw [files_writeFile, find?_setFile_ne _ _ _ _ h]

theorem find?_filter_key (l : List (String × FileData))
    (f : String × FileData → Bool) (q : String)
    (h : ∀ d, f (q, d) = true) :
    (l.filter f).find? (fun pr => pr.1 == q) = l.find? (fun pr => pr.1 == q) := by
  induction l with
  | nil => rfl
  | cons ke rest ih =>
    obtain ⟨k, e⟩ := ke
    by_cases hk : k = q
    · subst hk
      have : f (k, e) = true := h e
      simp [List.filter_cons, this, List.find?]
    · have hb : (k == q) = false := by simp [hk]
      cases hf : f (k, e) with
      | true =>
        simp only [List.filter_cons, hf, if_true, List.find?, hb]
        exact ih
      | false =>
        simp only [List.filter_cons, hf, Bool.false_eq_true, if_false, List.find?, hb]
        exact ih

theorem readFile?_removeUnder (fs : FS) (t q : String) (h : under t q = false) :
    (fs.removeUnder t).readFile? q = fs.readFile? q := by
  unfold FS.readFile? FS.removeUnder
  refine congrArg (Option.map Prod.snd) ?_
  exact find?_filter_key fs.files _ q (fun d => by simp [h])

theorem contains_mkdirOne (fs : FS) (p x : String) (h : fs.dirs.contains x = true) :
    (fs.mkdirOne p).dirs.contains x = true := by
  unfold FS.mkdirOne
  split
  · exact h
  · show (fs.dirs ++ [p]).contains x = true
    simp only [List.contains, List.elem_eq_mem, decide_eq_true_eq, List.mem_append] at *
    exact Or.inl h

theorem mkdirOne_contains_self (fs : FS) (p : String) :
    (fs.mkdirOne p).dirs.contains p = true := by
  unfold FS.mkdirOne
  split
  · assumption
  · show (fs.dirs ++ [p]).contains p = true
    simp

theorem contains_makedirs (fs : FS) (p x : String) (h : fs.dirs.contains x = true) :
    (fs.makedirs p).dirs.contains x = true := by
  unfold FS.makedirs
  exact foldl_pres (fun (b : FS) => b.dirs.contains x = true) FS.mkdirOne _ fs
    (fun b a hb => contains_mkdirOne b a x hb) h

theorem makedirs_isdir_self (fs : FS) (p : String) : (fs.makedirs p).isdir p = true := by
  unfold FS.makedirs FS.isdir
  rw [List.foldl_append]
  exact mkdirOne_contains_self _ _

theorem contains_writeFile (fs : FS) (p x : String) (d : FileData)
    (h : fs.dirs.contains x = true) :
    (fs.writeFile p d).dirs.contains x = true := by
  unfold FS.writeFile
  dsimp only
  split
  · exact h
  · exact contains_makedirs fs _ x h

theorem contains_copytree (fs : FS) (src dst x : String)
    (h : fs.dirs.contains x = true) :
    (fs.copytree src dst).dirs.contains x = true := by
  unfold FS.copytree
  refine foldl_pres (fun (b : FS) => b.dirs.contains x = true) _ fs.files _ ?_ ?_
  · intro b a hb
    dsimp only
    split
    · exact contains_writeFile _ _ _ _ hb
    · exact hb
  · refine foldl_pres (fun (b : FS) => b.dirs.contains x = true) _ fs.dirs _ ?_ ?_
    · intro b a hb
      dsimp only
      split
      · exact contains_makedirs _ _ _ hb
      · exact hb
    · exact contains_makedirs _ _ _ h

theorem isdir_writeFile_of (fs : FS) (p q : String) (d : FileData)
    (h : fs.isdir q = true) : (fs.writeFile p d).isdir q = true := by
  unfold FS.isdir at *
  exact contains_writeFile fs p _ d h

theorem contains_filter_of (l : List String) (f : String → Bool) (x : String)
    (hf : f x = true) : (l.filter f).contains x = l.contains x := by
  simp only [List.contains, List.elem_eq_mem]
  rw [decide_eq_decide, List.mem_filter]
  constructor
  · exact fun hx => hx.1
  · exact fun hx => ⟨hx, hf⟩

theorem isdir_removeUnder (fs : FS) (t q : String)
    (h : under t (String.mk (stripTrailL q.data)) = false) :
    (fs.removeUnder t).isdir q = fs.isdir q := by
  unfold FS.isdir FS.removeUnder
  exact contains_filter_of fs.dirs _ _ (by simp [h])

theorem isdir_copytree_of (fs : FS) (src dst q : String)
    (h : fs.isdir q = true) : (fs.copytree src dst).isdir q = true := by
  unfold FS.isdir at *
  exact contains_copytree fs src dst _ h

theorem isdir_makedirs_of (fs : FS) (p q : String)
    (h : fs.isdir q = true) : (fs.makedirs p).isdir q = true := by
  unfold FS.isdir at *
  exact contains_makedirs fs p _ h

theorem isdir_writeMemberFS_of (ms : List (String × FileData)) (target : String)
    (fs : FS) (name q : String) (h : fs.isdir q = true) :
    (writeMemberFS ms target fs name).isdir q = true := by
  unfold writeMemberFS
  split
  · split
    · exact isdir_makedirs_of _ _ _ h
    · exact isdir_writeFile_of _ _ _ _ h
  · exact h

theorem isdir_extract_zip (inputfile target : String) (st : St) (q : String)
    (h : st.fs.isdir q = true) :
    ((extract_zip inputfile target st).2).fs.isdir q = true := by
  unfold extract_zip
  dsimp only
  split
  · split
    · refine foldl_pres (fun (b : FS) => b.isdir q = true) _ _ _ ?_ h
      intro b a hb
      exact isdir_writeMemberFS_of _ _ _ _ _ hb
    · exact h
    · exact h
  · exact h

theorem isdir_placeLoop (files : List String) (notebook : Option String)
    (subdir nbname : String) (st : St) (q : String)
    (h : st.fs.isdir q = true) :
    ((placeLoop files notebook subdir nbname st).2).fs.isdir q = true := by
  induction files generalizing notebook st with
  | nil => exact h
  | cons f rest ih =>
    unfold placeLoop
    dsimp only
    split
    · match notebook with
      | none =>
        dsimp only
        unfold copyfile
        split
        · rename_i heq
          split at heq
          · cases heq
            exact ih _ _ (isdir_writeFile_of _ _ _ _ h)
          · cases heq
        · rename_i heq
          split at heq
          · cases heq
          · cases heq
            exact h
      | some nb => exact ih _ _ h
    · split
      · exact ih _ _ (isdir_copytree_of _ _ _ _ h)
      · exact ih _ _ h

theorem isdir_extract_files (inputfile target : String) (sub : Submission)
    (nbname : String) (st : St) (q : String)
    (h : st.fs.isdir q = true)
    (ht : under (tmpName st.tmp) (String.mk (stripTrailL q.data)) = false) :
    ((extract_files inputfile target sub nbname st).2).fs.isdir q = true := by
  unfold extract_files
  dsimp only
  split
  · rename_i files st2 heq
    have h2 : st2.fs.isdir q = true := by
      split at heq
      · cases heq
        exact h
      · split at heq
        · have := isdir_extract_zip inputfile (tmpName st.tmp) { st with tmp := st.tmp + 1 } q h
          rw [heq] at this
          exact this
        · cases heq
    split
    · rename_i notebook st3 heq2
      have h3 : st3.fs.isdir q = true := by
        have := isdir_placeLoop files none sub.dir nbname st2 q h2
        rw [heq2] at this
        exact this
      dsimp only [cleanupTmp]
      split
      · rw [isdir_removeUnder _ _ _ ht]
        exact h3
      · rw [isdir_removeUnder _ _ _ ht]
        exact h3
    · rename_i e st3 heq2
      have h3 : st3.fs.isdir q = true := by
        have := isdir_placeLoop files none sub.dir nbname st2 q h2
        rw [heq2] at this
        exact this
      dsimp only [cleanupTmp]
      rw [isdir_removeUnder _ _ _ ht]
      exact h3
  · rename_i e st2 heq
    have h2 : st2.fs.isdir q = true := by
      split at heq
      · cases heq
      · split at heq
        · have := isdir_extract_zip inputfile (tmpName st.tmp) { st with tmp := st.tmp + 1 } q h
          rw [heq] at this
          exact this
        · cases heq
          exact h
    dsimp only [cleanupTmp]
    rw [isdir_removeUnder _ _ _ ht]
    exact h2

/-! ## Branch unfoldings of `collect` -/

/-- `collect` on an input whose basename matches the student pattern:
the submission record is built from the captures, its target directory
is created, and the interior files are placed. -/
theorem collect_matched_student (n : Nat)
    (inputfile target assignment notebook_filename : String) (st : St)
    (g : List (String × String))
    (hm : matchToks pattern_student (basename inputfile).data = some g)
    (hty : matchGroup g "type" = "h") :
    collect (n + 1) inputfile target assignment notebook_filename st =
      (match extract_files inputfile target
          ⟨"student", matchGroup g "number",
            join (join target (matchGroup g "number")) assignment⟩
          notebook_filename
          { st with
            fs := st.fs.makedirs (join (join target (matchGroup g "number")) assignment),
            log := st.log ++
              [.info ("student submission found: " ++ basename inputfile)] } with
       | (Except.ok _, st2) =>
         (Except.ok [⟨"student", matchGroup g "number",
            join (join target (matchGroup g "number")) assignment⟩], st2)
       | (Except.error e, st2) => (Except.error e, st2)) := by
  simp only [collect, hm, hty]
  rfl

/-- `collect` on an input whose basename fails the student pattern and
matches the group pattern. -/
theorem collect_matched_group (n : Nat)
    (inputfile target assignment notebook_filename : String) (st : St)
    (g : List (String × String))
    (hmS : matchToks pattern_student (basename inputfile).data = none)
    (hm : matchToks pattern_group (basename inputfile).data = some g)
    (hty : (matchGroup g "type" == "h") = false) :
    collect (n + 1) inputfile target assignment notebook_filename st =
      (match extract_files inputfile target
          ⟨"group", "group" ++ matchGroup g "number",
            join (join target ("group" ++ matchGroup g "number")) assignment⟩
          notebook_filename
          { st with
            fs := st.fs.makedirs
              (join (join target ("group" ++ matchGroup g "number")) assignment),
            log := st.log ++
              [.info ("group submission found: " ++ basename inputfile)] } with
       | (Except.ok _, st2) =>
         (Except.ok [⟨"group", "group" ++ matchGroup g "number",
            join (join target ("group" ++ matchGroup g "number")) assignment⟩], st2)
       | (Except.error e, st2) => (Except.error e, st2)) := by
  simp only [collect, hmS, hm, hty]
  rfl

/-- `collect` on an unmatched input with an archive extension: extract
to a fresh scratch directory and collect every member. -/
theorem collect_unmatched_zip (n : Nat)
    (inputfile target assignment notebook_filename : String) (st : St)
    (hmS : matchToks pattern_student (basename inputfile).data = none)
    (hmG : matchToks pattern_group (basename inputfile).data = none)
    (hip : ((splitext inputfile).2 == ".ipynb") = false)
    (hzip : ((splitext inputfile).2 == ".zip" || (splitext inputfile).2 == ".7z") = true) :
    collect (n + 1) inputfile target assignment notebook_filename st =
      (match extract_zip inputfile (tmpName st.tmp)
          { st with
            tmp := st.tmp + 1,
            log := st.log ++ [.info ("Extracting " ++ inputfile ++ " to " ++ tmpName st.tmp)] } with
       | (Except.ok files, st2) =>
         (match collectLoop
             (fun f st3 => collect n f target assignment notebook_filename st3)
             files st2 with
          | (Except.ok subs, st3) => (Except.ok subs, cleanupTmp (tmpName st.tmp) st3)
          | (Except.error e, st3) => (Except.error e, cleanupTmp (tmpName st.tmp) st3))
       | (Except.error e, st2) => (Except.error e, cleanupTmp (tmpName st.tmp) st2)) := by
  simp only [collect, hmS, hmG, hip, hzip]
  rfl

/-- `collect` on an unmatched bare notebook: a fatal report, no
submission, no exception. -/
theorem collect_unmatched_ipynb (n : Nat)
    (inputfile target assignment notebook_filename : String) (st : St)
    (hmS : matchToks pattern_student (basename inputfile).data = none)
    (hmG : matchToks pattern_group (basename inputfile).data = none)
    (hip : ((splitext inputfile).2 == ".ipynb") = true) :
    collect (n + 1) inputfile target assignment notebook_filename st =
      (Except.ok [],
       { st with log := st.log ++
          [.fatal ("Unmatched notebook found in " ++ inputfile)] }) := by
  simp only [collect, hmS, hmG, hip]
  rfl

/-- `collect` on an unmatched input of unrecognized extension: the
`NotImplementedError` escapes. -/
theorem collect_unmatched_other (n : Nat)
    (inputfile target assignment notebook_filename : String) (st : St)
    (hmS : matchToks pattern_student (basename inputfile).data = none)
    (hmG : matchToks pattern_group (basename inputfile).data = none)
    (hip : ((splitext inputfile).2 == ".ipynb") = false)
    (hzip : ((splitext inputfile).2 == ".zip" || (splitext inputfile).2 == ".7z") = false) :
    collect (n + 1) inputfile target assignment notebook_filename st =
      (Except.error Err.notImplementedError,
       { st with log := st.log ++
          [.fatal ("Dont know what to do with file: " ++ inputfile)] }) := by
  simp only [collect, hmS, hmG, hip, hzip]
  rfl

/-- Everything below a scratch directory lives under `/tmp/`. -/
theorem under_tmpName_startsWith (n : Nat) (q : String)
    (h : under (tmpName n) q = true) : startsWithS q "/tmp/" = true := by
  unfold under at h
  rcases Bool.or_eq_true_iff.mp h with h1 | h1
  · have : q = tmpName n := by
      have := (beq_iff_eq (a := q) (b := tmpName n)).mp h1
      exact this
    rw [this]
    exact tmpName_startsWith_tmp n
  · refine startsWithS_trans q (tmpName n ++ "/") "/tmp/" h1 ?_
    refine startsWithS_trans (tmpName n ++ "/") (tmpName n) "/tmp/" ?_
      (tmpName_startsWith_tmp n)
    exact startsWithS_append_left (tmpName n) "/"

/-! ## Claims -/

/-- C1: for every basename of the individual grammar
`h<digits>_<firstname>_<lastname>_<restfilename>` (first and last name
nonempty and underscore-free, rest nonempty), `collect` classifies the
input as a student submission whose identity key is the exact captured
digit substring, and builds (and leaves on disk) the target directory
`target_root/<digits>/<assignment>`. -/
theorem C1_individual_classification (n : Nat) (ds fn ln rest : List Char)
    (inputfile target assignment notebook_filename : String) (st : St)
    (hds : ds ≠ []) (hdsall : ∀ c ∈ ds, digitB c = true)
    (hfn : fn ≠ []) (hfnall : ∀ c ∈ fn, notUnderscore c = true)
    (hln : ln ≠ []) (hlnall : ∀ c ∈ ln, notUnderscore c = true)
    (hrest : rest ≠ []) (hresthd : ∀ c cs, rest = c :: cs → notNewline c = true)
    (hbn : basename inputfile =
      String.mk ('h' :: (ds ++ '_' :: (fn ++ '_' :: (ln ++ '_' :: rest)))))
    (hnt : under (tmpName st.tmp)
      (String.mk (stripTrailL (join (join target (String.mk ds)) assignment).data)) =
        false) :
    ((collect (n + 1) inputfile target assignment notebook_filename st).2).fs.isdir
        (join (join target (String.mk ds)) assignment) = true ∧
    ∀ subs st2,
      collect (n + 1) inputfile target assignment notebook_filename st =
        (Except.ok subs, st2) →
      subs = [⟨"student", String.mk ds,
        join (join target (String.mk ds)) assignment⟩] := by
  have hbd : (basename inputfile).data =
      'h' :: (ds ++ '_' :: (fn ++ '_' :: (ln ++ '_' :: rest))) := by
    rw [hbn]
  have hg := match_student_full ds fn ln rest hds hdsall hfn hfnall hln hlnall
    hrest hresthd
  rw [← hbd] at hg
  have hcm := collect_matched_student n inputfile target assignment
    notebook_filename st _ hg rfl
  have hnum : matchGroup
      [("type", "h"), ("number", String.mk ds), ("firstname", String.mk fn),
       ("lastname", String.mk ln), ("filename", String.mk (rest.takeWhile notNewline))]
      "number" = String.mk ds := rfl
  rw [hnum] at hcm
  rw [hcm]
  rcases hef : extract_files inputfile target
      ⟨"student", String.mk ds, join (join target (String.mk ds)) assignment⟩
      notebook_filename
      { st with
        fs := st.fs.makedirs (join (join target (String.mk ds)) assignment),
        log := st.log ++
          [.info ("student submission found: " ++ basename inputfile)] }
    with ⟨r, st2⟩
  have hdir : st2.fs.isdir (join (join target (String.mk ds)) assignment) = true := by
    have := isdir_extract_files inputfile target
      ⟨"student", String.mk ds, join (join target (String.mk ds)) assignment⟩
      notebook_filename
      { st with
        fs := st.fs.makedirs (join (join target (String.mk ds)) assignment),
        log := st.log ++
          [.info ("student submission found: " ++ basename inputfile)] }
      (join (join target (String.mk ds)) assignment)
      (makedirs_isdir_self _ _) hnt
    rw [hef] at this
    exact this
  constructor
  · match r with
    | Except.ok files => exact hdir
    | Except.error e => exact hdir
  · intro subs st3 heq
    match r with
    | Except.ok files =>
      rw [Prod.mk.injEq] at heq
      injection heq.1 with h1
      exact h1.symm
    | Except.error e =>
      rw [Prod.mk.injEq] at heq
      exact absurd heq.1 (fun hcon => Except.noConfusion hcon)

/-- C1 witness: the spec scenario `h42_Jane_Doe_hw3.ipynb`. -/
theorem C1_individual_classification_witness :
    ((collect 1 "h42_Jane_Doe_hw3.ipynb" "submitted" "hw3" "canon.ipynb"
        ⟨⟨[], [("h42_Jane_Doe_hw3.ipynb", FileData.plain "NB")]⟩, [], 0⟩).2).fs.isdir
      (join (join "submitted" (String.mk "42".data)) "hw3") = true ∧
    ∀ subs st2,
      collect 1 "h42_Jane_Doe_hw3.ipynb" "submitted" "hw3" "canon.ipynb"
          ⟨⟨[], [("h42_Jane_Doe_hw3.ipynb", FileData.plain "NB")]⟩, [], 0⟩ =
        (Except.ok subs, st2) →
      subs = [⟨"student", String.mk "42".data,
        join (join "submitted" (String.mk "42".data)) "hw3"⟩] :=
  C1_individual_classification 0 "42".data "Jane".data "Doe".data "hw3.ipynb".data
    "h42_Jane_Doe_hw3.ipynb" "submitted" "hw3" "canon.ipynb"
    ⟨⟨[], [("h42_Jane_Doe_hw3.ipynb", FileData.plain "NB")]⟩, [], 0⟩
    (by decide) (by decide) (by decide) (by decide) (by decide) (by decide)
    (by decide) (by intro c cs h; cases h; decide) (by decide) (by decide)

/-- C5: for every basename of the group grammar
`(Gruppe|Group) <digits>_<firstname?>_<lastname?>_<restfilename>`, the
name segments possibly empty, `collect` classifies the input as a group
submission whose identity key is the literal `"group"` concatenated with
the captured digit substring, and builds the corresponding target
directory. -/
theorem C5_group_classification (n : Nat) (ty ds fn ln rest : List Char)
    (inputfile target assignment notebook_filename : String) (st : St)
    (hty : ty = "Gruppe".data ∨ ty = "Group".data)
    (hds : ds ≠ []) (hdsall : ∀ c ∈ ds, digitB c = true)
    (hfnall : ∀ c ∈ fn, notUnderscore c = true)
    (hlnall : ∀ c ∈ ln, notUnderscore c = true)
    (hrest : rest ≠ []) (hresthd : ∀ c cs, rest = c :: cs → notNewline c = true)
    (hbn : basename inputfile =
      String.mk (ty ++ ' ' :: (ds ++ '_' :: (fn ++ '_' :: (ln ++ '_' :: rest)))))
    (hnt : under (tmpName st.tmp)
      (String.mk (stripTrailL
        (join (join target ("group" ++ String.mk ds)) assignment).data)) = false) :
    ((collect (n + 1) inputfile target assignment notebook_filename st).2).fs.isdir
        (join (join target ("group" ++ String.mk ds)) assignment) = true ∧
    ∀ subs st2,
      collect (n + 1) inputfile target assignment notebook_filename st =
        (Except.ok subs, st2) →
      subs = [⟨"group", "group" ++ String.mk ds,
        join (join target ("group" ++ String.mk ds)) assignment⟩] := by
  have hbd : (basename inputfile).data =
      ty ++ ' ' :: (ds ++ '_' :: (fn ++ '_' :: (ln ++ '_' :: rest))) := by
    rw [hbn]
  have hS : matchToks pattern_student (basename inputfile).data = none := by
    rw [hbd]
    rcases hty with h | h
    · subst h
      exact match_student_G_none _
    · subst h
      exact match_student_G_none _
  have hg := match_group_full ty ds fn ln rest hty hds hdsall hfnall hlnall
    hrest hresthd
  rw [← hbd] at hg
  have htyne : (matchGroup
      [("type", String.mk ty), ("number", String.mk ds), ("firstname", String.mk fn),
       ("lastname", String.mk ln), ("filename", String.mk (rest.takeWhile notNewline))]
      "type" == "h") = false := by
    show (String.mk ty == "h") = false
    rcases hty with h | h
    · subst h
      decide
    · subst h
      decide
  have hcm := collect_matched_group n inputfile target assignment
    notebook_filename st _ hS hg htyne
  have hnum : matchGroup
      [("type", String.mk ty), ("number", String.mk ds), ("firstname", String.mk fn),
       ("lastname", String.mk ln), ("filename", String.mk (rest.takeWhile notNewline))]
      "number" = String.mk ds := rfl
  rw [hnum] at hcm
  rw [hcm]
  rcases hef : extract_files inputfile target
      ⟨"group", "group" ++ String.mk ds,
        join (join target ("group" ++ String.mk ds)) assignment⟩
      notebook_filename
      { st with
        fs := st.fs.makedirs (join (join target ("group" ++ String.mk ds)) assignment),
        log := st.log ++
          [.info ("group submission found: " ++ basename inputfile)] }
    with ⟨r, st2⟩
  have hdir : st2.fs.isdir
      (join (join target ("group" ++ String.mk ds)) assignment) = true := by
    have := isdir_extract_files inputfile target
      ⟨"group", "group" ++ String.mk ds,
        join (join target ("group" ++ String.mk ds)) assignment⟩
      notebook_filename
      { st with
        fs := st.fs.makedirs (join (join target ("group" ++ String.mk ds)) assignment),
        log := st.log ++
          [.info ("group submission found: " ++ basename inputfile)] }
      (join (join target ("group" ++ String.mk ds)) assignment)
      (makedirs_isdir_self _ _) hnt
    rw [hef] at this
    exact this
  constructor
  · match r with
    | Except.ok files => exact hdir
    | Except.error e => exact hdir
  · intro subs st3 heq
    match r with
    | Except.ok files =>
      rw [Prod.mk.injEq] at heq
      injection heq.1 with h1
      exact h1.symm
    | Except.error e =>
      rw [Prod.mk.injEq] at heq
      exact absurd heq.1 (fun hcon => Except.noConfusion hcon)

/-- C5 witness: the spec scenario `Gruppe 7__Meier_hw3.zip` (empty
first-name segment). -/
theorem C5_group_classification_witness :
    ((collect 1 "Gruppe 7__Meier_hw3.zip" "submitted" "hw3" "canon.ipynb"
        ⟨⟨[], [("Gruppe 7__Meier_hw3.zip",
          FileData.zipData [("sol.ipynb", FileData.plain "NB")])]⟩, [], 0⟩).2).fs.isdir
      (join (join "submitted" ("group" ++ String.mk "7".data)) "hw3") = true ∧
    ∀ subs st2,
      collect 1 "Gruppe 7__Meier_hw3.zip" "submitted" "hw3" "canon.ipynb"
          ⟨⟨[], [("Gruppe 7__Meier_hw3.zip",
            FileData.zipData [("sol.ipynb", FileData.plain "NB")])]⟩, [], 0⟩ =
        (Except.ok subs, st2) →
      subs = [⟨"group", "group" ++ String.mk "7".data,
        join (join "submitted" ("group" ++ String.mk "7".data)) "hw3"⟩] :=
  C5_group_classification 0 "Gruppe".data "7".data "".data "Meier".data
    "hw3.zip".data "Gruppe 7__Meier_hw3.zip" "submitted" "hw3" "canon.ipynb"
    ⟨⟨[], [("Gruppe 7__Meier_hw3.zip",
      FileData.zipData [("sol.ipynb", FileData.plain "NB")])]⟩, [], 0⟩
    (Or.inl rfl) (by decide) (by decide) (by decide) (by decide) (by decide)
    (by intro c cs h; cases h; decide) (by decide) (by decide)

/-- `extract_files` on an input of unrecognized extension: the
`NotImplementedError` is raised inside the scratch-directory scope, so
the scratch directory is discarded and the error escapes. -/
theorem extract_files_bad_ext (inputfile target : String) (sub : Submission)
    (notebook_filename : String) (st : St)
    (hip : ((splitext inputfile).2 == ".ipynb") = false)
    (hzip : ((splitext inputfile).2 == ".zip") = false)
    (h7z : ((splitext inputfile).2 == ".7z") = false) :
    extract_files inputfile target sub notebook_filename st =
      (Except.error Err.notImplementedError,
       { fs := st.fs.removeUnder (tmpName st.tmp), log := st.log,
         tmp := st.tmp + 1 }) := by
  unfold extract_files
  simp only [hip, hzip, h7z]
  rfl

/-- C10: an input whose basename matches an identity grammar but whose
extension is none of `.ipynb`, `.zip`, `.7z` first gets its target
directory created and then raises `NotImplementedError` from the
interior-file step; the directory persists after the failure. -/
theorem C10_bad_ext_dir_persists (n : Nat)
    (inputfile target assignment notebook_filename key : String) (st : St)
    (g : List (String × String))
    (hkey :
      (matchToks pattern_student (basename inputfile).data = some g ∧
        matchGroup g "type" = "h" ∧ key = matchGroup g "number") ∨
      (matchToks pattern_student (basename inputfile).data = none ∧
        matchToks pattern_group (basename inputfile).data = some g ∧
        (matchGroup g "type" == "h") = false ∧
        key = "group" ++ matchGroup g "number"))
    (hip : ((splitext inputfile).2 == ".ipynb") = false)
    (hzip : ((splitext inputfile).2 == ".zip") = false)
    (h7z : ((splitext inputfile).2 == ".7z") = false)
    (hnt : under (tmpName st.tmp)
      (String.mk (stripTrailL (join (join target key) assignment).data)) = false) :
    (collect (n + 1) inputfile target assignment notebook_filename st).1 =
      Except.error Err.notImplementedError ∧
    ((collect (n + 1) inputfile target assignment notebook_filename st).2).fs.isdir
      (join (join target key) assignment) = true := by
  rcases hkey with ⟨hm, hty, hk⟩ | ⟨hmS, hm, hty, hk⟩
  · subst hk
    rw [collect_matched_student n inputfile target assignment notebook_filename st g
      hm hty]
    rw [extract_files_bad_ext inputfile target _ notebook_filename _ hip hzip h7z]
    refine ⟨rfl, ?_⟩
    show (FS.removeUnder _ _).isdir _ = true
    rw [isdir_removeUnder _ _ _ hnt]
    exact makedirs_isdir_self _ _
  · subst hk
    rw [collect_matched_group n inputfile target assignment notebook_filename st g
      hmS hm hty]
    rw [extract_files_bad_ext inputfile target _ notebook_filename _ hip hzip h7z]
    refine ⟨rfl, ?_⟩
    show (FS.removeUnder _ _).isdir _ = true
    rw [isdir_removeUnder _ _ _ hnt]
    exact makedirs_isdir_self _ _

/-- C10 witness: `h42_Jane_Doe_hw3.pdf`. -/
theorem C10_bad_ext_dir_persists_witness :
    (collect 1 "h42_Jane_Doe_hw3.pdf" "submitted" "hw3" "canon.ipynb"
        ⟨⟨[], []⟩, [], 0⟩).1 = Except.error Err.notImplementedError ∧
    ((collect 1 "h42_Jane_Doe_hw3.pdf" "submitted" "hw3" "canon.ipynb"
        ⟨⟨[], []⟩, [], 0⟩).2).fs.isdir (join (join "submitted" "42") "hw3") = true :=
  C10_bad_ext_dir_persists 0 "h42_Jane_Doe_hw3.pdf" "submitted" "hw3"
    "canon.ipynb" "42" ⟨⟨[], []⟩, [], 0⟩
    [("type", "h"), ("number", "42"), ("firstname", "Jane"), ("lastname", "Doe"),
     ("filename", "hw3.pdf")]
    (Or.inl ⟨by decide, rfl, rfl⟩) (by decide) (by decide) (by decide) (by decide)

/-- C2 counterexample: `foo/.hidden/bar.txt` has a hidden middle
segment, so the spec calls it a platform-metadata artifact, but the code
keeps it and extracts it into scratch space. -/
theorem C2_counterexample :
    specPlatformArtifact "foo/.hidden/bar.txt" = true ∧
    filter ["foo/.hidden/bar.txt"] = ["foo/.hidden/bar.txt"] ∧
    (extract_zip "a.zip" "/scratch"
        ⟨⟨[], [("a.zip", FileData.zipData
          [("foo/.hidden/bar.txt", FileData.plain "x")])]⟩, [], 0⟩).1 =
      Except.ok ["/scratch/foo/.hidden/bar.txt"] := by
  refine ⟨by decide, by decide, ?_⟩
  rfl

/-- C2 amended: the filter drops exactly the members whose path starts
with the macOS resource prefix, whose path starts with a hidden-file
dot, or whose base filename starts with a hidden-file dot (hidden
*interior* segments are kept); extraction materializes exactly the kept
members. -/
theorem C2_filter_amended (items : List String) (i : String)
    (inputfile target : String) (st : St) (ms : List (String × FileData))
    (hread : st.fs.readFile? inputfile = some (FileData.zipData ms))
    (hzip : ((splitext inputfile).2 == ".zip" ||
      (splitext inputfile).2 == ".7z") = true) :
    (i ∈ filter items ↔ i ∈ items ∧
      startsWithS i "__MACOSX/" = false ∧ startsWithS i "." = false ∧
      startsWithS (basename i) "." = false) ∧
    extract_zip inputfile target st =
      (Except.ok ((filter (ms.map Prod.fst)).map (fun f => join target f)),
       { st with
         fs := (filter (ms.map Prod.fst)).foldl (writeMemberFS ms target) st.fs }) := by
  constructor
  · unfold filter
    rw [List.mem_filter]
    constructor
    · intro ⟨h1, h2⟩
      refine ⟨h1, ?_, ?_, ?_⟩
      · cases hx : startsWithS i "__MACOSX/" <;> simp [hx] at h2 ⊢
      · cases hx : startsWithS i "." <;> simp [hx] at h2 ⊢
      · cases hx : startsWithS (basename i) "." <;> simp [hx] at h2 ⊢
    · intro ⟨h1, h2, h3, h4⟩
      exact ⟨h1, by simp [h2, h3, h4]⟩
  · unfold extract_zip
    simp only [hzip, hread]
    rfl

/-- C2 amended witness: a mixed member list. -/
theorem C2_filter_amended_witness :
    ("ok.txt" ∈ filter ["__MACOSX/x", ".hidden", "a/.b", "ok.txt"] ↔
      "ok.txt" ∈ ["__MACOSX/x", ".hidden", "a/.b", "ok.txt"] ∧
      startsWithS "ok.txt" "__MACOSX/" = false ∧
      startsWithS "ok.txt" "." = false ∧
      startsWithS (basename "ok.txt") "." = false) ∧
    extract_zip "a.zip" "/scratch"
        ⟨⟨[], [("a.zip", FileData.zipData
          [("__MACOSX/x", FileData.plain "m"), (".hidden", FileData.plain "h"),
           ("a/.b", FileData.plain "b"), ("ok.txt", FileData.plain "o")])]⟩, [], 0⟩ =
      (Except.ok ((filter ["__MACOSX/x", ".hidden", "a/.b", "ok.txt"]).map
        (fun f => join "/scratch" f)),
       { (⟨⟨[], [("a.zip", FileData.zipData
            [("__MACOSX/x", FileData.plain "m"), (".hidden", FileData.plain "h"),
             ("a/.b", FileData.plain "b"), ("ok.txt", FileData.plain "o")])]⟩, [], 0⟩ : St) with
         fs := (filter ["__MACOSX/x", ".hidden", "a/.b", "ok.txt"]).foldl
           (writeMemberFS
             [("__MACOSX/x", FileData.plain "m"), (".hidden", FileData.plain "h"),
              ("a/.b", FileData.plain "b"), ("ok.txt", FileData.plain "o")] "/scratch")
           (⟨[], [("a.zip", FileData.zipData
             [("__MACOSX/x", FileData.plain "m"), (".hidden", FileData.plain "h"),
              ("a/.b", FileData.plain "b"), ("ok.txt", FileData.plain "o")])]⟩ : FS) }) :=
  C2_filter_amended ["__MACOSX/x", ".hidden", "a/.b", "ok.txt"] "ok.txt" "a.zip"
    "/scratch"
    ⟨⟨[], [("a.zip", FileData.zipData
      [("__MACOSX/x", FileData.plain "m"), (".hidden", FileData.plain "h"),
       ("a/.b", FileData.plain "b"), ("ok.txt", FileData.plain "o")])]⟩, [], 0⟩
    [("__MACOSX/x", FileData.plain "m"), (".hidden", FileData.plain "h"),
     ("a/.b", FileData.plain "b"), ("ok.txt", FileData.plain "o")]
    rfl (by decide)

/-- C3 counterexample: an archive whose first member has an unsupported
extension and whose second member is a perfectly valid individual
notebook submission.  The `NotImplementedError` raised for the first
member aborts the whole archive: `collect` returns the error, the valid
sibling is never collected, and its identity directory is never
created. -/
theorem C3_counterexample :
    (collect 5 "/in/batch.zip" "submitted" "hw" "nb.ipynb"
        ⟨⟨[], [("/in/batch.zip", FileData.zipData
          [("junk.xyz", FileData.plain "j"),
           ("h42_Ann_B_s.ipynb", FileData.plain "nb")])]⟩, [], 0⟩).1 =
      Except.error Err.notImplementedError ∧
    ((collect 5 "/in/batch.zip" "submitted" "hw" "nb.ipynb"
        ⟨⟨[], [("/in/batch.zip", FileData.zipData
          [("junk.xyz", FileData.plain "j"),
           ("h42_Ann_B_s.ipynb", FileData.plain "nb")])]⟩, [], 0⟩).2).fs.isdir
      "submitted/42" = false := by
  refine ⟨?_, ?_⟩
  · rfl
  · rfl

/-- C3 amended: within recursive collection of an archive's members, a
member that is a bare unmatched notebook is skipped with a fatal log and
the remaining siblings are still collected; but a member with an
unsupported extension raises `NotImplementedError`, which aborts the
member loop, so the remaining siblings are not processed. -/
theorem C3_member_failure_propagation (n : Nat) (f f2 : String)
    (rest : List String) (target assignment notebook_filename : String) (st : St)
    (hmS : matchToks pattern_student (basename f).data = none)
    (hmG : matchToks pattern_group (basename f).data = none)
    (hip : ((splitext f).2 == ".ipynb") = true)
    (hmS2 : matchToks pattern_student (basename f2).data = none)
    (hmG2 : matchToks pattern_group (basename f2).data = none)
    (hip2 : ((splitext f2).2 == ".ipynb") = false)
    (hzip2 : ((splitext f2).2 == ".zip" || (splitext f2).2 == ".7z") = false) :
    collectLoop (fun m st2 => collect (n + 1) m target assignment notebook_filename st2)
        (f :: rest) st =
      collectLoop (fun m st2 => collect (n + 1) m target assignment notebook_filename st2)
        rest
        { st with log := st.log ++ [.fatal ("Unmatched notebook found in " ++ f)] } ∧
    collectLoop (fun m st2 => collect (n + 1) m target assignment notebook_filename st2)
        (f2 :: rest) st =
      (Except.error Err.notImplementedError,
       { st with log := st.log ++
          [.fatal ("Dont know what to do with file: " ++ f2)] }) := by
  constructor
  · show (match collect (n + 1) f target assignment notebook_filename st with
      | (Except.ok subs, st1) =>
        match collectLoop
            (fun m st2 => collect (n + 1) m target assignment notebook_filename st2)
            rest st1 with
        | (Except.ok subs2, st2) => (Except.ok (subs ++ subs2), st2)
        | (Except.error e, st2) => (Except.error e, st2)
      | (Except.error e, st1) => (Except.error e, st1)) = _
    rw [collect_unmatched_ipynb n f target assignment notebook_filename st hmS hmG hip]
    dsimp only
    rcases hloop : collectLoop
        (fun m st2 => collect (n + 1) m target assignment notebook_filename st2)
        rest
        { st with log := st.log ++ [.fatal ("Unmatched notebook found in " ++ f)] }
      with ⟨r, st2⟩
    match r with
    | Except.ok subs2 => simp
    | Except.error e => rfl
  · show (match collect (n + 1) f2 target assignment notebook_filename st with
      | (Except.ok subs, st1) =>
        match collectLoop
            (fun m st2 => collect (n + 1) m target assignment notebook_filename st2)
            rest st1 with
        | (Except.ok subs2, st2) => (Except.ok (subs ++ subs2), st2)
        | (Except.error e, st2) => (Except.error e, st2)
      | (Except.error e, st1) => (Except.error e, st1)) = _
    rw [collect_unmatched_other n f2 target assignment notebook_filename st hmS2 hmG2
      hip2 hzip2]

/-- C3 amended witness. -/
theorem C3_member_failure_propagation_witness :
    collectLoop (fun m st2 => collect 1 m "submitted" "hw" "nb.ipynb" st2)
        ["stray.ipynb", "h42_Ann_B_s.ipynb"] ⟨⟨[], []⟩, [], 0⟩ =
      collectLoop (fun m st2 => collect 1 m "submitted" "hw" "nb.ipynb" st2)
        ["h42_Ann_B_s.ipynb"]
        { (⟨⟨[], []⟩, [], 0⟩ : St) with
          log := (⟨⟨[], []⟩, [], 0⟩ : St).log ++
            [.fatal ("Unmatched notebook found in " ++ "stray.ipynb")] } ∧
    collectLoop (fun m st2 => collect 1 m "submitted" "hw" "nb.ipynb" st2)
        ["junk.xyz", "h42_Ann_B_s.ipynb"] ⟨⟨[], []⟩, [], 0⟩ =
      (Except.error Err.notImplementedError,
       { (⟨⟨[], []⟩, [], 0⟩ : St) with
         log := (⟨⟨[], []⟩, [], 0⟩ : St).log ++
          [.fatal ("Dont know what to do with file: " ++ "junk.xyz")] }) :=
  C3_member_failure_propagation 0 "stray.ipynb" "junk.xyz" ["h42_Ann_B_s.ipynb"]
    "submitted" "hw" "nb.ipynb" ⟨⟨[], []⟩, [], 0⟩
    (by decide) (by decide) (by decide) (by decide) (by decide) (by decide)
    (by decide)

theorem countMulti_append (l1 l2 : List LogEvent) :
    countMulti (l1 ++ l2) = countMulti l1 + countMulti l2 := by
  unfold countMulti
  rw [List.filter_append, List.length_append]

/-- Paths written by `copytree` all lie strictly below `dst`. -/
theorem readFile?_copytree_not_under (fs : FS) (src dst q : String)
    (h : under dst q = false) :
    (fs.copytree src dst).readFile? q = fs.readFile? q := by
  unfold FS.copytree
  dsimp only
  have hbase : ∀ fs2 : FS, fs2.readFile? q = fs.readFile? q →
      ((fs.dirs.foldl (fun acc d =>
        if startsWithS d (String.mk (stripTrailL src.data) ++ "/") then
          acc.makedirs (dst ++ String.mk (d.data.drop (String.mk (stripTrailL src.data)).data.length))
        else acc) fs2).readFile? q) = fs.readFile? q := by
    intro fs2 h2
    refine foldl_pres (fun (b : FS) => b.readFile? q = fs.readFile? q) _ fs.dirs fs2 ?_ h2
    intro b a hb
    dsimp only
    split
    · rw [readFile?_makedirs]
      exact hb
    · exact hb
  refine foldl_pres (fun (b : FS) => b.readFile? q = fs.readFile? q) _ fs.files _ ?_ ?_
  · intro b pr hb
    dsimp only
    split
    · rename_i hpre
      rw [readFile?_writeFile_ne]
      · exact hb
      · unfold startsWithS at hpre
        rw [List.isPrefixOf_iff_prefix] at hpre
        obtain ⟨rest, hrest⟩ := hpre
        rw [data_append] at hrest
        have hdrop : pr.1.data.drop (String.mk (stripTrailL src.data)).data.length =
            '/' :: rest := by
          rw [← hrest]
          have : (String.mk (stripTrailL src.data)).data ++ "/".data ++ rest =
              (String.mk (stripTrailL src.data)).data ++ ('/' :: rest) := by
            simp
          rw [this, List.drop_left]
        by_contra hq
        rw [Bool.not_eq_false, beq_iff_eq] at hq
        have : under dst q = true := by
          unfold under
          apply Bool.or_eq_true_iff.mpr
          right
          unfold startsWithS
          rw [List.isPrefixOf_iff_prefix, hq, data_append, hdrop, data_append]
          exact ⟨rest, by simp⟩
        rw [this] at h
        cases h
    · exact hb
  · exact hbase (fs.makedirs dst) (readFile?_makedirs fs dst q)

theorem countMulti_debug (s : String) : countMulti [.debug s] = 0 := rfl

theorem countMulti_nil : countMulti [] = 0 := rfl

theorem countMulti_debug_cons (s : String) (l : List LogEvent) :
    countMulti (.debug s :: l) = countMulti l := by
  unfold countMulti
  rw [List.filter_cons]
  simp [isMultiFatal]

theorem countMulti_multi :
    countMulti [.fatal "Multiple notebooks found in submission!"] = 1 := by decide

/-- Once a notebook has been found, the rest of the interior-file loop
never fails, never touches the notebook slot, writes only below the
`data` subtree, and records one fatal log per further notebook file. -/
theorem placeLoop_some (files : List String) (nb subdir notebook_filename : String)
    (st : St) :
    (placeLoop files (some nb) subdir notebook_filename st).1 = Except.ok (some nb) ∧
    (∀ q, under (join subdir "data") q = false →
      ((placeLoop files (some nb) subdir notebook_filename st).2).fs.readFile? q =
        st.fs.readFile? q) ∧
    countMulti ((placeLoop files (some nb) subdir notebook_filename st).2).log =
      countMulti st.log + countIpynb files := by
  induction files generalizing st with
  | nil =>
    refine ⟨rfl, fun q hq => rfl, ?_⟩
    simp [placeLoop, countIpynb]
  | cons f rest ih =>
    unfold placeLoop
    dsimp only
    split
    · rename_i hf
      obtain ⟨ih1, ih2, ih3⟩ := ih
        { st with log := (st.log ++ [.debug ("> " ++ f)]) ++
            [.debug ("notebook found: " ++ f)] ++
            [.fatal "Multiple notebooks found in submission!"] }
      refine ⟨ih1, fun q hq => ih2 q hq, ?_⟩
      rw [ih3]
      simp only [countMulti_append, countMulti_debug, countMulti_multi]
      have : countIpynb (f :: rest) = countIpynb rest + 1 := by
        unfold countIpynb
        simp [List.filter_cons, hf]
      rw [this]
      omega
    · rename_i hf
      have hcnt : countIpynb (f :: rest) = countIpynb rest := by
        unfold countIpynb
        simp [List.filter_cons, hf]
      split
      · obtain ⟨ih1, ih2, ih3⟩ := ih
          { st with
            fs := st.fs.copytree f (join subdir "data"),
            log := (st.log ++ [.debug ("> " ++ f)]) ++ [.debug "Data dir found"] }
        refine ⟨ih1, fun q hq => ?_, ?_⟩
        · rw [ih2 q hq]
          exact readFile?_copytree_not_under st.fs f (join subdir "data") q hq
        · rw [ih3, hcnt]
          simp [countMulti_append, countMulti_debug, countMulti_debug_cons, countMulti_nil]
      · obtain ⟨ih1, ih2, ih3⟩ := ih
          { st with log := st.log ++ [.debug ("> " ++ f)] }
        refine ⟨ih1, fun q hq => ih2 q hq, ?_⟩
        rw [ih3, hcnt]
        simp [countMulti_append, countMulti_debug, countMulti_debug_cons, countMulti_nil]

/-- The interior-file loop writes only the canonical notebook path and
paths below the `data` subtree (on every exit path). -/
theorem placeLoop_frame (files : List String) (notebook : Option String)
    (subdir notebook_filename : String) (st : St) (q : String)
    (hq1 : (q == join subdir notebook_filename) = false)
    (hq2 : under (join subdir "data") q = false) :
    ((placeLoop files notebook subdir notebook_filename st).2).fs.readFile? q =
      st.fs.readFile? q := by
  induction files generalizing notebook st with
  | nil => rfl
  | cons f rest ih =>
    unfold placeLoop
    dsimp only
    split
    · match notebook with
      | none =>
        dsimp only
        unfold copyfile
        split
        · rename_i heq
          split at heq
          · cases heq
            rw [ih]
            show (st.fs.writeFile _ _).readFile? q = _
            exact readFile?_writeFile_ne _ _ _ _ hq1
          · cases heq
        · rename_i heq
          split at heq
          · cases heq
          · cases heq
            rfl
      | some nb => exact ih _ _
    · split
      · rw [ih]
        exact readFile?_copytree_not_under st.fs f (join subdir "data") q hq2
      · exact ih _ _

/-- One-step unfolding of the interior-file loop. -/
theorem placeLoop_cons (f : String) (rest : List String) (notebook : Option String)
    (subdir notebook_filename : String) (st : St) :
    placeLoop (f :: rest) notebook subdir notebook_filename st =
      (if ((splitext f).2 == ".ipynb") = true then
        match notebook with
        | none =>
          match copyfile f (join subdir notebook_filename)
              { st with log := (st.log ++ [.debug ("> " ++ f)]) ++
                  [.debug ("notebook found: " ++ f)] } with
          | (Except.ok _, st2) => placeLoop rest (some f) subdir notebook_filename st2
          | (Except.error e, st2) => (Except.error e, st2)
        | some nb =>
          placeLoop rest (some nb) subdir notebook_filename
            { st with log := ((st.log ++ [.debug ("> " ++ f)]) ++
                [.debug ("notebook found: " ++ f)]) ++
                [.fatal "Multiple notebooks found in submission!"] }
       else if (st.fs.isdir f && basename (dirname f) == "data") = true then
        placeLoop rest notebook subdir notebook_filename
          { st with
            fs := st.fs.copytree f (join subdir "data"),
            log := (st.log ++ [.debug ("> " ++ f)]) ++ [.debug "Data dir found"] }
       else
        placeLoop rest notebook subdir notebook_filename
          { st with log := st.log ++ [.debug ("> " ++ f)] }) := rfl

/-- `shutil.copyfile` on a readable source. -/
theorem copyfile_ok (src dst : String) (st : St) (d : FileData)
    (h : st.fs.readFile? src = some d) :
    copyfile src dst st = (Except.ok (), { st with fs := st.fs.writeFile dst d }) := by
  unfold copyfile
  rw [h]

/-- Non-notebook files at the start of the interior-file loop leave the
notebook slot empty, write only below `data`, and flag nothing. -/
theorem placeLoop_skip_prefix (pre tail : List String)
    (subdir notebook_filename : String) (st : St)
    (hpre : ∀ f ∈ pre, ((splitext f).2 == ".ipynb") = false) :
    ∃ st2, placeLoop (pre ++ tail) none subdir notebook_filename st =
        placeLoop tail none subdir notebook_filename st2 ∧
      (∀ q, under (join subdir "data") q = false →
        st2.fs.readFile? q = st.fs.readFile? q) ∧
      countMulti st2.log = countMulti st.log := by
  induction pre generalizing st with
  | nil => exact ⟨st, rfl, fun q hq => rfl, rfl⟩
  | cons f pres ih =>
    have hf : ((splitext f).2 == ".ipynb") = false := hpre f (by simp)
    rw [List.cons_append, placeLoop_cons, hf, if_neg (by simp : ¬(false = true))]
    split
    · obtain ⟨st2, h1, h2, h3⟩ := ih
        { st with
          fs := st.fs.copytree f (join subdir "data"),
          log := (st.log ++ [.debug ("> " ++ f)]) ++ [.debug "Data dir found"] }
        (fun g hg => hpre g (by simp [hg]))
      refine ⟨st2, h1, fun q hq => ?_, ?_⟩
      · rw [h2 q hq]
        exact readFile?_copytree_not_under st.fs f (join subdir "data") q hq
      · rw [h3]
        simp [countMulti_append, countMulti_debug, countMulti_debug_cons, countMulti_nil]
    · obtain ⟨st2, h1, h2, h3⟩ := ih { st with log := st.log ++ [.debug ("> " ++ f)] }
        (fun g hg => hpre g (by simp [hg]))
      refine ⟨st2, h1, fun q hq => h2 q hq, ?_⟩
      rw [h3]
      simp [countMulti_append, countMulti_debug, countMulti_debug_cons, countMulti_nil]

/-- C4: when the extracted file set contains two or more notebooks,
exactly the first-encountered one (in listing order) is copied to the
canonical notebook name; every later notebook only adds one fatal
multiple-notebooks log entry, and the loop still processes all files and
succeeds. -/
theorem C4_first_notebook_copied (pre post : List String)
    (nb1 subdir notebook_filename : String) (st : St) (c : FileData)
    (hpre : ∀ f ∈ pre, ((splitext f).2 == ".ipynb") = false)
    (hnb : ((splitext nb1).2 == ".ipynb") = true)
    (hread : st.fs.readFile? nb1 = some c)
    (hnb1d : under (join subdir "data") nb1 = false)
    (hcand : under (join subdir "data") (join subdir notebook_filename) = false) :
    (placeLoop (pre ++ nb1 :: post) none subdir notebook_filename st).1 =
      Except.ok (some nb1) ∧
    ((placeLoop (pre ++ nb1 :: post) none subdir notebook_filename st).2).fs.readFile?
      (join subdir notebook_filename) = some c ∧
    countMulti ((placeLoop (pre ++ nb1 :: post) none subdir notebook_filename st).2).log =
      countMulti st.log + countIpynb post := by
  obtain ⟨st2, hst2, hframe2, hcount2⟩ :=
    placeLoop_skip_prefix pre (nb1 :: post) subdir notebook_filename st hpre
  rw [hst2]
  have hread2 : st2.fs.readFile? nb1 = some c := by
    rw [hframe2 nb1 hnb1d]
    exact hread
  rw [placeLoop_cons, hnb, if_pos (rfl : true = true)]
  dsimp only
  rw [copyfile_ok nb1 (join subdir notebook_filename)
    { st2 with log := (st2.log ++ [.debug ("> " ++ nb1)]) ++
        [.debug ("notebook found: " ++ nb1)] } c hread2]
  dsimp only
  obtain ⟨p1, p2, p3⟩ := placeLoop_some post nb1 subdir notebook_filename
    { fs := st2.fs.writeFile (join subdir notebook_filename) c,
      log := (st2.log ++ [.debug ("> " ++ nb1)]) ++ [.debug ("notebook found: " ++ nb1)],
      tmp := st2.tmp }
  refine ⟨p1, ?_, ?_⟩
  · rw [p2 (join subdir notebook_filename) hcand]
    exact readFile?_writeFile_self _ _ _
  · rw [p3]
    simp [countMulti_append, countMulti_debug, countMulti_debug_cons, countMulti_nil,
      hcount2]

/-- C4 witness: an archive-order file list with two notebooks. -/
theorem C4_first_notebook_copied_witness :
    (placeLoop (["readme.txt"] ++ "a.ipynb" :: ["b.ipynb"]) none "submitted/42/hw"
        "nb.ipynb" ⟨⟨[], [("a.ipynb", FileData.plain "A"),
          ("b.ipynb", FileData.plain "B")]⟩, [], 0⟩).1 = Except.ok (some "a.ipynb") ∧
    ((placeLoop (["readme.txt"] ++ "a.ipynb" :: ["b.ipynb"]) none "submitted/42/hw"
        "nb.ipynb" ⟨⟨[], [("a.ipynb", FileData.plain "A"),
          ("b.ipynb", FileData.plain "B")]⟩, [], 0⟩).2).fs.readFile?
      (join "submitted/42/hw" "nb.ipynb") = some (FileData.plain "A") ∧
    countMulti ((placeLoop (["readme.txt"] ++ "a.ipynb" :: ["b.ipynb"]) none
        "submitted/42/hw" "nb.ipynb" ⟨⟨[], [("a.ipynb", FileData.plain "A"),
          ("b.ipynb", FileData.plain "B")]⟩, [], 0⟩).2).log =
      countMulti (⟨⟨[], [("a.ipynb", FileData.plain "A"),
        ("b.ipynb", FileData.plain "B")]⟩, [], 0⟩ : St).log + countIpynb ["b.ipynb"] :=
  C4_first_notebook_copied ["readme.txt"] ["b.ipynb"] "a.ipynb" "submitted/42/hw"
    "nb.ipynb" ⟨⟨[], [("a.ipynb", FileData.plain "A"),
      ("b.ipynb", FileData.plain "B")]⟩, [], 0⟩ (FileData.plain "A")
    (by decide) (by decide) rfl (by decide) (by decide)

/-- C6 counterexample: an archive containing one notebook and *two*
entries qualifying as data directories (`data/` and `sub/data/`).  Both
are silently merged into the single `data` subtree of the target
directory and no failure of any kind is reported, so data-directory
multiplicity is not flagged. -/
theorem C6_counterexample :
    (extract_files "h42_A_B_s.zip" "submitted" ⟨"student", "42", "submitted/42/hw"⟩
        "nb.ipynb"
        ⟨⟨[], [("h42_A_B_s.zip", FileData.zipData
          [("x.ipynb", FileData.plain "N"), ("data/", FileData.plain ""),
           ("data/a.csv", FileData.plain "A"), ("sub/", FileData.plain ""),
           ("sub/data/", FileData.plain ""),
           ("sub/data/b.csv", FileData.plain "B")])]⟩, [], 0⟩).1 =
      Except.ok ["/tmp/pytmp/x.ipynb", "/tmp/pytmp/data/", "/tmp/pytmp/data/a.csv",
        "/tmp/pytmp/sub/", "/tmp/pytmp/sub/data/", "/tmp/pytmp/sub/data/b.csv"] ∧
    ((extract_files "h42_A_B_s.zip" "submitted" ⟨"student", "42", "submitted/42/hw"⟩
        "nb.ipynb"
        ⟨⟨[], [("h42_A_B_s.zip", FileData.zipData
          [("x.ipynb", FileData.plain "N"), ("data/", FileData.plain ""),
           ("data/a.csv", FileData.plain "A"), ("sub/", FileData.plain ""),
           ("sub/data/", FileData.plain ""),
           ("sub/data/b.csv", FileData.plain "B")])]⟩, [], 0⟩).2).log.filter isFatal =
      [] ∧
    ((extract_files "h42_A_B_s.zip" "submitted" ⟨"student", "42", "submitted/42/hw"⟩
        "nb.ipynb"
        ⟨⟨[], [("h42_A_B_s.zip", FileData.zipData
          [("x.ipynb", FileData.plain "N"), ("data/", FileData.plain ""),
           ("data/a.csv", FileData.plain "A"), ("sub/", FileData.plain ""),
           ("sub/data/", FileData.plain ""),
           ("sub/data/b.csv", FileData.plain "B")])]⟩, [], 0⟩).2).fs.readFile?
      "submitted/42/hw/data/a.csv" = some (FileData.plain "A") ∧
    ((extract_files "h42_A_B_s.zip" "submitted" ⟨"student", "42", "submitted/42/hw"⟩
        "nb.ipynb"
        ⟨⟨[], [("h42_A_B_s.zip", FileData.zipData
          [("x.ipynb", FileData.plain "N"), ("data/", FileData.plain ""),
           ("data/a.csv", FileData.plain "A"), ("sub/", FileData.plain ""),
           ("sub/data/", FileData.plain ""),
           ("sub/data/b.csv", FileData.plain "B")])]⟩, [], 0⟩).2).fs.readFile?
      "submitted/42/hw/data/b.csv" = some (FileData.plain "B") :=
  ⟨rfl, rfl, rfl, rfl⟩

/-- C6 amended: the interior-file loop writes nothing in the target
directory except the canonically named notebook and paths below the
single `data` subtree; notebook multiplicity is flagged as a fatal log
(one per extra notebook) while the loop still succeeds; multiple
qualifying data directories are merged silently and never flagged. -/
theorem C6_target_invariant (files pre post : List String)
    (notebook : Option String) (nb1 subdir notebook_filename : String)
    (st : St) (c : FileData)
    (hpre : ∀ f ∈ pre, ((splitext f).2 == ".ipynb") = false)
    (hnb : ((splitext nb1).2 == ".ipynb") = true)
    (hread : st.fs.readFile? nb1 = some c)
    (hnb1d : under (join subdir "data") nb1 = false) :
    (∀ q, (q == join subdir notebook_filename) = false →
      under (join subdir "data") q = false →
      ((placeLoop files notebook subdir notebook_filename st).2).fs.readFile? q =
        st.fs.readFile? q) ∧
    (placeLoop (pre ++ nb1 :: post) none subdir notebook_filename st).1 =
      Except.ok (some nb1) ∧
    countMulti ((placeLoop (pre ++ nb1 :: post) none subdir notebook_filename st).2).log =
      countMulti st.log + countIpynb post := by
  refine ⟨fun q hq1 hq2 =>
    placeLoop_frame files notebook subdir notebook_filename st q hq1 hq2, ?_, ?_⟩
  all_goals
    obtain ⟨st2, hst2, hframe2, hcount2⟩ :=
      placeLoop_skip_prefix pre (nb1 :: post) subdir notebook_filename st hpre
  all_goals
    have hread2 : st2.fs.readFile? nb1 = some c := by
      rw [hframe2 nb1 hnb1d]
      exact hread
  all_goals
    rw [hst2, placeLoop_cons, hnb, if_pos (rfl : true = true)]
  all_goals
    dsimp only
  all_goals
    rw [copyfile_ok nb1 (join subdir notebook_filename)
      { st2 with log := (st2.log ++ [.debug ("> " ++ nb1)]) ++
          [.debug ("notebook found: " ++ nb1)] } c hread2]
  all_goals
    obtain ⟨p1, p2, p3⟩ := placeLoop_some post nb1 subdir notebook_filename
      { fs := st2.fs.writeFile (join subdir notebook_filename) c,
        log := (st2.log ++ [.debug ("> " ++ nb1)]) ++ [.debug ("notebook found: " ++ nb1)],
        tmp := st2.tmp }
  · exact p1
  · rw [p3]
    simp [countMulti_append, countMulti_debug, countMulti_debug_cons, countMulti_nil,
      hcount2]

/-- C6 amended witness. -/
theorem C6_target_invariant_witness :
    (∀ q, (q == join "submitted/42/hw" "nb.ipynb") = false →
      under (join "submitted/42/hw" "data") q = false →
      ((placeLoop ["other.txt"] none "submitted/42/hw" "nb.ipynb"
        ⟨⟨[], [("a.ipynb", FileData.plain "A"),
          ("b.ipynb", FileData.plain "B")]⟩, [], 0⟩).2).fs.readFile? q =
        (⟨⟨[], [("a.ipynb", FileData.plain "A"),
          ("b.ipynb", FileData.plain "B")]⟩, [], 0⟩ : St).fs.readFile? q) ∧
    (placeLoop ([] ++ "a.ipynb" :: ["b.ipynb"]) none "submitted/42/hw" "nb.ipynb"
      ⟨⟨[], [("a.ipynb", FileData.plain "A"),
        ("b.ipynb", FileData.plain "B")]⟩, [], 0⟩).1 = Except.ok (some "a.ipynb") ∧
    countMulti ((placeLoop ([] ++ "a.ipynb" :: ["b.ipynb"]) none "submitted/42/hw"
        "nb.ipynb" ⟨⟨[], [("a.ipynb", FileData.plain "A"),
          ("b.ipynb", FileData.plain "B")]⟩, [], 0⟩).2).log =
      countMulti (⟨⟨[], [("a.ipynb", FileData.plain "A"),
        ("b.ipynb", FileData.plain "B")]⟩, [], 0⟩ : St).log + countIpynb ["b.ipynb"] :=
  C6_target_invariant ["other.txt"] [] ["b.ipynb"] none "a.ipynb" "submitted/42/hw"
    "nb.ipynb" ⟨⟨[], [("a.ipynb", FileData.plain "A"),
      ("b.ipynb", FileData.plain "B")]⟩, [], 0⟩ (FileData.plain "A")
    (by decide) (by decide) rfl (by decide)

theorem mk_data (s : String) : String.mk s.data = s := rfl

theorem basenameL_append_slash (l : List Char) : basenameL (l ++ ['/']) = [] := by
  unfold basenameL
  rw [List.reverse_append]
  rfl

theorem dirheadL_append_slash (l : List Char) : dirheadL (l ++ ['/']) = l ++ ['/'] := by
  unfold dirheadL
  rw [List.reverse_append]
  show (List.dropWhile _ ('/' :: l.reverse)).reverse = _
  rw [List.dropWhile_cons]
  simp

theorem all_slash_false (l : List Char) (ch : Char) (hch : (ch == '/') = false)
    (hl : ch ∈ l) : l.all (fun c => c == '/') = false := by
  by_contra hx
  rw [Bool.not_eq_false, List.all_eq_true] at hx
  have := hx ch hl
  rw [hch] at this
  cases this

theorem stripTrail_no_slash_end (l : List Char) (ch : Char)
    (hl : l.getLast? = some ch) (hch : (ch == '/') = false) :
    stripTrailL l = l := by
  have hmem : ch ∈ l := List.mem_of_getLast?_eq_some hl
  rcases List.getLast?_eq_some_iff.mp hl with ⟨l2, hl2⟩
  subst hl2
  unfold stripTrailL
  rw [if_neg (by rw [all_slash_false (l2 ++ [ch]) ch hch hmem]; exact Bool.false_ne_true)]
  rw [List.reverse_append, List.reverse_singleton, List.singleton_append,
    List.dropWhile_cons, if_neg (by rw [hch]; exact Bool.false_ne_true)]
  simp

theorem stripTrail_append_slash (l : List Char) (ch : Char)
    (hl : l.getLast? = some ch) (hch : (ch == '/') = false) :
    stripTrailL (l ++ ['/']) = l := by
  have hmem : ch ∈ l ++ ['/'] := by
    exact List.mem_append.mpr (Or.inl (List.mem_of_getLast?_eq_some hl))
  rcases List.getLast?_eq_some_iff.mp hl with ⟨l2, hl2⟩
  unfold stripTrailL
  rw [if_neg (by rw [all_slash_false (l ++ ['/']) ch hch hmem]; exact Bool.false_ne_true)]
  rw [List.reverse_append, List.reverse_singleton, List.singleton_append,
    List.dropWhile_cons, if_pos (show ('/' == '/') = true from rfl)]
  subst hl2
  rw [List.reverse_append, List.reverse_singleton, List.singleton_append,
    List.dropWhile_cons, if_neg (by rw [hch]; exact Bool.false_ne_true)]
  simp

theorem setFile_append (l : List (String × FileData)) (p : String) (d : FileData)
    (h : ∀ pr ∈ l, (pr.1 == p) = false) : setFile l p d = l ++ [(p, d)] := by
  induction l with
  | nil => rfl
  | cons qe rest ih =>
    obtain ⟨q, e⟩ := qe
    have hq : (q == p) = false := h (q, e) (by simp)
    simp only [setFile, hq, Bool.false_eq_true, if_false, List.cons_append]
    rw [ih (fun pr hpr => h pr (by simp [hpr]))]

theorem mem_setFile (l : List (String × FileData)) (p : String) (d : FileData)
    (pr : String × FileData) (h : pr ∈ setFile l p d) : pr.1 = p ∨ pr ∈ l := by
  induction l with
  | nil =>
    simp only [setFile, List.mem_singleton] at h
    subst h
    exact Or.inl rfl
  | cons qe rest ih =>
    obtain ⟨q, e⟩ := qe
    by_cases hq : q = p
    · subst hq
      simp only [setFile, beq_self_eq_true, if_true, List.mem_cons] at h
      rcases h with h | h
      · subst h
        exact Or.inl rfl
      · exact Or.inr (by simp [h])
    · have hb : (q == p) = false := by simp [hq]
      simp only [setFile, hb, Bool.false_eq_true, if_false, List.mem_cons] at h
      rcases h with h | h
      · subst h
        exact Or.inr (by simp)
      · rcases ih h with h2 | h2
        · exact Or.inl h2
        · exact Or.inr (by simp [h2])

theorem foldl_pres_mem {α β : Type} (P : β → Prop) (step : β → α → β) (l : List α)
    (init : β) (hstep : ∀ b a, a ∈ l → P b → P (step b a)) (h : P init) :
    P (l.foldl step init) := by
  induction l generalizing init with
  | nil => exact h
  | cons a as ih =>
    exact ih (step init a)
      (fun b x hx hb => hstep b x (by simp [hx]) hb)
      (hstep init a (by simp) h)

/-- `copytree` whose source subtree contains no files changes no file. -/
theorem copytree_no_src_files (fs : FS) (src dst : String)
    (h : ∀ pr ∈ fs.files, startsWithS pr.1
      (String.mk (stripTrailL src.data) ++ "/") = false) (q : String) :
    (fs.copytree src dst).readFile? q = fs.readFile? q := by
  unfold FS.copytree
  dsimp only
  refine foldl_pres_mem (fun (b : FS) => b.readFile? q = fs.readFile? q) _ fs.files _
    ?_ ?_
  · intro b pr hpr hb
    dsimp only
    rw [h pr hpr, if_neg (by exact fun hx => Bool.false_ne_true hx)]
    exact hb
  · refine foldl_pres (fun (b : FS) => b.readFile? q = fs.readFile? q) _ fs.dirs _ ?_ ?_
    · intro b a hb
      dsimp only
      split
      · rw [readFile?_makedirs]
        exact hb
      · exact hb
    · exact readFile?_makedirs _ _ _

theorem foldl_id {α β : Type} (step : β → α → β) (l : List α) (i : β)
    (hid : ∀ b a, a ∈ l → step b a = b) : l.foldl step i = i := by
  induction l generalizing i with
  | nil => rfl
  | cons a as ih =>
    rw [List.foldl_cons, hid i a (by simp)]
    exact ih i (fun b x hx => hid b x (by simp [hx]))

/-- `copytree` when exactly the last file of the filesystem lies below
the source: that file is copied to its relocated name below `dst` and
nothing else changes. -/
theorem copytree_one_src_file (fs : FS) (src dst : String)
    (l0 : List (String × FileData)) (key : String) (d : FileData)
    (hf : fs.files = l0 ++ [(key, d)])
    (h0 : ∀ pr ∈ l0, startsWithS pr.1 (String.mk (stripTrailL src.data) ++ "/") = false)
    (hk : startsWithS key (String.mk (stripTrailL src.data) ++ "/") = true) :
    (∀ q, (fs.copytree src dst).readFile? q =
      (if (q == dst ++ String.mk
          (key.data.drop (String.mk (stripTrailL src.data)).data.length)) = true
       then some d else fs.readFile? q)) ∧
    (fs.copytree src dst).files =
      setFile fs.files (dst ++ String.mk
        (key.data.drop (String.mk (stripTrailL src.data)).data.length)) d := by
  unfold FS.copytree
  dsimp only
  rw [hf, List.foldl_append]
  rw [foldl_id _ l0 _ (fun b pr hpr => by
    rw [h0 pr hpr]
    exact if_neg (fun hx => Bool.false_ne_true hx))]
  rw [List.foldl_cons, List.foldl_nil]
  dsimp only
  rw [hk, if_pos rfl]
  have hdfiles : (fs.dirs.foldl (fun acc d2 =>
      if startsWithS d2 (String.mk (stripTrailL src.data) ++ "/") = true then
        acc.makedirs (dst ++ String.mk
          (d2.data.drop (String.mk (stripTrailL src.data)).data.length))
      else acc) (fs.makedirs dst)).files = fs.files := by
    refine foldl_pres (fun (b : FS) => b.files = fs.files) _ fs.dirs _ ?_
      (files_makedirs _ _)
    intro b a hb
    dsimp only
    split
    · rw [files_makedirs]
      exact hb
    · exact hb
  have hdirs : ∀ q2 : String,
      ((fs.dirs.foldl (fun acc d2 =>
        if startsWithS d2 (String.mk (stripTrailL src.data) ++ "/") = true then
          acc.makedirs (dst ++ String.mk
            (d2.data.drop (String.mk (stripTrailL src.data)).data.length))
        else acc) (fs.makedirs dst)).readFile? q2) = fs.readFile? q2 := by
    intro q2
    refine foldl_pres (fun (b : FS) => b.readFile? q2 = fs.readFile? q2) _ fs.dirs _ ?_
      (readFile?_makedirs _ _ _)
    intro b a hb
    dsimp only
    split
    · rw [readFile?_makedirs]
      exact hb
    · exact hb
  constructor
  · intro q
    by_cases hq : (q == dst ++ String.mk
        (key.data.drop (String.mk (stripTrailL src.data)).data.length)) = true
    · rw [if_pos hq]
      have : q = dst ++ String.mk
          (key.data.drop (String.mk (stripTrailL src.data)).data.length) :=
        beq_iff_eq.mp hq
      rw [this]
      exact readFile?_writeFile_self _ _ _
    · rw [if_neg (by simpa using hq)]
      rw [readFile?_writeFile_ne _ _ _ _ (by simpa using hq)]
      exact hdirs q
  · rw [files_writeFile, hdfiles, hf]

/-- Unfolding of `extract_files` on an archive input. -/
theorem extract_files_zip (inputfile target : String) (sub : Submission)
    (notebook_filename : String) (st : St)
    (hip : ((splitext inputfile).2 == ".ipynb") = false)
    (hzip : ((splitext inputfile).2 == ".zip" ||
      (splitext inputfile).2 == ".7z") = true) :
    extract_files inputfile target sub notebook_filename st =
      (match extract_zip inputfile (tmpName st.tmp) { st with tmp := st.tmp + 1 } with
       | (Except.ok files, st2) =>
         (match placeLoop files none sub.dir notebook_filename st2 with
          | (Except.ok notebook, st3) =>
            (Except.ok files, cleanupTmp (tmpName st.tmp)
              (if notebook.isNone then
                { st3 with log := st3.log ++ [.fatal "No notebook found in submission!"] }
               else st3))
          | (Except.error e, st3) => (Except.error e, cleanupTmp (tmpName st.tmp) st3))
       | (Except.error e, st2) =>
         (Except.error e, cleanupTmp (tmpName st.tmp) st2)) := by
  simp only [extract_files, hip, hzip]
  rfl

/-- Unfolding of `extract_zip` on a readable archive. -/
theorem extract_zip_ok (inputfile target : String) (st : St)
    (ms : List (String × FileData))
    (hzip : ((splitext inputfile).2 == ".zip" ||
      (splitext inputfile).2 == ".7z") = true)
    (hread : st.fs.readFile? inputfile = some (FileData.zipData ms)) :
    extract_zip inputfile target st =
      (Except.ok ((filter (ms.map Prod.fst)).map (fun f => join target f)),
       { st with
         fs := (filter (ms.map Prod.fst)).foldl (writeMemberFS ms target) st.fs }) := by
  unfold extract_zip
  simp only [hzip, hread]
  rfl

theorem startsWith_self_slash_false (a : String) : startsWithS a (a ++ "/") = false := by
  unfold startsWithS
  rw [data_append]
  by_contra hx
  rw [Bool.not_eq_false, List.isPrefixOf_iff_prefix] at hx
  have := hx.length_le
  rw [List.length_append] at this
  simp at this

set_option maxHeartbeats 6000000 in
/-- C9: for an archive containing no notebook but a data folder, the
fatal no-notebook-found condition is reported only after all extracted
files have been processed — it is the run's last log entry and its only
fatal one — while the run succeeds over the whole file list and the data
folder's content is still merged into the submission's `data` subtree. -/
theorem C9_no_notebook_data_merged (inputfile target : String) (sub : Submission)
    (notebook_filename : String) (st : St) (fn c : String) (d0 : FileData)
    (hread : st.fs.readFile? inputfile =
      some (FileData.zipData [("data/", d0), ("data/" ++ fn, FileData.plain c)]))
    (hip : ((splitext inputfile).2 == ".ipynb") = false)
    (hzip : ((splitext inputfile).2 == ".zip" ||
      (splitext inputfile).2 == ".7z") = true)
    (hfn_ne : fn.data ≠ [])
    (hfn_slash : ∀ ch ∈ fn.data, (ch != '/') = true)
    (hfn_dot : startsWithS fn "." = false)
    (hfn_ext : (String.mk (splitextExt fn.data) == ".ipynb") = false)
    (hnotmpf : ∀ pr ∈ st.fs.files, startsWithS pr.1 "/tmp/" = false)
    (htp : startsWithS (join sub.dir "data" ++ String.mk ('/' :: fn.data))
      "/tmp/" = false) :
    (extract_files inputfile target sub notebook_filename st).1 =
      Except.ok [join (tmpName st.tmp) "data/",
        join (tmpName st.tmp) ("data/" ++ fn)] ∧
    ((extract_files inputfile target sub notebook_filename st).2).fs.readFile?
      (join sub.dir "data" ++ String.mk ('/' :: fn.data)) =
      some (FileData.plain c) ∧
    ((extract_files inputfile target sub notebook_filename st).2).log.getLast? =
      some (.fatal "No notebook found in submission!") ∧
    ((extract_files inputfile target sub notebook_filename st).2).log.filter isFatal =
      st.log.filter isFatal ++ [.fatal "No notebook found in submission!"] := by
  have ht_ne := tmpName_ne_empty st.tmp
  have ht_sl := tmpName_no_trailing_slash st.tmp
  have ht_tmp := tmpName_startsWith_tmp st.tmp
  have hj1 : join (tmpName st.tmp) "data/" = tmpName st.tmp ++ "/" ++ "data/" :=
    join_spell _ _ rfl ht_ne ht_sl
  have hj2 : join (tmpName st.tmp) ("data/" ++ fn) =
      tmpName st.tmp ++ "/" ++ ("data/" ++ fn) :=
    join_spell _ _ rfl ht_ne ht_sl
  have hd1 : (tmpName st.tmp ++ "/" ++ "data/").data =
      ((tmpName st.tmp).data ++ '/' :: "data".data) ++ ['/'] := by
    rw [data_append, data_append]
    simp
  have hd2 : (tmpName st.tmp ++ "/" ++ ("data/" ++ fn)).data =
      ((tmpName st.tmp).data ++ '/' :: "data".data) ++ '/' :: fn.data := by
    rw [data_append, data_append, data_append]
    simp
  have hy_last : ((tmpName st.tmp).data ++ '/' :: "data".data).getLast? = some 'a' := by
    rw [List.getLast?_append]
    rfl
  have hext1 : ((splitext (join (tmpName st.tmp) "data/")).2 == ".ipynb") = false := by
    rw [hj1, splitext_ext_eq, hd1, basenameL_append_slash]
    rfl
  have hext2 : ((splitext (join (tmpName st.tmp) ("data/" ++ fn))).2 == ".ipynb") =
      false := by
    rw [hj2, splitext_ext_eq, hd2, basenameL_concat _ _ hfn_slash]
    exact hfn_ext
  have hdn1 : dirname (join (tmpName st.tmp) "data/") =
      String.mk ((tmpName st.tmp).data ++ '/' :: "data".data) := by
    unfold dirname dirnameL
    rw [hj1, hd1, dirheadL_append_slash, stripTrail_append_slash _ 'a' hy_last rfl]
  have hdir1 : (basename (dirname (join (tmpName st.tmp) "data/")) == "data") =
      true := by
    rw [hdn1]
    unfold basename
    rw [show (String.mk ((tmpName st.tmp).data ++ '/' :: "data".data)).data =
        (tmpName st.tmp).data ++ '/' :: "data".data from rfl]
    rw [basenameL_concat _ _ (by decide)]
    rfl
  have hbn2 : basename ("data/" ++ fn) = String.mk fn.data := by
    unfold basename
    rw [show ("data/" ++ fn).data = "data".data ++ '/' :: fn.data from rfl]
    rw [basenameL_concat _ _ hfn_slash]
  have hc1 : ((!startsWithS "data/" "__MACOSX/" && !startsWithS "data/" ".") &&
      !startsWithS (basename "data/") ".") = true := by
    decide
  have hc2 : ((!startsWithS ("data/" ++ fn) "__MACOSX/" &&
      !startsWithS ("data/" ++ fn) ".") &&
        !startsWithS (basename ("data/" ++ fn)) ".") = true := by
    rw [hbn2, mk_data]
    rw [show startsWithS ("data/" ++ fn) "__MACOSX/" = false from rfl,
      show startsWithS ("data/" ++ fn) "." = false from rfl, hfn_dot]
    rfl
  have hkept : filter ["data/", "data/" ++ fn] = ["data/", "data/" ++ fn] := by
    unfold filter
    simp only [List.filter_cons, List.filter_nil, hc1, hc2, if_true]
  have hkne : (("data/" : String) == "data/" ++ fn) = false := by
    rw [beq_eq_false_iff_ne]
    intro hx
    apply hfn_ne
    have hlen := congrArg (fun (s : String) => s.data.length) hx
    simp only [data_append, List.length_append] at hlen
    have : fn.data.length = 0 := by omega
    exact List.length_eq_zero.mp this
  obtain ⟨chl, hchl⟩ : ∃ ch2, fn.data.getLast? = some ch2 := by
    cases hfd : fn.data.getLast? with
    | none => exact absurd (List.getLast?_eq_none_iff.mp hfd) hfn_ne
    | some ch2 => exact ⟨ch2, rfl⟩
  have hchl_ne : (chl == '/') = false := by
    have hne := hfn_slash chl (List.mem_of_getLast?_eq_some hchl)
    cases hcb : (chl == '/') with
    | true =>
      rw [show (chl != '/') = !(chl == '/') from rfl, hcb] at hne
      cases hne
    | false => rfl
  have hes2 : endsSlash ("data/" ++ fn) = false := by
    unfold endsSlash
    rw [data_append, List.getLast?_append, hchl]
    show ((some chl == some '/') : Bool) = false
    rw [show ((some chl == some '/') : Bool) = (chl == '/') from rfl, hchl_ne]
  have hw1 : ∀ fsx : FS,
      writeMemberFS [("data/", d0), ("data/" ++ fn, FileData.plain c)]
        (tmpName st.tmp) fsx "data/" =
      fsx.makedirs (join (tmpName st.tmp) "data/") := fun fsx => rfl
  have hw2 : ∀ fsx : FS,
      writeMemberFS [("data/", d0), ("data/" ++ fn, FileData.plain c)]
        (tmpName st.tmp) fsx ("data/" ++ fn) =
      fsx.writeFile (join (tmpName st.tmp) ("data/" ++ fn)) (FileData.plain c) := by
    intro fsx
    have hfind : List.find? (fun m => m.1 == ("data/" ++ fn))
        [(("data/" : String), d0), ("data/" ++ fn, FileData.plain c)] =
        some ("data/" ++ fn, FileData.plain c) := by
      simp only [List.find?, hkne, beq_self_eq_true]
    simp only [writeMemberFS, hfind, hes2, Bool.false_eq_true, if_false]
  have hez : extract_zip inputfile (tmpName st.tmp) { st with tmp := st.tmp + 1 } =
      (Except.ok [join (tmpName st.tmp) "data/",
        join (tmpName st.tmp) ("data/" ++ fn)],
       { st with
         tmp := st.tmp + 1,
         fs := (st.fs.makedirs (join (tmpName st.tmp) "data/")).writeFile
           (join (tmpName st.tmp) ("data/" ++ fn)) (FileData.plain c) }) := by
    rw [extract_zip_ok inputfile (tmpName st.tmp) { st with tmp := st.tmp + 1 }
      [("data/", d0), ("data/" ++ fn, FileData.plain c)] hzip hread]
    rw [show List.map Prod.fst [(("data/" : String), d0),
        ("data/" ++ fn, FileData.plain c)] = ["data/", "data/" ++ fn] from rfl]
    rw [hkept, List.foldl_cons, List.foldl_cons, List.foldl_nil, hw1, hw2]
    rfl
  have hkt : startsWithS (join (tmpName st.tmp) ("data/" ++ fn)) "/tmp/" = true := by
    rw [hj2]
    have h1 : startsWithS ((tmpName st.tmp ++ "/") ++ ("data/" ++ fn))
        (tmpName st.tmp ++ "/") = true := startsWithS_append_left _ _
    have h2 : startsWithS (tmpName st.tmp ++ "/") (tmpName st.tmp) = true :=
      startsWithS_append_left _ _
    exact startsWithS_trans _ _ _ (startsWithS_trans _ _ _ h1 h2) ht_tmp
  have hfs1files : ((st.fs.makedirs (join (tmpName st.tmp) "data/")).writeFile
      (join (tmpName st.tmp) ("data/" ++ fn)) (FileData.plain c)).files =
      st.fs.files ++ [(join (tmpName st.tmp) ("data/" ++ fn), FileData.plain c)] := by
    rw [files_writeFile, files_makedirs]
    apply setFile_append
    intro pr hpr
    rw [beq_eq_false_iff_ne]
    intro hx
    have hnp := hnotmpf pr hpr
    rw [hx, hkt] at hnp
    cases hnp
  have hsrcN : String.mk (stripTrailL (join (tmpName st.tmp) "data/").data) =
      String.mk ((tmpName st.tmp).data ++ '/' :: "data".data) := by
    rw [hj1]
    rw [show stripTrailL ((tmpName st.tmp ++ "/" ++ "data/").data) =
        stripTrailL (((tmpName st.tmp).data ++ '/' :: "data".data) ++ ['/']) from by
      rw [hd1]]
    rw [stripTrail_append_slash _ 'a' hy_last rfl]
  have hsrc_tmp : startsWithS
      (String.mk (stripTrailL (join (tmpName st.tmp) "data/").data) ++ "/")
      "/tmp/" = true := by
    rw [hsrcN]
    rw [show String.mk ((tmpName st.tmp).data ++ '/' :: "data".data) =
        tmpName st.tmp ++ "/data" from rfl]
    have h1 : startsWithS ((tmpName st.tmp ++ "/data") ++ "/")
        (tmpName st.tmp ++ "/data") = true := startsWithS_append_left _ _
    have h2 : startsWithS (tmpName st.tmp ++ "/data") (tmpName st.tmp) = true :=
      startsWithS_append_left _ _
    exact startsWithS_trans _ _ _ (startsWithS_trans _ _ _ h1 h2) ht_tmp
  have h0c : ∀ pr ∈ st.fs.files, startsWithS pr.1
      (String.mk (stripTrailL (join (tmpName st.tmp) "data/").data) ++ "/") = false := by
    intro pr hpr
    cases hx : startsWithS pr.1
        (String.mk (stripTrailL (join (tmpName st.tmp) "data/").data) ++ "/") with
    | false => rfl
    | true =>
      have h2 := startsWithS_trans _ _ _ hx hsrc_tmp
      rw [hnotmpf pr hpr] at h2
      cases h2
  have hkc : startsWithS (join (tmpName st.tmp) ("data/" ++ fn))
      (String.mk (stripTrailL (join (tmpName st.tmp) "data/").data) ++ "/") = true := by
    rw [hsrcN]
    unfold startsWithS
    rw [show (String.mk ((tmpName st.tmp).data ++ '/' :: "data".data) ++ "/").data =
        (((tmpName st.tmp).data ++ '/' :: "data".data) ++ ['/']) from rfl]
    rw [hj2]
    rw [show (tmpName st.tmp ++ "/" ++ ("data/" ++ fn)).data =
        (((tmpName st.tmp).data ++ '/' :: "data".data) ++ ['/']) ++ fn.data from by
      rw [hd2]; simp]
    exact isPrefixOf_append_self _ _
  have hdrop : (join (tmpName st.tmp) ("data/" ++ fn)).data.drop
      ((String.mk (stripTrailL (join (tmpName st.tmp) "data/").data)).data.length) =
      '/' :: fn.data := by
    rw [hsrcN, hj2, hd2]
    exact List.drop_left _ _
  obtain ⟨hcopyR, hcopyF⟩ := copytree_one_src_file
    ((st.fs.makedirs (join (tmpName st.tmp) "data/")).writeFile
      (join (tmpName st.tmp) ("data/" ++ fn)) (FileData.plain c))
    (join (tmpName st.tmp) "data/") (join sub.dir "data")
    st.fs.files (join (tmpName st.tmp) ("data/" ++ fn)) (FileData.plain c)
    hfs1files h0c hkc
  rw [hdrop] at hcopyR hcopyF
  have hisdir1 : ((st.fs.makedirs (join (tmpName st.tmp) "data/")).writeFile
      (join (tmpName st.tmp) ("data/" ++ fn)) (FileData.plain c)).isdir
      (join (tmpName st.tmp) "data/") = true :=
    isdir_writeFile_of _ _ _ _ (makedirs_isdir_self _ _)
  have hrd2 : (((st.fs.makedirs (join (tmpName st.tmp) "data/")).writeFile
      (join (tmpName st.tmp) ("data/" ++ fn)) (FileData.plain c)).copytree
        (join (tmpName st.tmp) "data/") (join sub.dir "data")).readFile?
      (join sub.dir "data" ++ String.mk ('/' :: fn.data)) =
      some (FileData.plain c) := by
    rw [hcopyR]
    rw [if_pos (beq_self_eq_true _)]
  have hstrip2 : String.mk (stripTrailL (join (tmpName st.tmp) ("data/" ++ fn)).data) =
      join (tmpName st.tmp) ("data/" ++ fn) := by
    have hl2 : (join (tmpName st.tmp) ("data/" ++ fn)).data.getLast? = some chl := by
      rw [hj2, hd2]
      rw [List.getLast?_append]
      rw [show ('/' :: fn.data).getLast? = fn.data.getLast?.or (some '/') from by
        rw [show ('/' :: fn.data) = ['/'] ++ fn.data from rfl, List.getLast?_append]
        rfl]
      rw [hchl]
      rfl
    rw [stripTrail_no_slash_end _ chl hl2 hchl_ne, mk_data]
  have hnosrc2 : ∀ pr ∈ (((st.fs.makedirs (join (tmpName st.tmp) "data/")).writeFile
      (join (tmpName st.tmp) ("data/" ++ fn)) (FileData.plain c)).copytree
        (join (tmpName st.tmp) "data/") (join sub.dir "data")).files,
      startsWithS pr.1
        (String.mk (stripTrailL (join (tmpName st.tmp) ("data/" ++ fn)).data) ++ "/") =
        false := by
    intro pr hpr
    rw [hcopyF, hfs1files] at hpr
    rw [hstrip2]
    have hftmp : startsWithS (join (tmpName st.tmp) ("data/" ++ fn) ++ "/")
        "/tmp/" = true :=
      startsWithS_trans _ _ _ (startsWithS_append_left _ _) hkt
    rcases mem_setFile _ _ _ _ hpr with h1 | h1
    · cases hx : startsWithS pr.1 (join (tmpName st.tmp) ("data/" ++ fn) ++ "/") with
      | false => rfl
      | true =>
        have h2 := startsWithS_trans _ _ _ hx hftmp
        rw [h1, htp] at h2
        cases h2
    · rw [List.mem_append] at h1
      rcases h1 with h1 | h1
      · cases hx : startsWithS pr.1 (join (tmpName st.tmp) ("data/" ++ fn) ++ "/") with
        | false => rfl
        | true =>
          have h2 := startsWithS_trans _ _ _ hx hftmp
          rw [hnotmpf pr h1] at h2
          cases h2
      · rw [List.mem_singleton] at h1
        rw [h1]
        exact startsWith_self_slash_false _
  have hcond1 : (((st.fs.makedirs (join (tmpName st.tmp) "data/")).writeFile
      (join (tmpName st.tmp) ("data/" ++ fn)) (FileData.plain c)).isdir
        (join (tmpName st.tmp) "data/") &&
      (basename (dirname (join (tmpName st.tmp) "data/")) == "data")) = true := by
    rw [hisdir1, hdir1]
    rfl
  have hloopAll : ∃ st4 : St,
      placeLoop [join (tmpName st.tmp) "data/", join (tmpName st.tmp) ("data/" ++ fn)]
        none sub.dir notebook_filename
        { st with
          tmp := st.tmp + 1,
          fs := (st.fs.makedirs (join (tmpName st.tmp) "data/")).writeFile
            (join (tmpName st.tmp) ("data/" ++ fn)) (FileData.plain c) } =
        (Except.ok none, st4) ∧
      st4.fs.readFile? (join sub.dir "data" ++ String.mk ('/' :: fn.data)) =
        some (FileData.plain c) ∧
      st4.log.filter isFatal = st.log.filter isFatal := by
    rw [placeLoop_cons, hext1, if_neg (fun hx => Bool.false_ne_true hx),
      if_pos hcond1]
    rw [placeLoop_cons, hext2, if_neg (fun hx => Bool.false_ne_true hx)]
    by_cases hcc : ((((st.fs.makedirs (join (tmpName st.tmp) "data/")).writeFile
        (join (tmpName st.tmp) ("data/" ++ fn)) (FileData.plain c)).copytree
          (join (tmpName st.tmp) "data/") (join sub.dir "data")).isdir
        (join (tmpName st.tmp) ("data/" ++ fn)) &&
        (basename (dirname (join (tmpName st.tmp) ("data/" ++ fn))) == "data")) = true
    · rw [if_pos hcc]
      refine ⟨_, rfl, ?_, ?_⟩
      · show ((((st.fs.makedirs (join (tmpName st.tmp) "data/")).writeFile
            (join (tmpName st.tmp) ("data/" ++ fn)) (FileData.plain c)).copytree
              (join (tmpName st.tmp) "data/") (join sub.dir "data")).copytree
            (join (tmpName st.tmp) ("data/" ++ fn)) (join sub.dir "data")).readFile?
            (join sub.dir "data" ++ String.mk ('/' :: fn.data)) =
          some (FileData.plain c)
        rw [copytree_no_src_files _ _ _ hnosrc2]
        exact hrd2
      · show ((((st.log ++ [LogEvent.debug ("> " ++ join (tmpName st.tmp) "data/")]) ++
            [LogEvent.debug "Data dir found"]) ++
            [LogEvent.debug ("> " ++ join (tmpName st.tmp) ("data/" ++ fn))]) ++
            [LogEvent.debug "Data dir found"]).filter isFatal = st.log.filter isFatal
        simp [List.filter_append, isFatal]
    · rw [if_neg hcc]
      refine ⟨_, rfl, ?_, ?_⟩
      · exact hrd2
      · show (((st.log ++ [LogEvent.debug ("> " ++ join (tmpName st.tmp) "data/")]) ++
            [LogEvent.debug "Data dir found"]) ++
            [LogEvent.debug ("> " ++ join (tmpName st.tmp) ("data/" ++ fn))]).filter isFatal =
          st.log.filter isFatal
        simp [List.filter_append, isFatal]
  obtain ⟨st4, hpl, hrd4, hlf4⟩ := hloopAll
  have hunder : under (tmpName st.tmp)
      (join sub.dir "data" ++ String.mk ('/' :: fn.data)) = false := by
    cases hx : under (tmpName st.tmp)
        (join sub.dir "data" ++ String.mk ('/' :: fn.data)) with
    | false => rfl
    | true =>
      have h2 := under_tmpName_startsWith st.tmp _ hx
      rw [htp] at h2
      cases h2
  have hmain : extract_files inputfile target sub notebook_filename st =
      (Except.ok [join (tmpName st.tmp) "data/",
        join (tmpName st.tmp) ("data/" ++ fn)],
       cleanupTmp (tmpName st.tmp)
        { st4 with log := st4.log ++ [LogEvent.fatal "No notebook found in submission!"] }) := by
    rw [extract_files_zip _ _ _ _ _ hip hzip, hez]
    dsimp only
    rw [hpl]
    rfl
  rw [hmain]
  refine ⟨rfl, ?_, ?_, ?_⟩
  · show (st4.fs.removeUnder (tmpName st.tmp)).readFile?
        (join sub.dir "data" ++ String.mk ('/' :: fn.data)) = some (FileData.plain c)
    rw [readFile?_removeUnder _ _ _ hunder]
    exact hrd4
  · show (st4.log ++ [LogEvent.fatal "No notebook found in submission!"]).getLast? =
      some (LogEvent.fatal "No notebook found in submission!")
    exact List.getLast?_concat _
  · show (st4.log ++ [LogEvent.fatal "No notebook found in submission!"]).filter isFatal =
      st.log.filter isFatal ++ [LogEvent.fatal "No notebook found in submission!"]
    rw [List.filter_append, hlf4]
    rfl

/-- C9 witness: a concrete archive holding only a `data` folder with one
file; the run succeeds, the file lands under the submission's `data`
subtree, and the lone fatal entry is the final no-notebook report. -/
theorem C9_no_notebook_data_merged_witness :
    (extract_files "sub.zip" "/t" ⟨"student", "42", "/s/42/hw1"⟩ "hw1.ipynb"
      ⟨⟨[], [("sub.zip", FileData.zipData
        [("data/", FileData.plain "dir"), ("data/x.txt", FileData.plain "X")])]⟩,
        [], 0⟩).1 =
      Except.ok [join (tmpName 0) "data/", join (tmpName 0) ("data/" ++ "x.txt")] ∧
    ((extract_files "sub.zip" "/t" ⟨"student", "42", "/s/42/hw1"⟩ "hw1.ipynb"
      ⟨⟨[], [("sub.zip", FileData.zipData
        [("data/", FileData.plain "dir"), ("data/x.txt", FileData.plain "X")])]⟩,
        [], 0⟩).2).fs.readFile?
      (join "/s/42/hw1" "data" ++ String.mk ('/' :: "x.txt".data)) =
      some (FileData.plain "X") ∧
    ((extract_files "sub.zip" "/t" ⟨"student", "42", "/s/42/hw1"⟩ "hw1.ipynb"
      ⟨⟨[], [("sub.zip", FileData.zipData
        [("data/", FileData.plain "dir"), ("data/x.txt", FileData.plain "X")])]⟩,
        [], 0⟩).2).log.getLast? =
      some (LogEvent.fatal "No notebook found in submission!") ∧
    ((extract_files "sub.zip" "/t" ⟨"student", "42", "/s/42/hw1"⟩ "hw1.ipynb"
      ⟨⟨[], [("sub.zip", FileData.zipData
        [("data/", FileData.plain "dir"), ("data/x.txt", FileData.plain "X")])]⟩,
        [], 0⟩).2).log.filter isFatal =
      List.filter isFatal [] ++ [LogEvent.fatal "No notebook found in submission!"] :=
  C9_no_notebook_data_merged "sub.zip" "/t" ⟨"student", "42", "/s/42/hw1"⟩ "hw1.ipynb"
    ⟨⟨[], [("sub.zip", FileData.zipData
      [("data/", FileData.plain "dir"), ("data/x.txt", FileData.plain "X")])]⟩,
      [], 0⟩ "x.txt" "X" (FileData.plain "dir")
    rfl (by decide) (by decide) (by decide) (by decide) (by decide) (by decide)
    (by decide) (by decide)

/-! ## Scratch-directory and path disjointness lemmas -/

theorem startsWith_slash_false_of_no_slash (b : String)
    (hb : ∀ ch ∈ b.data, (ch != '/') = true) : startsWithS b "/" = false := by
  unfold startsWithS
  cases hbd : b.data with
  | nil => rfl
  | cons ch cs =>
    show (['/'].isPrefixOf (ch :: cs)) = false
    have hch := hb ch (by rw [hbd]; exact List.mem_cons_self ch cs)
    have hne : (('/' : Char) == ch) = false := by
      rw [beq_eq_false_iff_ne]
      intro h
      rw [← h] at hch
      simp at hch
    simp only [List.isPrefixOf, hne, Bool.false_and]

theorem endsSlash_false_of_no_slash (b : String) (hne : b.data ≠ [])
    (hb : ∀ ch ∈ b.data, (ch != '/') = true) : endsSlash b = false := by
  unfold endsSlash
  obtain ⟨ch, hch⟩ : ∃ ch, b.data.getLast? = some ch := by
    cases h : b.data.getLast? with
    | none => exact absurd (List.getLast?_eq_none_iff.mp h) hne
    | some ch => exact ⟨ch, rfl⟩
  rw [hch]
  have hm := hb ch (List.mem_of_getLast?_eq_some hch)
  show ((some ch == some '/') : Bool) = false
  rw [show ((some ch == some '/') : Bool) = (ch == '/') from rfl]
  cases hx : (ch == '/') with
  | false => rfl
  | true =>
    rw [show (ch != '/') = !(ch == '/') from rfl, hx] at hm
    cases hm

theorem isPrefixOf_append_cancel (a x y : List Char) :
    (a ++ x).isPrefixOf (a ++ y) = x.isPrefixOf y := by
  induction a with
  | nil => rfl
  | cons ch cs ih =>
    simp only [List.cons_append, List.isPrefixOf, beq_self_eq_true, Bool.true_and]
    show (cs ++ x).isPrefixOf (cs ++ y) = x.isPrefixOf y
    exact ih

theorem append_left_cancel_ne (a x y : String) (h : (x == y) = false) :
    ((a ++ x) == (a ++ y)) = false := by
  rw [beq_eq_false_iff_ne] at h ⊢
  intro hx
  apply h
  have hd : (a ++ x).data = (a ++ y).data := by rw [hx]
  rw [data_append, data_append] at hd
  have h2 := List.append_cancel_left hd
  obtain ⟨xd⟩ := x
  obtain ⟨yd⟩ := y
  exact congrArg String.mk h2

theorem tmpName_data_succ (k : Nat) :
    (tmpName (k + 1)).data = (tmpName k).data ++ ['p'] := by
  unfold tmpName
  rw [data_append, data_append]
  rw [show (String.mk (List.replicate (k + 1) 'p')).data =
    List.replicate (k + 1) 'p' from rfl]
  rw [show (String.mk (List.replicate k 'p')).data = List.replicate k 'p' from rfl]
  rw [List.append_assoc]
  rw [List.replicate_succ']

theorem under_tmpSucc_join (k : Nat) (b : String)
    (hbs : startsWithS b "/" = false) :
    under (tmpName (k + 1)) (join (tmpName k) b) = false := by
  have hj : join (tmpName k) b = tmpName k ++ "/" ++ b :=
    join_spell _ _ hbs (tmpName_ne_empty k) (tmpName_no_trailing_slash k)
  unfold under
  rw [hj]
  have h1 : ((tmpName k ++ "/" ++ b) == tmpName (k + 1)) = false := by
    rw [beq_eq_false_iff_ne]
    intro hx
    have hdx := congrArg String.data hx
    rw [data_append, data_append, tmpName_data_succ] at hdx
    rw [List.append_assoc] at hdx
    have h2 := List.append_cancel_left hdx
    have h3 : '/' = 'p' := by
      have := congrArg (fun (l : List Char) => l.head?) h2
      simpa using this
    exact absurd h3 (by decide)
  have h2 : startsWithS (tmpName k ++ "/" ++ b) (tmpName (k + 1) ++ "/") = false := by
    unfold startsWithS
    rw [data_append, data_append, data_append, tmpName_data_succ]
    rw [List.append_assoc, List.append_assoc]
    rw [isPrefixOf_append_cancel]
    rfl
  rw [h1, h2]
  rfl

theorem join_tmp_startsWith (k : Nat) (b : String)
    (hbs : startsWithS b "/" = false) :
    startsWithS (join (tmpName k) b) "/tmp/" = true := by
  rw [join_spell _ _ hbs (tmpName_ne_empty k) (tmpName_no_trailing_slash k)]
  refine startsWithS_trans _ (tmpName k ++ "/") _ (startsWithS_append_left _ _) ?_
  exact startsWithS_trans _ (tmpName k) _ (startsWithS_append_left _ _)
    (tmpName_startsWith_tmp k)

theorem ne_of_tmp_prefix (x y : String) (hx : startsWithS x "/tmp/" = true)
    (hy : startsWithS y "/tmp/" = false) : (x == y) = false := by
  rw [beq_eq_false_iff_ne]
  intro h
  rw [h] at hx
  rw [hx] at hy
  cases hy

theorem under_join_self (t b : String) (hbs : startsWithS b "/" = false)
    (ht : (t == "") = false) (hts : endsSlash t = false) :
    under t (join t b) = true := by
  unfold under
  rw [join_spell _ _ hbs ht hts]
  rw [startsWithS_append_left (t ++ "/") b]
  simp

theorem collectLoop_cons (rec : String → St → Except Err (List Submission) × St)
    (f : String) (rest : List String) (st : St) :
    collectLoop rec (f :: rest) st =
      (match rec f st with
       | (Except.ok subs, st1) =>
         (match collectLoop rec rest st1 with
          | (Except.ok subs2, st2) => (Except.ok (subs ++ subs2), st2)
          | (Except.error e, st2) => (Except.error e, st2))
       | (Except.error e, st1) => (Except.error e, st1)) := rfl

theorem collectLoop_nil (rec : String → St → Except Err (List Submission) × St)
    (st : St) : collectLoop rec [] st = (Except.ok [], st) := rfl

set_option maxHeartbeats 4000000 in
/-- `collect` on an individually-valid submission archive: the basename
matches the student grammar, the archive holds exactly one notebook
member.  The run returns that one submission, bumps the scratch counter
once, and — outside the discarded scratch directory — changes the
filesystem only at the submission's canonical notebook path. -/
theorem collect_zip_nb_W (n : Nat) (p target assignment nf : String) (st : St)
    (ds fnm lnm rest : List Char) (nb c : String)
    (hds : ds ≠ []) (hdsall : ∀ ch ∈ ds, digitB ch = true)
    (hfn : fnm ≠ []) (hfnall : ∀ ch ∈ fnm, notUnderscore ch = true)
    (hln : lnm ≠ []) (hlnall : ∀ ch ∈ lnm, notUnderscore ch = true)
    (hrest : rest ≠ []) (hresthd : ∀ ch cs, rest = ch :: cs → notNewline ch = true)
    (hbn : basename p =
      String.mk ('h' :: (ds ++ '_' :: (fnm ++ '_' :: (lnm ++ '_' :: rest)))))
    (hip : ((splitext p).2 == ".ipynb") = false)
    (hzip : ((splitext p).2 == ".zip" || (splitext p).2 == ".7z") = true)
    (hread : st.fs.readFile? p = some (FileData.zipData [(nb, FileData.plain c)]))
    (hnb_ne : nb.data ≠ [])
    (hnb_slash : ∀ ch ∈ nb.data, (ch != '/') = true)
    (hnb_mac : startsWithS nb "__MACOSX/" = false)
    (hnb_dot : startsWithS nb "." = false)
    (hnb_ext : (String.mk (splitextExt nb.data) == ".ipynb") = true) :
    (collect (n + 1) p target assignment nf st).1 =
      Except.ok [⟨"student", String.mk ds,
        join (join target (String.mk ds)) assignment⟩] ∧
    ((collect (n + 1) p target assignment nf st).2).tmp = st.tmp + 1 ∧
    ∀ q, under (tmpName st.tmp) q = false →
      ((collect (n + 1) p target assignment nf st).2).fs.readFile? q =
        if (q == join (join (join target (String.mk ds)) assignment) nf) = true
        then some (FileData.plain c) else st.fs.readFile? q := by
  have hbd : (basename p).data =
      'h' :: (ds ++ '_' :: (fnm ++ '_' :: (lnm ++ '_' :: rest))) := by rw [hbn]
  have hg := match_student_full ds fnm lnm rest hds hdsall hfn hfnall hln hlnall
    hrest hresthd
  rw [← hbd] at hg
  have hcm := collect_matched_student n p target assignment nf st _ hg rfl
  have hnum : matchGroup
      [("type", "h"), ("number", String.mk ds), ("firstname", String.mk fnm),
       ("lastname", String.mk lnm),
       ("filename", String.mk (rest.takeWhile notNewline))]
      "number" = String.mk ds := rfl
  rw [hnum] at hcm
  have hbs : startsWithS nb "/" = false :=
    startsWith_slash_false_of_no_slash nb hnb_slash
  have hes : endsSlash nb = false := endsSlash_false_of_no_slash nb hnb_ne hnb_slash
  have hbnnb : basename nb = nb := by
    unfold basename
    rw [basenameL_no_slash nb.data hnb_slash]
  have hkept : filter [nb] = [nb] := by
    have hcnb : ((!startsWithS nb "__MACOSX/" && !startsWithS nb ".") &&
        !startsWithS (basename nb) ".") = true := by
      rw [hbnnb, hnb_mac, hnb_dot]
      rfl
    unfold filter
    simp only [List.filter_cons, List.filter_nil, hcnb, if_true]
  have hfind : List.find? (fun m => m.1 == nb) [(nb, FileData.plain c)] =
      some (nb, FileData.plain c) := by
    simp only [List.find?, beq_self_eq_true]
  have hwm : ∀ fsx : FS,
      writeMemberFS [(nb, FileData.plain c)] (tmpName st.tmp) fsx nb =
      fsx.writeFile (join (tmpName st.tmp) nb) (FileData.plain c) := by
    intro fsx
    simp only [writeMemberFS, hfind, hes, Bool.false_eq_true, if_false]
  have hez : extract_zip p (tmpName st.tmp)
      { st with
        tmp := st.tmp + 1,
        fs := st.fs.makedirs (join (join target (String.mk ds)) assignment),
        log := st.log ++
          [.info ("student submission found: " ++ basename p)] } =
      (Except.ok [join (tmpName st.tmp) nb],
       { st with
         tmp := st.tmp + 1,
         fs := (st.fs.makedirs
             (join (join target (String.mk ds)) assignment)).writeFile
           (join (tmpName st.tmp) nb) (FileData.plain c),
         log := st.log ++
           [.info ("student submission found: " ++ basename p)] }) := by
    rw [extract_zip_ok p (tmpName st.tmp)
      { st with
        tmp := st.tmp + 1,
        fs := st.fs.makedirs (join (join target (String.mk ds)) assignment),
        log := st.log ++
          [.info ("student submission found: " ++ basename p)] }
      [(nb, FileData.plain c)] hzip
      (by
        show (st.fs.makedirs
          (join (join target (String.mk ds)) assignment)).readFile? p =
          some (FileData.zipData [(nb, FileData.plain c)])
        rw [readFile?_makedirs]
        exact hread)]
    rw [show List.map Prod.fst [(nb, FileData.plain c)] = [nb] from rfl]
    rw [hkept, List.foldl_cons, List.foldl_nil, hwm]
    rfl
  have hext_nb : ((splitext (join (tmpName st.tmp) nb)).2 == ".ipynb") = true := by
    rw [splitext_join (tmpName st.tmp) nb hnb_slash hbs (tmpName_ne_empty _)
      (tmpName_no_trailing_slash _)]
    exact hnb_ext
  have hrdself : ((st.fs.makedirs
      (join (join target (String.mk ds)) assignment)).writeFile
        (join (tmpName st.tmp) nb) (FileData.plain c)).readFile?
      (join (tmpName st.tmp) nb) = some (FileData.plain c) :=
    readFile?_writeFile_self _ _ _
  have hef : extract_files p target
      ⟨"student", String.mk ds, join (join target (String.mk ds)) assignment⟩ nf
      { st with
        fs := st.fs.makedirs (join (join target (String.mk ds)) assignment),
        log := st.log ++
          [.info ("student submission found: " ++ basename p)] } =
      (Except.ok [join (tmpName st.tmp) nb],
       { st with
         tmp := st.tmp + 1,
         fs := (((st.fs.makedirs
             (join (join target (String.mk ds)) assignment)).writeFile
               (join (tmpName st.tmp) nb) (FileData.plain c)).writeFile
             (join (join (join target (String.mk ds)) assignment) nf)
             (FileData.plain c)).removeUnder (tmpName st.tmp),
         log := (((st.log ++
             [.info ("student submission found: " ++ basename p)]) ++
             [.debug ("> " ++ join (tmpName st.tmp) nb)]) ++
             [.debug ("notebook found: " ++ join (tmpName st.tmp) nb)]) }) := by
    rw [extract_files_zip p target _ nf _ hip hzip]
    dsimp only
    rw [hez]
    dsimp only
    rw [placeLoop_cons, hext_nb, if_pos rfl]
    rw [copyfile_ok _ _ _ (FileData.plain c) hrdself]
    rfl
  rw [hcm, hef]
  refine ⟨rfl, rfl, ?_⟩
  intro q hq
  show ((((st.fs.makedirs
      (join (join target (String.mk ds)) assignment)).writeFile
        (join (tmpName st.tmp) nb) (FileData.plain c)).writeFile
      (join (join (join target (String.mk ds)) assignment) nf)
      (FileData.plain c)).removeUnder (tmpName st.tmp)).readFile? q =
    if (q == join (join (join target (String.mk ds)) assignment) nf) = true
    then some (FileData.plain c) else st.fs.readFile? q
  rw [readFile?_removeUnder _ _ _ hq]
  by_cases hqe : (q == join (join (join target (String.mk ds)) assignment) nf) = true
  · rw [if_pos hqe]
    rw [(beq_iff_eq (a := q)
      (b := join (join (join target (String.mk ds)) assignment) nf)).mp hqe]
    exact readFile?_writeFile_self _ _ _
  · have hqe2 : (q == join (join (join target (String.mk ds)) assignment) nf) =
        false := by
      cases hx : (q == join (join (join target (String.mk ds)) assignment) nf) with
      | false => rfl
      | true => exact absurd hx hqe
    rw [if_neg hqe]
    have hqt : (q == join (tmpName st.tmp) nb) = false := by
      cases hx : (q == join (tmpName st.tmp) nb) with
      | false => rfl
      | true =>
        have hq2 : q = join (tmpName st.tmp) nb :=
          (beq_iff_eq (a := q) (b := join (tmpName st.tmp) nb)).mp hx
        rw [hq2] at hq
        rw [under_join_self _ _ hbs (tmpName_ne_empty _)
          (tmpName_no_trailing_slash _)] at hq
        cases hq
    rw [readFile?_writeFile_ne _ _ _ _ hqe2,
      readFile?_writeFile_ne _ _ _ _ hqt, readFile?_makedirs]

set_option maxHeartbeats 4000000 in
/-- C7: collecting one archive `A` (own name matching no identity
grammar) that contains two individually-valid submission archives yields
exactly the two submissions, in member order, that collecting the two
archives directly as separate inputs yields. -/
theorem C7_nested_archive_associative (m : Nat)
    (A target assignment nf : String) (st stB stC : St)
    (dsB fnmB lnmB restB dsC fnmC lnmC restC : List Char)
    (bnB bnC nbB nbC : String) (cB cC : String)
    (hmSA : matchToks pattern_student (basename A).data = none)
    (hmGA : matchToks pattern_group (basename A).data = none)
    (hipA : ((splitext A).2 == ".ipynb") = false)
    (hzipA : ((splitext A).2 == ".zip" || (splitext A).2 == ".7z") = true)
    (hreadA : st.fs.readFile? A = some (FileData.zipData
      [(bnB, FileData.zipData [(nbB, FileData.plain cB)]),
       (bnC, FileData.zipData [(nbC, FileData.plain cC)])]))
    (hbnB : bnB =
      String.mk ('h' :: (dsB ++ '_' :: (fnmB ++ '_' :: (lnmB ++ '_' :: restB)))))
    (hbnC : bnC =
      String.mk ('h' :: (dsC ++ '_' :: (fnmC ++ '_' :: (lnmC ++ '_' :: restC)))))
    (hBslash : ∀ ch ∈ bnB.data, (ch != '/') = true)
    (hCslash : ∀ ch ∈ bnC.data, (ch != '/') = true)
    (hBCne : (bnB == bnC) = false)
    (hdsB : dsB ≠ []) (hdsallB : ∀ ch ∈ dsB, digitB ch = true)
    (hfnB : fnmB ≠ []) (hfnallB : ∀ ch ∈ fnmB, notUnderscore ch = true)
    (hlnB : lnmB ≠ []) (hlnallB : ∀ ch ∈ lnmB, notUnderscore ch = true)
    (hrestB : restB ≠ [])
    (hresthdB : ∀ ch cs, restB = ch :: cs → notNewline ch = true)
    (hdsC : dsC ≠ []) (hdsallC : ∀ ch ∈ dsC, digitB ch = true)
    (hfnC : fnmC ≠ []) (hfnallC : ∀ ch ∈ fnmC, notUnderscore ch = true)
    (hlnC : lnmC ≠ []) (hlnallC : ∀ ch ∈ lnmC, notUnderscore ch = true)
    (hrestC : restC ≠ [])
    (hresthdC : ∀ ch cs, restC = ch :: cs → notNewline ch = true)
    (hextB_ip : (String.mk (splitextExt bnB.data) == ".ipynb") = false)
    (hextB_zip : ((String.mk (splitextExt bnB.data) == ".zip") ||
      (String.mk (splitextExt bnB.data) == ".7z")) = true)
    (hextC_ip : (String.mk (splitextExt bnC.data) == ".ipynb") = false)
    (hextC_zip : ((String.mk (splitextExt bnC.data) == ".zip") ||
      (String.mk (splitextExt bnC.data) == ".7z")) = true)
    (hnbB_ne : nbB.data ≠ [])
    (hnbB_slash : ∀ ch ∈ nbB.data, (ch != '/') = true)
    (hnbB_mac : startsWithS nbB "__MACOSX/" = false)
    (hnbB_dot : startsWithS nbB "." = false)
    (hnbB_ext : (String.mk (splitextExt nbB.data) == ".ipynb") = true)
    (hnbC_ne : nbC.data ≠ [])
    (hnbC_slash : ∀ ch ∈ nbC.data, (ch != '/') = true)
    (hnbC_mac : startsWithS nbC "__MACOSX/" = false)
    (hnbC_dot : startsWithS nbC "." = false)
    (hnbC_ext : (String.mk (splitextExt nbC.data) == ".ipynb") = true)
    (htgB : startsWithS (join (join (join target (String.mk dsB)) assignment) nf)
      "/tmp/" = false)
    (hreadBdir : stB.fs.readFile? bnB =
      some (FileData.zipData [(nbB, FileData.plain cB)]))
    (hreadCdir : stC.fs.readFile? bnC =
      some (FileData.zipData [(nbC, FileData.plain cC)])) :
    (collect (m + 1 + 1) A target assignment nf st).1 =
      Except.ok
        [⟨"student", String.mk dsB, join (join target (String.mk dsB)) assignment⟩,
         ⟨"student", String.mk dsC, join (join target (String.mk dsC)) assignment⟩] ∧
    (collect (m + 1) bnB target assignment nf stB).1 =
      Except.ok
        [⟨"student", String.mk dsB, join (join target (String.mk dsB)) assignment⟩] ∧
    (collect (m + 1) bnC target assignment nf stC).1 =
      Except.ok
        [⟨"student", String.mk dsC,
          join (join target (String.mk dsC)) assignment⟩] := by
  have hBbs : startsWithS bnB "/" = false :=
    startsWith_slash_false_of_no_slash bnB hBslash
  have hCbs : startsWithS bnC "/" = false :=
    startsWith_slash_false_of_no_slash bnC hCslash
  have hBne : bnB.data ≠ [] := by
    rw [hbnB]
    exact fun h => List.noConfusion h
  have hCne : bnC.data ≠ [] := by
    rw [hbnC]
    exact fun h => List.noConfusion h
  have hesB : endsSlash bnB = false := endsSlash_false_of_no_slash bnB hBne hBslash
  have hesC : endsSlash bnC = false := endsSlash_false_of_no_slash bnC hCne hCslash
  have hbnmB : basename bnB = bnB := by
    unfold basename
    rw [basenameL_no_slash bnB.data hBslash]
  have hbnmC : basename bnC = bnC := by
    unfold basename
    rw [basenameL_no_slash bnC.data hCslash]
  have hBmac : startsWithS bnB "__MACOSX/" = false := by
    rw [hbnB]
    rfl
  have hBdot : startsWithS bnB "." = false := by
    rw [hbnB]
    rfl
  have hCmac : startsWithS bnC "__MACOSX/" = false := by
    rw [hbnC]
    rfl
  have hCdot : startsWithS bnC "." = false := by
    rw [hbnC]
    rfl
  have hkeptA : filter [bnB, bnC] = [bnB, bnC] := by
    have hcB : ((!startsWithS bnB "__MACOSX/" && !startsWithS bnB ".") &&
        !startsWithS (basename bnB) ".") = true := by
      rw [hbnmB, hBmac, hBdot]
      rfl
    have hcC : ((!startsWithS bnC "__MACOSX/" && !startsWithS bnC ".") &&
        !startsWithS (basename bnC) ".") = true := by
      rw [hbnmC, hCmac, hCdot]
      rfl
    unfold filter
    simp only [List.filter_cons, List.filter_nil, hcB, hcC, if_true]
  have hfindB : List.find? (fun mm => mm.1 == bnB)
      [(bnB, FileData.zipData [(nbB, FileData.plain cB)]),
       (bnC, FileData.zipData [(nbC, FileData.plain cC)])] =
      some (bnB, FileData.zipData [(nbB, FileData.plain cB)]) := by
    simp only [List.find?, beq_self_eq_true]
  have hfindC : List.find? (fun mm => mm.1 == bnC)
      [(bnB, FileData.zipData [(nbB, FileData.plain cB)]),
       (bnC, FileData.zipData [(nbC, FileData.plain cC)])] =
      some (bnC, FileData.zipData [(nbC, FileData.plain cC)]) := by
    simp only [List.find?, hBCne, beq_self_eq_true]
  have hwB : ∀ fsx : FS, writeMemberFS
      [(bnB, FileData.zipData [(nbB, FileData.plain cB)]),
       (bnC, FileData.zipData [(nbC, FileData.plain cC)])] (tmpName st.tmp) fsx bnB =
      fsx.writeFile (join (tmpName st.tmp) bnB)
        (FileData.zipData [(nbB, FileData.plain cB)]) := by
    intro fsx
    simp only [writeMemberFS, hfindB, hesB, Bool.false_eq_true, if_false]
  have hwC : ∀ fsx : FS, writeMemberFS
      [(bnB, FileData.zipData [(nbB, FileData.plain cB)]),
       (bnC, FileData.zipData [(nbC, FileData.plain cC)])] (tmpName st.tmp) fsx bnC =
      fsx.writeFile (join (tmpName st.tmp) bnC)
        (FileData.zipData [(nbC, FileData.plain cC)]) := by
    intro fsx
    simp only [writeMemberFS, hfindC, hesC, Bool.false_eq_true, if_false]
  have hezA : extract_zip A (tmpName st.tmp)
      { st with
        tmp := st.tmp + 1,
        log := st.log ++
          [.info ("Extracting " ++ A ++ " to " ++ tmpName st.tmp)] } =
      (Except.ok [join (tmpName st.tmp) bnB, join (tmpName st.tmp) bnC],
       { st with
         tmp := st.tmp + 1,
         fs := (st.fs.writeFile (join (tmpName st.tmp) bnB)
             (FileData.zipData [(nbB, FileData.plain cB)])).writeFile
           (join (tmpName st.tmp) bnC)
           (FileData.zipData [(nbC, FileData.plain cC)]),
         log := st.log ++
           [.info ("Extracting " ++ A ++ " to " ++ tmpName st.tmp)] }) := by
    rw [extract_zip_ok A (tmpName st.tmp)
      { st with
        tmp := st.tmp + 1,
        log := st.log ++
          [.info ("Extracting " ++ A ++ " to " ++ tmpName st.tmp)] }
      [(bnB, FileData.zipData [(nbB, FileData.plain cB)]),
       (bnC, FileData.zipData [(nbC, FileData.plain cC)])] hzipA hreadA]
    rw [show List.map Prod.fst
        [(bnB, FileData.zipData [(nbB, FileData.plain cB)]),
         (bnC, FileData.zipData [(nbC, FileData.plain cC)])] = [bnB, bnC] from rfl]
    rw [hkeptA, List.foldl_cons, List.foldl_cons, List.foldl_nil, hwB, hwC]
    rfl
  have hPBCne : (join (tmpName st.tmp) bnB == join (tmpName st.tmp) bnC) = false := by
    rw [join_spell _ _ hBbs (tmpName_ne_empty _) (tmpName_no_trailing_slash _),
        join_spell _ _ hCbs (tmpName_ne_empty _) (tmpName_no_trailing_slash _)]
    exact append_left_cancel_ne (tmpName st.tmp ++ "/") bnB bnC hBCne
  have hbnjB : basename (join (tmpName st.tmp) bnB) =
      String.mk ('h' :: (dsB ++ '_' :: (fnmB ++ '_' :: (lnmB ++ '_' :: restB)))) := by
    rw [basename_join _ _ hBslash hBbs (tmpName_ne_empty _)
      (tmpName_no_trailing_slash _)]
    exact hbnB
  have hbnjC : basename (join (tmpName st.tmp) bnC) =
      String.mk ('h' :: (dsC ++ '_' :: (fnmC ++ '_' :: (lnmC ++ '_' :: restC)))) := by
    rw [basename_join _ _ hCslash hCbs (tmpName_ne_empty _)
      (tmpName_no_trailing_slash _)]
    exact hbnC
  have hsxjB_ip : ((splitext (join (tmpName st.tmp) bnB)).2 == ".ipynb") = false := by
    rw [splitext_join _ _ hBslash hBbs (tmpName_ne_empty _)
      (tmpName_no_trailing_slash _)]
    exact hextB_ip
  have hsxjB_zip : ((splitext (join (tmpName st.tmp) bnB)).2 == ".zip" ||
      (splitext (join (tmpName st.tmp) bnB)).2 == ".7z") = true := by
    rw [splitext_join _ _ hBslash hBbs (tmpName_ne_empty _)
      (tmpName_no_trailing_slash _)]
    exact hextB_zip
  have hsxjC_ip : ((splitext (join (tmpName st.tmp) bnC)).2 == ".ipynb") = false := by
    rw [splitext_join _ _ hCslash hCbs (tmpName_ne_empty _)
      (tmpName_no_trailing_slash _)]
    exact hextC_ip
  have hsxjC_zip : ((splitext (join (tmpName st.tmp) bnC)).2 == ".zip" ||
      (splitext (join (tmpName st.tmp) bnC)).2 == ".7z") = true := by
    rw [splitext_join _ _ hCslash hCbs (tmpName_ne_empty _)
      (tmpName_no_trailing_slash _)]
    exact hextC_zip
  have hreadB2 : ((st.fs.writeFile (join (tmpName st.tmp) bnB)
      (FileData.zipData [(nbB, FileData.plain cB)])).writeFile
        (join (tmpName st.tmp) bnC)
        (FileData.zipData [(nbC, FileData.plain cC)])).readFile?
      (join (tmpName st.tmp) bnB) =
      some (FileData.zipData [(nbB, FileData.plain cB)]) := by
    rw [readFile?_writeFile_ne _ _ _ _ hPBCne, readFile?_writeFile_self]
  have hrecB := collect_zip_nb_W m (join (tmpName st.tmp) bnB) target assignment nf
    { st with
      tmp := st.tmp + 1,
      fs := (st.fs.writeFile (join (tmpName st.tmp) bnB)
          (FileData.zipData [(nbB, FileData.plain cB)])).writeFile
        (join (tmpName st.tmp) bnC) (FileData.zipData [(nbC, FileData.plain cC)]),
      log := st.log ++ [.info ("Extracting " ++ A ++ " to " ++ tmpName st.tmp)] }
    dsB fnmB lnmB restB nbB cB hdsB hdsallB hfnB hfnallB hlnB hlnallB hrestB
    hresthdB hbnjB hsxjB_ip hsxjB_zip hreadB2 hnbB_ne hnbB_slash hnbB_mac hnbB_dot
    hnbB_ext
  have hBfull : collect (m + 1) (join (tmpName st.tmp) bnB) target assignment nf
      { st with
        tmp := st.tmp + 1,
        fs := (st.fs.writeFile (join (tmpName st.tmp) bnB)
            (FileData.zipData [(nbB, FileData.plain cB)])).writeFile
          (join (tmpName st.tmp) bnC) (FileData.zipData [(nbC, FileData.plain cC)]),
        log := st.log ++ [.info ("Extracting " ++ A ++ " to " ++ tmpName st.tmp)] } =
      (Except.ok
        [⟨"student", String.mk dsB, join (join target (String.mk dsB)) assignment⟩],
       (collect (m + 1) (join (tmpName st.tmp) bnB) target assignment nf
        { st with
          tmp := st.tmp + 1,
          fs := (st.fs.writeFile (join (tmpName st.tmp) bnB)
              (FileData.zipData [(nbB, FileData.plain cB)])).writeFile
            (join (tmpName st.tmp) bnC)
            (FileData.zipData [(nbC, FileData.plain cC)]),
          log := st.log ++
            [.info ("Extracting " ++ A ++ " to " ++ tmpName st.tmp)] }).2) := by
    rw [← hrecB.1]
  have hframe := hrecB.2.2 (join (tmpName st.tmp) bnC)
    (under_tmpSucc_join st.tmp bnC hCbs)
  have hifC : (join (tmpName st.tmp) bnC ==
      join (join (join target (String.mk dsB)) assignment) nf) = false :=
    ne_of_tmp_prefix _ _ (join_tmp_startsWith st.tmp bnC hCbs) htgB
  rw [hifC, if_neg (fun hx => Bool.false_ne_true hx)] at hframe
  have hreadC3 : ((collect (m + 1) (join (tmpName st.tmp) bnB) target assignment nf
      { st with
        tmp := st.tmp + 1,
        fs := (st.fs.writeFile (join (tmpName st.tmp) bnB)
            (FileData.zipData [(nbB, FileData.plain cB)])).writeFile
          (join (tmpName st.tmp) bnC) (FileData.zipData [(nbC, FileData.plain cC)]),
        log := st.log ++
          [.info ("Extracting " ++ A ++ " to " ++ tmpName st.tmp)] }).2).fs.readFile?
      (join (tmpName st.tmp) bnC) =
      some (FileData.zipData [(nbC, FileData.plain cC)]) := by
    rw [hframe]
    exact readFile?_writeFile_self _ _ _
  have hrecC := collect_zip_nb_W m (join (tmpName st.tmp) bnC) target assignment nf
    ((collect (m + 1) (join (tmpName st.tmp) bnB) target assignment nf
      { st with
        tmp := st.tmp + 1,
        fs := (st.fs.writeFile (join (tmpName st.tmp) bnB)
            (FileData.zipData [(nbB, FileData.plain cB)])).writeFile
          (join (tmpName st.tmp) bnC) (FileData.zipData [(nbC, FileData.plain cC)]),
        log := st.log ++
          [.info ("Extracting " ++ A ++ " to " ++ tmpName st.tmp)] }).2)
    dsC fnmC lnmC restC nbC cC hdsC hdsallC hfnC hfnallC hlnC hlnallC hrestC
    hresthdC hbnjC hsxjC_ip hsxjC_zip hreadC3 hnbC_ne hnbC_slash hnbC_mac hnbC_dot
    hnbC_ext
  have hCfull : collect (m + 1) (join (tmpName st.tmp) bnC) target assignment nf
      ((collect (m + 1) (join (tmpName st.tmp) bnB) target assignment nf
        { st with
          tmp := st.tmp + 1,
          fs := (st.fs.writeFile (join (tmpName st.tmp) bnB)
              (FileData.zipData [(nbB, FileData.plain cB)])).writeFile
            (join (tmpName st.tmp) bnC)
            (FileData.zipData [(nbC, FileData.plain cC)]),
          log := st.log ++
            [.info ("Extracting " ++ A ++ " to " ++ tmpName st.tmp)] }).2) =
      (Except.ok
        [⟨"student", String.mk dsC, join (join target (String.mk dsC)) assignment⟩],
       (collect (m + 1) (join (tmpName st.tmp) bnC) target assignment nf
        ((collect (m + 1) (join (tmpName st.tmp) bnB) target assignment nf
          { st with
            tmp := st.tmp + 1,
            fs := (st.fs.writeFile (join (tmpName st.tmp) bnB)
                (FileData.zipData [(nbB, FileData.plain cB)])).writeFile
              (join (tmpName st.tmp) bnC)
              (FileData.zipData [(nbC, FileData.plain cC)]),
            log := st.log ++
              [.info ("Extracting " ++ A ++ " to " ++ tmpName st.tmp)] }).2)).2) := by
    rw [← hrecC.1]
  have hbnBB : basename bnB =
      String.mk ('h' :: (dsB ++ '_' :: (fnmB ++ '_' :: (lnmB ++ '_' :: restB)))) := by
    rw [hbnmB]
    exact hbnB
  have hbnCC : basename bnC =
      String.mk ('h' :: (dsC ++ '_' :: (fnmC ++ '_' :: (lnmC ++ '_' :: restC)))) := by
    rw [hbnmC]
    exact hbnC
  have hsxB_ip : ((splitext bnB).2 == ".ipynb") = false := by
    rw [splitext_ext_eq, basenameL_no_slash bnB.data hBslash]
    exact hextB_ip
  have hsxB_zip : ((splitext bnB).2 == ".zip" ||
      (splitext bnB).2 == ".7z") = true := by
    rw [splitext_ext_eq, basenameL_no_slash bnB.data hBslash]
    exact hextB_zip
  have hsxC_ip : ((splitext bnC).2 == ".ipynb") = false := by
    rw [splitext_ext_eq, basenameL_no_slash bnC.data hCslash]
    exact hextC_ip
  have hsxC_zip : ((splitext bnC).2 == ".zip" ||
      (splitext bnC).2 == ".7z") = true := by
    rw [splitext_ext_eq, basenameL_no_slash bnC.data hCslash]
    exact hextC_zip
  have hrecBdir := collect_zip_nb_W m bnB target assignment nf stB dsB fnmB lnmB
    restB nbB cB hdsB hdsallB hfnB hfnallB hlnB hlnallB hrestB hresthdB hbnBB
    hsxB_ip hsxB_zip hreadBdir hnbB_ne hnbB_slash hnbB_mac hnbB_dot hnbB_ext
  have hrecCdir := collect_zip_nb_W m bnC target assignment nf stC dsC fnmC lnmC
    restC nbC cC hdsC hdsallC hfnC hfnallC hlnC hlnallC hrestC hresthdC hbnCC
    hsxC_ip hsxC_zip hreadCdir hnbC_ne hnbC_slash hnbC_mac hnbC_dot hnbC_ext
  refine ⟨?_, hrecBdir.1, hrecCdir.1⟩
  rw [collect_unmatched_zip (m + 1) A target assignment nf st hmSA hmGA hipA hzipA]
  rw [hezA]
  dsimp only
  rw [collectLoop_cons]
  rw [hBfull]
  dsimp only
  rw [collectLoop_cons]
  rw [hCfull]
  dsimp only
  rw [collectLoop_nil]
  rfl

/-- C7 witness: a batch archive holding the two valid submission
archives `h1_Ann_Lee_hw1.zip` and `h2_Bob_Kim_hw1.zip`, also available
as direct inputs. -/
theorem C7_nested_archive_associative_witness :
    (collect 2 "batch.zip" "submitted" "hw1" "hw1.ipynb"
      ⟨⟨[], [("batch.zip", FileData.zipData
        [("h1_Ann_Lee_hw1.zip",
          FileData.zipData [("nb1.ipynb", FileData.plain "NB1")]),
         ("h2_Bob_Kim_hw1.zip",
          FileData.zipData [("nb2.ipynb", FileData.plain "NB2")])])]⟩, [], 0⟩).1 =
      Except.ok
        [⟨"student", String.mk "1".data,
          join (join "submitted" (String.mk "1".data)) "hw1"⟩,
         ⟨"student", String.mk "2".data,
          join (join "submitted" (String.mk "2".data)) "hw1"⟩] ∧
    (collect 1 "h1_Ann_Lee_hw1.zip" "submitted" "hw1" "hw1.ipynb"
      ⟨⟨[], [("h1_Ann_Lee_hw1.zip",
        FileData.zipData [("nb1.ipynb", FileData.plain "NB1")])]⟩, [], 0⟩).1 =
      Except.ok
        [⟨"student", String.mk "1".data,
          join (join "submitted" (String.mk "1".data)) "hw1"⟩] ∧
    (collect 1 "h2_Bob_Kim_hw1.zip" "submitted" "hw1" "hw1.ipynb"
      ⟨⟨[], [("h2_Bob_Kim_hw1.zip",
        FileData.zipData [("nb2.ipynb", FileData.plain "NB2")])]⟩, [], 0⟩).1 =
      Except.ok
        [⟨"student", String.mk "2".data,
          join (join "submitted" (String.mk "2".data)) "hw1"⟩] :=
  C7_nested_archive_associative 0 "batch.zip" "submitted" "hw1" "hw1.ipynb"
    ⟨⟨[], [("batch.zip", FileData.zipData
      [("h1_Ann_Lee_hw1.zip",
        FileData.zipData [("nb1.ipynb", FileData.plain "NB1")]),
       ("h2_Bob_Kim_hw1.zip",
        FileData.zipData [("nb2.ipynb", FileData.plain "NB2")])])]⟩, [], 0⟩
    ⟨⟨[], [("h1_Ann_Lee_hw1.zip",
      FileData.zipData [("nb1.ipynb", FileData.plain "NB1")])]⟩, [], 0⟩
    ⟨⟨[], [("h2_Bob_Kim_hw1.zip",
      FileData.zipData [("nb2.ipynb", FileData.plain "NB2")])]⟩, [], 0⟩
    "1".data "Ann".data "Lee".data "hw1.zip".data
    "2".data "Bob".data "Kim".data "hw1.zip".data
    "h1_Ann_Lee_hw1.zip" "h2_Bob_Kim_hw1.zip" "nb1.ipynb" "nb2.ipynb" "NB1" "NB2"
    (by decide) (by decide) (by decide) (by decide) rfl
    (by decide) (by decide) (by decide) (by decide) (by decide)
    (by decide) (by decide) (by decide) (by decide) (by decide) (by decide)
    (by decide) (by intro ch cs h; cases h; decide)
    (by decide) (by decide) (by decide) (by decide) (by decide) (by decide)
    (by decide) (by intro ch cs h; cases h; decide)
    (by decide) (by decide) (by decide) (by decide)
    (by decide) (by decide) (by decide) (by decide) (by decide)
    (by decide) (by decide) (by decide) (by decide) (by decide)
    (by decide) rfl rfl

/-! ## No-op lemmas for re-runs over an already-populated target tree -/

theorem rev_dropWhile_prefix (p : Char → Bool) (l : List Char) :
    ∃ s, (l.reverse.dropWhile p).reverse ++ s = l := by
  obtain ⟨t, ht⟩ := List.dropWhile_suffix (l := l.reverse) (p := p)
  refine ⟨t.reverse, ?_⟩
  have h2 := congrArg List.reverse ht
  rw [List.reverse_append, List.reverse_reverse] at h2
  exact h2

theorem stripTrailL_prefix (l : List Char) : ∃ s, stripTrailL l ++ s = l := by
  unfold stripTrailL
  split
  · exact ⟨[], List.append_nil _⟩
  · exact rev_dropWhile_prefix _ l

theorem dirheadL_prefix (l : List Char) : ∃ s, dirheadL l ++ s = l :=
  rev_dropWhile_prefix _ l

theorem dirnameL_prefix (l : List Char) : ∃ s, dirnameL l ++ s = l := by
  unfold dirnameL
  obtain ⟨s1, hs1⟩ := stripTrailL_prefix (dirheadL l)
  obtain ⟨s2, hs2⟩ := dirheadL_prefix l
  refine ⟨s1 ++ s2, ?_⟩
  rw [← List.append_assoc, hs1, hs2]

theorem slashPrefixes_prefix (l pre : List Char) :
    ∀ x ∈ slashPrefixes pre l, ∃ s, x ++ s = pre ++ l := by
  induction l generalizing pre with
  | nil =>
    intro x hx
    cases hx
  | cons c cs ih =>
    intro x hx
    unfold slashPrefixes at hx
    by_cases hc : (c == '/' && !pre.isEmpty) = true
    · rw [if_pos hc] at hx
      rcases List.mem_cons.mp hx with h1 | h1
      · subst h1
        exact ⟨c :: cs, rfl⟩
      · obtain ⟨s, hs⟩ := ih (pre ++ [c]) x h1
        refine ⟨s, ?_⟩
        rw [hs]
        simp
    · rw [if_neg hc] at hx
      obtain ⟨s, hs⟩ := ih (pre ++ [c]) x hx
      refine ⟨s, ?_⟩
      rw [hs]
      simp

theorem mdList_prefix (p x : String)
    (hx : x ∈ (slashPrefixes [] (stripTrailL p.data)).map String.mk ++
      [String.mk (stripTrailL p.data)]) :
    ∃ s, x.data ++ s = p.data := by
  obtain ⟨s0, hs0⟩ := stripTrailL_prefix p.data
  rcases List.mem_append.mp hx with h1 | h1
  · obtain ⟨xd, hxd, hmk⟩ := List.mem_map.mp h1
    obtain ⟨s1, hs1⟩ := slashPrefixes_prefix (stripTrailL p.data) [] xd hxd
    rw [List.nil_append] at hs1
    refine ⟨s1 ++ s0, ?_⟩
    rw [← hmk]
    show xd ++ (s1 ++ s0) = p.data
    rw [← List.append_assoc, hs1, hs0]
  · rw [List.mem_singleton] at h1
    subst h1
    exact ⟨s0, hs0⟩

theorem startsWith_tmp_false_of_prefix (x p : String) (s : List Char)
    (hxs : x.data ++ s = p.data) (hp : startsWithS p "/tmp/" = false) :
    startsWithS x "/tmp/" = false := by
  cases hx : startsWithS x "/tmp/" with
  | false => rfl
  | true =>
    exfalso
    unfold startsWithS at hx hp
    rw [List.isPrefixOf_iff_prefix] at hx
    have h2 : ("/tmp/".data.isPrefixOf p.data) = true :=
      List.isPrefixOf_iff_prefix.mpr (hx.trans ⟨s, hxs⟩)
    rw [hp] at h2
    cases h2

theorem under_tmpName_false_of_not_tmp (n : Nat) (q : String)
    (h : startsWithS q "/tmp/" = false) : under (tmpName n) q = false := by
  cases hx : under (tmpName n) q with
  | false => rfl
  | true =>
    rw [under_tmpName_startsWith n q hx] at h
    cases h

theorem tmpfree_mdList (p x : String) (hp : startsWithS p "/tmp/" = false)
    (hx : x ∈ (slashPrefixes [] (stripTrailL p.data)).map String.mk ++
      [String.mk (stripTrailL p.data)]) :
    startsWithS x "/tmp/" = false := by
  obtain ⟨s, hs⟩ := mdList_prefix p x hx
  exact startsWith_tmp_false_of_prefix x p s hs hp

theorem tmpfree_mdList_parent (k x : String) (hk : startsWithS k "/tmp/" = false)
    (hx : x ∈ (slashPrefixes []
      (stripTrailL (String.mk (dirnameL k.data)).data)).map String.mk ++
      [String.mk (stripTrailL (String.mk (dirnameL k.data)).data)]) :
    startsWithS x "/tmp/" = false := by
  obtain ⟨s, hs⟩ := mdList_prefix (String.mk (dirnameL k.data)) x hx
  obtain ⟨s2, hs2⟩ := dirnameL_prefix k.data
  refine startsWith_tmp_false_of_prefix x k (s ++ s2) ?_ hk
  rw [← List.append_assoc, hs]
  exact hs2

theorem contains_foldl_mkdirOne_of (l : List String) (fs : FS) (x : String)
    (h : fs.dirs.contains x = true) :
    ((l.foldl FS.mkdirOne fs).dirs.contains x) = true := by
  refine foldl_pres (fun (b : FS) => b.dirs.contains x = true) _ l fs ?_ h
  intro b a hb
  exact contains_mkdirOne b a x hb

theorem contains_all_foldl_mkdirOne (l : List String) (fs : FS) :
    ∀ x ∈ l, ((l.foldl FS.mkdirOne fs).dirs.contains x) = true := by
  induction l generalizing fs with
  | nil =>
    intro x hx
    cases hx
  | cons a as ih =>
    intro x hx
    rcases List.mem_cons.mp hx with h1 | h1
    · subst h1
      rw [List.foldl_cons]
      exact contains_foldl_mkdirOne_of as (fs.mkdirOne x) x
        (mkdirOne_contains_self fs x)
    · rw [List.foldl_cons]
      exact ih (fs.mkdirOne a) x h1

theorem contains_makedirs_all (fs : FS) (p : String) :
    ∀ x ∈ (slashPrefixes [] (stripTrailL p.data)).map String.mk ++
      [String.mk (stripTrailL p.data)],
      ((fs.makedirs p).dirs.contains x) = true := by
  unfold FS.makedirs
  exact contains_all_foldl_mkdirOne _ fs

theorem mkdirOne_noop (fs : FS) (p : String) (h : fs.dirs.contains p = true) :
    fs.mkdirOne p = fs := by
  unfold FS.mkdirOne
  rw [if_pos h]

theorem foldl_mkdirOne_noop (l : List String) (fs : FS)
    (h : ∀ x ∈ l, fs.dirs.contains x = true) : l.foldl FS.mkdirOne fs = fs := by
  induction l with
  | nil => rfl
  | cons a as ih =>
    rw [List.foldl_cons, mkdirOne_noop fs a (h a (by simp))]
    exact ih (fun x hx => h x (by simp [hx]))

theorem makedirs_noop (fs : FS) (p : String)
    (h : ∀ x ∈ (slashPrefixes [] (stripTrailL p.data)).map String.mk ++
      [String.mk (stripTrailL p.data)], fs.dirs.contains x = true) :
    fs.makedirs p = fs := by
  unfold FS.makedirs
  exact foldl_mkdirOne_noop _ fs h

theorem mem_dirs_foldl_mkdirOne (l : List String) (fs : FS) (x : String)
    (h : x ∈ (l.foldl FS.mkdirOne fs).dirs) : x ∈ fs.dirs ∨ x ∈ l := by
  induction l generalizing fs with
  | nil => exact Or.inl h
  | cons a as ih =>
    rw [List.foldl_cons] at h
    rcases ih (fs.mkdirOne a) h with h1 | h1
    · unfold FS.mkdirOne at h1
      split at h1
      · exact Or.inl h1
      · rcases List.mem_append.mp h1 with h2 | h2
        · exact Or.inl h2
        · rw [List.mem_singleton] at h2
          subst h2
          exact Or.inr (by simp)
    · exact Or.inr (by simp [h1])

theorem mem_dirs_makedirs (fs : FS) (p x : String)
    (h : x ∈ (fs.makedirs p).dirs) :
    x ∈ fs.dirs ∨ x ∈ (slashPrefixes [] (stripTrailL p.data)).map String.mk ++
      [String.mk (stripTrailL p.data)] := by
  unfold FS.makedirs at h
  exact mem_dirs_foldl_mkdirOne _ fs x h

theorem setFile_noop (l : List (String × FileData)) (k : String) (d : FileData)
    (h : l.find? (fun pr => pr.1 == k) = some (k, d)) : setFile l k d = l := by
  induction l with
  | nil => cases h
  | cons qe rest ih =>
    obtain ⟨q, e⟩ := qe
    by_cases hq : (q == k) = true
    · simp only [List.find?, hq] at h
      injection h with h2
      rw [Prod.mk.injEq] at h2
      unfold setFile
      rw [if_pos hq, ← h2.2]
    · have hqf : (q == k) = false := by
        cases hx : (q == k) with
        | true => exact absurd hx hq
        | false => rfl
      simp only [List.find?, hqf] at h
      simp only [setFile, hqf, Bool.false_eq_true, if_false]
      rw [ih h]

theorem dirs_writeFile (fs : FS) (k : String) (d : FileData) :
    (fs.writeFile k d).dirs =
      (if (String.mk (dirnameL k.data) == "") = true then fs
       else fs.makedirs (String.mk (dirnameL k.data))).dirs := rfl

theorem writeFile_noop (fs : FS) (k : String) (d : FileData)
    (hpar : (String.mk (dirnameL k.data) == "") = false →
      fs.makedirs (String.mk (dirnameL k.data)) = fs)
    (hfind : fs.files.find? (fun pr => pr.1 == k) = some (k, d)) :
    fs.writeFile k d = fs := by
  unfold FS.writeFile
  dsimp only
  by_cases hp : (String.mk (dirnameL k.data) == "") = true
  · rw [if_pos hp, setFile_noop fs.files k d hfind]
  · have hpf : (String.mk (dirnameL k.data) == "") = false := by
      cases hx : (String.mk (dirnameL k.data) == "") with
      | true => exact absurd hx hp
      | false => rfl
    rw [if_neg hp, hpar hpf, setFile_noop fs.files k d hfind]

theorem removeUnder_noop (fs : FS) (t : String)
    (hf : ∀ pr ∈ fs.files, under t pr.1 = false)
    (hd : ∀ dq ∈ fs.dirs, under t dq = false) : fs.removeUnder t = fs := by
  unfold FS.removeUnder
  have h1 : fs.dirs.filter (fun d => !under t d) = fs.dirs :=
    List.filter_eq_self.mpr (fun a ha => by rw [hd a ha]; rfl)
  have h2 : fs.files.filter (fun pr => !under t pr.1) = fs.files :=
    List.filter_eq_self.mpr (fun a ha => by rw [hf a ha]; rfl)
  rw [h1, h2]

/-- Unfolding of `extract_files` on a bare notebook input. -/
theorem extract_files_ipynb (inputfile target : String) (sub : Submission)
    (notebook_filename : String) (st : St)
    (hip : ((splitext inputfile).2 == ".ipynb") = true) :
    extract_files inputfile target sub notebook_filename st =
      (match placeLoop [inputfile] none sub.dir notebook_filename
          { st with tmp := st.tmp + 1 } with
       | (Except.ok notebook, st3) =>
         (Except.ok [inputfile], cleanupTmp (tmpName st.tmp)
           (if notebook.isNone then
             { st3 with log := st3.log ++ [.fatal "No notebook found in submission!"] }
            else st3))
       | (Except.error e, st3) =>
         (Except.error e, cleanupTmp (tmpName st.tmp) st3)) := by
  simp only [extract_files, hip]
  rfl

set_option maxHeartbeats 2000000 in
/-- `collect` on an individually-valid bare notebook submission: the
full resulting state.  The target tree is created, the notebook is
copied to the canonical name, and the scratch directory is discarded. -/
theorem collect_ipynb_W (n : Nat) (p target assignment nf : String) (st : St)
    (ds fnm lnm rest : List Char) (c : String)
    (hds : ds ≠ []) (hdsall : ∀ ch ∈ ds, digitB ch = true)
    (hfn : fnm ≠ []) (hfnall : ∀ ch ∈ fnm, notUnderscore ch = true)
    (hln : lnm ≠ []) (hlnall : ∀ ch ∈ lnm, notUnderscore ch = true)
    (hrest : rest ≠ []) (hresthd : ∀ ch cs, rest = ch :: cs → notNewline ch = true)
    (hbn : basename p =
      String.mk ('h' :: (ds ++ '_' :: (fnm ++ '_' :: (lnm ++ '_' :: rest)))))
    (hip : ((splitext p).2 == ".ipynb") = true)
    (hread : st.fs.readFile? p = some (FileData.plain c)) :
    collect (n + 1) p target assignment nf st =
      (Except.ok [⟨"student", String.mk ds,
        join (join target (String.mk ds)) assignment⟩],
       { st with
         tmp := st.tmp + 1,
         fs := ((st.fs.makedirs
             (join (join target (String.mk ds)) assignment)).writeFile
           (join (join (join target (String.mk ds)) assignment) nf)
           (FileData.plain c)).removeUnder (tmpName st.tmp),
         log := ((st.log ++
           [.info ("student submission found: " ++ basename p)]) ++
           [.debug ("> " ++ p)]) ++ [.debug ("notebook found: " ++ p)] }) := by
  have hbd : (basename p).data =
      'h' :: (ds ++ '_' :: (fnm ++ '_' :: (lnm ++ '_' :: rest))) := by rw [hbn]
  have hg := match_student_full ds fnm lnm rest hds hdsall hfn hfnall hln hlnall
    hrest hresthd
  rw [← hbd] at hg
  have hcm := collect_matched_student n p target assignment nf st _ hg rfl
  have hnum : matchGroup
      [("type", "h"), ("number", String.mk ds), ("firstname", String.mk fnm),
       ("lastname", String.mk lnm),
       ("filename", String.mk (rest.takeWhile notNewline))]
      "number" = String.mk ds := rfl
  rw [hnum] at hcm
  have hef : extract_files p target
      ⟨"student", String.mk ds, join (join target (String.mk ds)) assignment⟩ nf
      { st with
        fs := st.fs.makedirs (join (join target (String.mk ds)) assignment),
        log := st.log ++
          [.info ("student submission found: " ++ basename p)] } =
      (Except.ok [p],
       { st with
         tmp := st.tmp + 1,
         fs := ((st.fs.makedirs
             (join (join target (String.mk ds)) assignment)).writeFile
           (join (join (join target (String.mk ds)) assignment) nf)
           (FileData.plain c)).removeUnder (tmpName st.tmp),
         log := ((st.log ++
           [.info ("student submission found: " ++ basename p)]) ++
           [.debug ("> " ++ p)]) ++ [.debug ("notebook found: " ++ p)] }) := by
    rw [extract_files_ipynb p target _ nf _ hip]
    rw [placeLoop_cons, hip, if_pos rfl]
    rw [copyfile_ok _ _ _ (FileData.plain c)
      (show (st.fs.makedirs
          (join (join target (String.mk ds)) assignment)).readFile? p =
        some (FileData.plain c) from by
        rw [readFile?_makedirs]
        exact hread)]
    rfl
  rw [hcm, hef]

set_option maxHeartbeats 2000000 in
/-- C8: re-running `collect` on the same individually-valid notebook
input is idempotent: the second run returns the same submission list,
succeeds although the target directory already exists, and leaves the
filesystem — directory list and file list alike — exactly as the first
run left it: no duplicate identity directories, no wiped content, only
the same deterministic overwrite of the canonical notebook path. -/
theorem C8_rerun_idempotent (n : Nat) (p target assignment nf : String) (st : St)
    (ds fnm lnm rest : List Char) (c : String)
    (hds : ds ≠ []) (hdsall : ∀ ch ∈ ds, digitB ch = true)
    (hfn : fnm ≠ []) (hfnall : ∀ ch ∈ fnm, notUnderscore ch = true)
    (hln : lnm ≠ []) (hlnall : ∀ ch ∈ lnm, notUnderscore ch = true)
    (hrest : rest ≠ []) (hresthd : ∀ ch cs, rest = ch :: cs → notNewline ch = true)
    (hbn : basename p =
      String.mk ('h' :: (ds ++ '_' :: (fnm ++ '_' :: (lnm ++ '_' :: rest)))))
    (hip : ((splitext p).2 == ".ipynb") = true)
    (hread : st.fs.readFile? p = some (FileData.plain c))
    (hp_tmp : startsWithS p "/tmp/" = false)
    (hne : (p == join (join (join target (String.mk ds)) assignment) nf) = false)
    (hk_tmp : startsWithS (join (join (join target (String.mk ds)) assignment) nf)
      "/tmp/" = false)
    (hsub_tmp : startsWithS (join (join target (String.mk ds)) assignment)
      "/tmp/" = false)
    (hnotmpf : ∀ pr ∈ st.fs.files, startsWithS pr.1 "/tmp/" = false)
    (hnotmpd : ∀ dq ∈ st.fs.dirs, startsWithS dq "/tmp/" = false) :
    (collect (n + 1) p target assignment nf st).1 =
      Except.ok [⟨"student", String.mk ds,
        join (join target (String.mk ds)) assignment⟩] ∧
    (collect (n + 1) p target assignment nf
      ((collect (n + 1) p target assignment nf st).2)).1 =
      Except.ok [⟨"student", String.mk ds,
        join (join target (String.mk ds)) assignment⟩] ∧
    ((collect (n + 1) p target assignment nf
      ((collect (n + 1) p target assignment nf st).2)).2).fs =
      ((collect (n + 1) p target assignment nf st).2).fs := by
  have hW1 := collect_ipynb_W n p target assignment nf st ds fnm lnm rest c
    hds hdsall hfn hfnall hln hlnall hrest hresthd hbn hip hread
  have hread2 : (((st.fs.makedirs
      (join (join target (String.mk ds)) assignment)).writeFile
        (join (join (join target (String.mk ds)) assignment) nf)
        (FileData.plain c)).removeUnder (tmpName st.tmp)).readFile? p =
      some (FileData.plain c) := by
    rw [readFile?_removeUnder _ _ _ (under_tmpName_false_of_not_tmp _ _ hp_tmp),
      readFile?_writeFile_ne _ _ _ _ hne, readFile?_makedirs]
    exact hread
  have hW2 := collect_ipynb_W n p target assignment nf
    { st with
      tmp := st.tmp + 1,
      fs := ((st.fs.makedirs
          (join (join target (String.mk ds)) assignment)).writeFile
        (join (join (join target (String.mk ds)) assignment) nf)
        (FileData.plain c)).removeUnder (tmpName st.tmp),
      log := ((st.log ++
        [.info ("student submission found: " ++ basename p)]) ++
        [.debug ("> " ++ p)]) ++ [.debug ("notebook found: " ++ p)] }
    ds fnm lnm rest c
    hds hdsall hfn hfnall hln hlnall hrest hresthd hbn hip hread2
  have hconsub : ∀ x ∈ (slashPrefixes []
      (stripTrailL (join (join target (String.mk ds)) assignment).data)).map
        String.mk ++
      [String.mk (stripTrailL (join (join target (String.mk ds)) assignment).data)],
      ((((st.fs.makedirs
        (join (join target (String.mk ds)) assignment)).writeFile
          (join (join (join target (String.mk ds)) assignment) nf)
          (FileData.plain c)).removeUnder (tmpName st.tmp)).dirs.contains x) =
        true := by
    intro x hx
    have h1 : ((st.fs.makedirs
        (join (join target (String.mk ds)) assignment)).dirs.contains x) = true :=
      contains_makedirs_all st.fs _ x hx
    have h2 : (((st.fs.makedirs
        (join (join target (String.mk ds)) assignment)).writeFile
        (join (join (join target (String.mk ds)) assignment) nf)
        (FileData.plain c)).dirs.contains x) = true :=
      contains_writeFile _ _ _ _ h1
    have hxt : startsWithS x "/tmp/" = false := tmpfree_mdList _ x hsub_tmp hx
    show ((((st.fs.makedirs
      (join (join target (String.mk ds)) assignment)).writeFile
        (join (join (join target (String.mk ds)) assignment) nf)
        (FileData.plain c)).dirs.filter (fun d2 => !under (tmpName st.tmp) d2)).contains
        x) = true
    rw [contains_filter_of _ _ x
      (by rw [under_tmpName_false_of_not_tmp _ _ hxt]; rfl)]
    exact h2
  have hfs1a : (((st.fs.makedirs
      (join (join target (String.mk ds)) assignment)).writeFile
        (join (join (join target (String.mk ds)) assignment) nf)
        (FileData.plain c)).removeUnder (tmpName st.tmp)).makedirs
      (join (join target (String.mk ds)) assignment) =
      ((st.fs.makedirs
        (join (join target (String.mk ds)) assignment)).writeFile
          (join (join (join target (String.mk ds)) assignment) nf)
          (FileData.plain c)).removeUnder (tmpName st.tmp) :=
    makedirs_noop _ _ hconsub
  have hfind1 : (((st.fs.makedirs
      (join (join target (String.mk ds)) assignment)).writeFile
        (join (join (join target (String.mk ds)) assignment) nf)
        (FileData.plain c)).removeUnder (tmpName st.tmp)).files.find?
      (fun pr => pr.1 == join (join (join target (String.mk ds)) assignment) nf) =
      some (join (join (join target (String.mk ds)) assignment) nf,
        FileData.plain c) := by
    show ((((st.fs.makedirs
      (join (join target (String.mk ds)) assignment)).writeFile
        (join (join (join target (String.mk ds)) assignment) nf)
        (FileData.plain c)).files.filter
          (fun pr => !under (tmpName st.tmp) pr.1)).find?
      (fun pr => pr.1 == join (join (join target (String.mk ds)) assignment) nf)) =
      some (join (join (join target (String.mk ds)) assignment) nf,
        FileData.plain c)
    rw [find?_filter_key _ _ _
      (fun d2 => by rw [under_tmpName_false_of_not_tmp _ _ hk_tmp]; rfl)]
    rw [files_writeFile, files_makedirs]
    exact find?_setFile_self _ _ _
  have hmemdirs : ∀ dq ∈ (((st.fs.makedirs
      (join (join target (String.mk ds)) assignment)).writeFile
        (join (join (join target (String.mk ds)) assignment) nf)
        (FileData.plain c)).removeUnder (tmpName st.tmp)).dirs,
      startsWithS dq "/tmp/" = false := by
    intro dq hdq
    have hdq2 : dq ∈ ((st.fs.makedirs
        (join (join target (String.mk ds)) assignment)).writeFile
        (join (join (join target (String.mk ds)) assignment) nf)
        (FileData.plain c)).dirs := List.mem_of_mem_filter hdq
    rw [dirs_writeFile] at hdq2
    by_cases hpe : ((String.mk (dirnameL
        (join (join (join target (String.mk ds)) assignment) nf).data) == "")) = true
    · rw [if_pos hpe] at hdq2
      rcases mem_dirs_makedirs _ _ _ hdq2 with h1 | h1
      · exact hnotmpd dq h1
      · exact tmpfree_mdList _ dq hsub_tmp h1
    · rw [if_neg hpe] at hdq2
      rcases mem_dirs_makedirs _ _ _ hdq2 with h1 | h1
      · rcases mem_dirs_makedirs _ _ _ h1 with h2 | h2
        · exact hnotmpd dq h2
        · exact tmpfree_mdList _ dq hsub_tmp h2
      · exact tmpfree_mdList_parent _ dq hk_tmp h1
  have hmemfiles : ∀ pr ∈ (((st.fs.makedirs
      (join (join target (String.mk ds)) assignment)).writeFile
        (join (join (join target (String.mk ds)) assignment) nf)
        (FileData.plain c)).removeUnder (tmpName st.tmp)).files,
      startsWithS pr.1 "/tmp/" = false := by
    intro pr hpr
    have hpr2 : pr ∈ ((st.fs.makedirs
        (join (join target (String.mk ds)) assignment)).writeFile
        (join (join (join target (String.mk ds)) assignment) nf)
        (FileData.plain c)).files := List.mem_of_mem_filter hpr
    rw [files_writeFile, files_makedirs] at hpr2
    rcases mem_setFile _ _ _ _ hpr2 with h1 | h1
    · rw [h1]
      exact hk_tmp
    · exact hnotmpf pr h1
  have hconpar : (String.mk (dirnameL
      (join (join (join target (String.mk ds)) assignment) nf).data) == "") =
        false →
      (((st.fs.makedirs
        (join (join target (String.mk ds)) assignment)).writeFile
          (join (join (join target (String.mk ds)) assignment) nf)
          (FileData.plain c)).removeUnder (tmpName st.tmp)).makedirs
        (String.mk (dirnameL
          (join (join (join target (String.mk ds)) assignment) nf).data)) =
      ((st.fs.makedirs
        (join (join target (String.mk ds)) assignment)).writeFile
          (join (join (join target (String.mk ds)) assignment) nf)
          (FileData.plain c)).removeUnder (tmpName st.tmp) := by
    intro hpe
    refine makedirs_noop _ _ ?_
    intro x hx
    have hxt : startsWithS x "/tmp/" = false := tmpfree_mdList_parent _ x hk_tmp hx
    have h2 : (((st.fs.makedirs
        (join (join target (String.mk ds)) assignment)).writeFile
        (join (join (join target (String.mk ds)) assignment) nf)
        (FileData.plain c)).dirs.contains x) = true := by
      show ((if (String.mk (dirnameL
          (join (join (join target (String.mk ds)) assignment) nf).data) == "") = true
        then (st.fs.makedirs (join (join target (String.mk ds)) assignment))
        else (st.fs.makedirs
          (join (join target (String.mk ds)) assignment)).makedirs
          (String.mk (dirnameL
            (join (join (join target (String.mk ds)) assignment) nf).data))).dirs.contains
          x) = true
      rw [if_neg (by rw [hpe]; exact fun hc => Bool.false_ne_true hc)]
      exact contains_makedirs_all _ _ x hx
    show ((((st.fs.makedirs
      (join (join target (String.mk ds)) assignment)).writeFile
        (join (join (join target (String.mk ds)) assignment) nf)
        (FileData.plain c)).dirs.filter (fun d2 => !under (tmpName st.tmp) d2)).contains
        x) = true
    rw [contains_filter_of _ _ x
      (by rw [under_tmpName_false_of_not_tmp _ _ hxt]; rfl)]
    exact h2
  have hfs1b : (((st.fs.makedirs
      (join (join target (String.mk ds)) assignment)).writeFile
        (join (join (join target (String.mk ds)) assignment) nf)
        (FileData.plain c)).removeUnder (tmpName st.tmp)).writeFile
      (join (join (join target (String.mk ds)) assignment) nf) (FileData.plain c) =
      ((st.fs.makedirs
        (join (join target (String.mk ds)) assignment)).writeFile
          (join (join (join target (String.mk ds)) assignment) nf)
          (FileData.plain c)).removeUnder (tmpName st.tmp) :=
    writeFile_noop _ _ _ hconpar hfind1
  have hfs1c : (((st.fs.makedirs
      (join (join target (String.mk ds)) assignment)).writeFile
        (join (join (join target (String.mk ds)) assignment) nf)
        (FileData.plain c)).removeUnder (tmpName st.tmp)).removeUnder
      (tmpName (st.tmp + 1)) =
      ((st.fs.makedirs
        (join (join target (String.mk ds)) assignment)).writeFile
          (join (join (join target (String.mk ds)) assignment) nf)
          (FileData.plain c)).removeUnder (tmpName st.tmp) :=
    removeUnder_noop _ _
      (fun pr hpr => under_tmpName_false_of_not_tmp _ _ (hmemfiles pr hpr))
      (fun dq hdq => under_tmpName_false_of_not_tmp _ _ (hmemdirs dq hdq))
  refine ⟨?_, ?_, ?_⟩
  · rw [hW1]
  · rw [hW1]
    dsimp only
    rw [hW2]
  · rw [hW1]
    dsimp only
    rw [hW2]
    dsimp only
    rw [hfs1a, hfs1b]
    exact hfs1c

/-- C8 witness: running the spec scenario `h42_Jane_Doe_hw3.ipynb` twice
in sequence. -/
theorem C8_rerun_idempotent_witness :
    (collect 1 "h42_Jane_Doe_hw3.ipynb" "submitted" "hw3" "hw3.ipynb"
      ⟨⟨[], [("h42_Jane_Doe_hw3.ipynb", FileData.plain "NB")]⟩, [], 0⟩).1 =
      Except.ok [⟨"student", String.mk "42".data,
        join (join "submitted" (String.mk "42".data)) "hw3"⟩] ∧
    (collect 1 "h42_Jane_Doe_hw3.ipynb" "submitted" "hw3" "hw3.ipynb"
      ((collect 1 "h42_Jane_Doe_hw3.ipynb" "submitted" "hw3" "hw3.ipynb"
        ⟨⟨[], [("h42_Jane_Doe_hw3.ipynb", FileData.plain "NB")]⟩, [], 0⟩).2)).1 =
      Except.ok [⟨"student", String.mk "42".data,
        join (join "submitted" (String.mk "42".data)) "hw3"⟩] ∧
    ((collect 1 "h42_Jane_Doe_hw3.ipynb" "submitted" "hw3" "hw3.ipynb"
      ((collect 1 "h42_Jane_Doe_hw3.ipynb" "submitted" "hw3" "hw3.ipynb"
        ⟨⟨[], [("h42_Jane_Doe_hw3.ipynb", FileData.plain "NB")]⟩, [], 0⟩).2)).2).fs =
      ((collect 1 "h42_Jane_Doe_hw3.ipynb" "submitted" "hw3" "hw3.ipynb"
        ⟨⟨[], [("h42_Jane_Doe_hw3.ipynb", FileData.plain "NB")]⟩, [], 0⟩).2).fs :=
  C8_rerun_idempotent 0 "h42_Jane_Doe_hw3.ipynb" "submitted" "hw3" "hw3.ipynb"
    ⟨⟨[], [("h42_Jane_Doe_hw3.ipynb", FileData.plain "NB")]⟩, [], 0⟩
    "42".data "Jane".data "Doe".data "hw3.ipynb".data "NB"
    (by decide) (by decide) (by decide) (by decide) (by decide) (by decide)
    (by decide) (by intro ch cs h; cases h; decide)
    (by decide) (by decide) rfl
    (by decide) (by decide) (by decide) (by decide) (by decide) (by decide)

end Autograde
